import Mathlib

/-!
BakeObj: the texture packer (`src/packer.cpp`)

Shallow embedding of the tile hierarchy (`TextureTile`, `TextureTileLeaf`,
`TextureTileQuad`), of the placement query `getTileOffset`, and of the merge loop of
`packTextures`.

Conventions of the embedding
* C++ `int` values are `Int`; no claim treated here depends on overflow.
* A pointer to a tile object is the natural number at which the object was allocated;
  `tile == this` is equality of these addresses.
* `float` data of the mesh is carried as `Rat`; the packer performs no arithmetic on it.
-/

namespace BakeObj

/-! ## Data model -/

/-- The C arrays `int offsetsX[4]` / `int offsetsY[4]`. -/
structure Int4 where
  i0 : Int
  i1 : Int
  i2 : Int
  i3 : Int
deriving DecidableEq, Repr

/-- A value of type `TextureTile*` seen together with what it points to: `NULL`, a
`TextureTileLeaf` or a `TextureTileQuad`.  `this` is the address of the object, `parent`,
`sizeX`, `sizeY` are the fields of the base class (packer.cpp 15-17).  The four child slots
`children[0..3]` are `c0 .. c3`.  The source declares the slots as `TextureTileQuad*`
(packer.cpp 48), so in the program a slot holds NULL or a Quad, never a Leaf: the trees of
the declared types are those that satisfy `wellTyped`.  The inductive type itself is wider
(a slot can be given any tile): what is proved for every tile holds for the trees of the
declared types, and a statement that is meant for these only carries `wellTyped`. -/
inductive TextureTile where
  | NULL : TextureTile
  | leaf (this : Nat) (parent : Option Nat) (sizeX sizeY : Int)
      (exactWidth exactHeight : Int) (image : Nat) : TextureTile
  | quad (this : Nat) (parent : Option Nat) (sizeX sizeY : Int)
      (c0 c1 c2 c3 : TextureTile) (offsetsX offsetsY : Int4) : TextureTile
deriving DecidableEq, Repr

namespace TextureTile

/-- Test `children[i] != NULL` negated. -/
def isNull : TextureTile → Bool
  | .NULL => true
  | _ => false

/-- The tile is a value of the type `TextureTileQuad*`: NULL or a Quad. -/
def isQuadPtr : TextureTile → Bool
  | .leaf _ _ _ _ _ _ _ => false
  | _ => true

/-- The tree is one of the declared types: every slot `children[i]` of every Quad in it
holds a value of type `TextureTileQuad*` (packer.cpp 48). -/
def wellTyped : TextureTile → Bool
  | .NULL => true
  | .leaf _ _ _ _ _ _ _ => true
  | .quad _ _ _ _ c0 c1 c2 c3 _ _ =>
    c0.isQuadPtr && c1.isQuadPtr && c2.isQuadPtr && c3.isQuadPtr &&
      c0.wellTyped && c1.wellTyped && c2.wellTyped && c3.wellTyped

/-- Field `sizeX` (0 for a NULL pointer, which the code never dereferences). -/
def sizeX : TextureTile → Int
  | .NULL => 0
  | .leaf _ _ sx _ _ _ _ => sx
  | .quad _ _ sx _ _ _ _ _ _ _ => sx

/-- Field `sizeY`. -/
def sizeY : TextureTile → Int
  | .NULL => 0
  | .leaf _ _ _ sy _ _ _ => sy
  | .quad _ _ _ sy _ _ _ _ _ _ => sy

/-- packer.cpp 19: `maxSize() = std::max<int>(sizeX, sizeY)`. -/
def maxSize (t : TextureTile) : Int := max t.sizeX t.sizeY

/-- packer.cpp 20: `area() = sizeX*sizeY`. -/
def area (t : TextureTile) : Int := t.sizeX * t.sizeY

end TextureTile

/-- What a call of `getTileOffset` leaves behind: `returned` is the value of the return
statement that was executed (`none` when control reaches the closing brace of the function
without executing one), `resultX` / `resultY` are the reference parameters after the call. -/
structure CallResult where
  returned : Option Bool
  resultX : Int
  resultY : Int
deriving DecidableEq, Repr

/-- The variables of `TextureTileQuad::getTileOffset` while its loop runs: the local
`result` (`none` once it was assigned from a call that returned no value) and the two
reference parameters. -/
structure QuadLocals where
  result : Option Bool
  resultX : Int
  resultY : Int
deriving DecidableEq, Repr

/-- One iteration of packer.cpp 58-59:
`result = result || (children[i]!=NULL && children[i]->getTileOffset(...))`.
`childIsNull` is the test on the slot, `call` is the virtual call, which receives the
current values of the reference parameters.  Both `||` and `&&` short-circuit: the child is
called only while `result` is false and the slot is not NULL.  Once `result` holds no
defined value (it was assigned from a call that returned none) the locals are left as they
are. -/
def quadStep (st : QuadLocals) (childIsNull : Bool) (call : Int → Int → CallResult) :
    QuadLocals :=
  match st.result with
  | some false =>
    if childIsNull then st
    else
      let r := call st.resultX st.resultY
      { result := r.returned, resultX := r.resultX, resultY := r.resultY }
  | _ => st

namespace TextureTile

/-- The loop of packer.cpp 55-60 (`TextureTileQuad::getTileOffset`), written over the four
slots, given the calls into the children. -/
def quadLoop (resultX resultY : Int) (n0 n1 n2 n3 : Bool)
    (k0 k1 k2 k3 : Int → Int → CallResult) : QuadLocals :=
  let s0 : QuadLocals := { result := some false, resultX := resultX, resultY := resultY }
  let s1 := quadStep s0 n0 k0
  let s2 := quadStep s1 n1 k1
  let s3 := quadStep s2 n2 k2
  quadStep s3 n3 k3

/-- The virtual function `getTileOffset(tile, offsetX, offsetY, resultX, resultY)`,
(packer.cpp 53-61 for a Quad, 80-89 for a Leaf).  The last two arguments are the values the
reference parameters hold on entry.

* Leaf: `if (tile==this) { resultX = offsetX; resultY = offsetY; return true; } else return false;`
* Quad: runs the loop over the four slots; the body ends at line 61 without a return
  statement, so no value is returned.
* The function is never called through a NULL pointer (line 58 tests the slot first). -/
def getTileOffset : TextureTile → Nat → Int → Int → Int → Int → CallResult
  | .NULL, _, _, _, resultX, resultY =>
    { returned := none, resultX := resultX, resultY := resultY }
  | .leaf this _ _ _ _ _ _, tile, offsetX, offsetY, resultX, resultY =>
    if tile = this then { returned := some true, resultX := offsetX, resultY := offsetY }
    else { returned := some false, resultX := resultX, resultY := resultY }
  | .quad _ _ _ _ c0 c1 c2 c3 ox oy, tile, offsetX, offsetY, resultX, resultY =>
    let st := quadLoop resultX resultY c0.isNull c1.isNull c2.isNull c3.isNull
      (fun x y => c0.getTileOffset tile (offsetX + ox.i0) (offsetY + oy.i0) x y)
      (fun x y => c1.getTileOffset tile (offsetX + ox.i1) (offsetY + oy.i1) x y)
      (fun x y => c2.getTileOffset tile (offsetX + ox.i2) (offsetY + oy.i2) x y)
      (fun x y => c3.getTileOffset tile (offsetX + ox.i3) (offsetY + oy.i3) x y)
    { returned := none, resultX := st.resultX, resultY := st.resultY }

/-- The locals of `TextureTileQuad::getTileOffset` when its loop has finished (the value of
`result` is then dropped, see `getTileOffset`).  For a tile that is not a Quad there is no
such loop and the entry values are given back. -/
def quadLocals : TextureTile → Nat → Int → Int → Int → Int → QuadLocals
  | .quad _ _ _ _ c0 c1 c2 c3 ox oy, tile, offsetX, offsetY, resultX, resultY =>
    quadLoop resultX resultY c0.isNull c1.isNull c2.isNull c3.isNull
      (fun x y => c0.getTileOffset tile (offsetX + ox.i0) (offsetY + oy.i0) x y)
      (fun x y => c1.getTileOffset tile (offsetX + ox.i1) (offsetY + oy.i1) x y)
      (fun x y => c2.getTileOffset tile (offsetX + ox.i2) (offsetY + oy.i2) x y)
      (fun x y => c3.getTileOffset tile (offsetX + ox.i3) (offsetY + oy.i3) x y)
  | _, _, _, _, resultX, resultY =>
    { result := some false, resultX := resultX, resultY := resultY }

end TextureTile

/-! ## Mesh data (declared in `parser.h`, which is not part of the sources at hand) -/

/-- Modelled from the spec: `Vector3f`, three `float` components (`data[0..2]` in
parser.cpp); the type declaration itself is in the missing header. -/
structure Vector3f where
  d0 : Rat
  d1 : Rat
  d2 : Rat
deriving DecidableEq, Repr

/-- Modelled from the spec: `Vector2f`, two `float` components; the type declaration is in
the missing header. -/
structure Vector2f where
  d0 : Rat
  d1 : Rat
deriving DecidableEq, Repr

/-- Modelled from the spec: `Vector3i`, three `int` components (a triangle's three vertex
indices); the type declaration is in the missing header. -/
structure Vector3i where
  d0 : Int
  d1 : Int
  d2 : Int
deriving DecidableEq, Repr

/-- Modelled from the spec: `Material` (missing header), with the fields that parser.cpp
reads and writes: colour and scalar properties and the texture file paths. -/
structure Material where
  illuminationModel : Int
  colorDiffuse : Vector3f
  colorSpecular : Vector3f
  colorAmbient : Vector3f
  colorEmissive : Vector3f
  shininess : Rat
  transparency : Rat
  textureDiffuse : String
  textureSpecular : String
  textureAmbient : String
  textureEmissive : String
  textureBump : String
  textureTransparency : String
deriving DecidableEq, Repr

/-- Modelled from the spec: `MeshComponent` (missing header): a named component with the
name of its material and its triangles. -/
structure MeshComponent where
  componentName : String
  materialName : String
  faces : List Vector3i
deriving DecidableEq, Repr

/-- Modelled from the spec: `Mesh` (missing header): vertex positions, normals, texture
coordinates, the components, and the materials (`MaterialMapType`, a `std::map` from
material name to `Material`, kept here as the list of its entries in iteration order). -/
structure Mesh where
  vertices : List Vector3f
  normals : List Vector3f
  texcoord : List Vector2f
  components : List MeshComponent
  materials : List (String × Material)
deriving DecidableEq, Repr

/-- A default-constructed `Mesh` (`Mesh mesh_out;`, bakeObj.cpp 23): every container is
empty. -/
def Mesh.init : Mesh :=
  { vertices := [], normals := [], texcoord := [], components := [], materials := [] }

/-! ## `packTextures` -/

/-- packer.cpp 40-43 with 35-38: `compareTiles(a, b) = (*a < *b) = a.maxSize() < b.maxSize()`. -/
def compareTiles (a b : TextureTile) : Bool := decide (a.maxSize < b.maxSize)

/-- Insertion of `a` in front of the first element that does not compare less than `a`. -/
def listInsert {α : Type} (cmp : α → α → Bool) (a : α) : List α → List α
  | [] => [a]
  | b :: l => if cmp b a then b :: listInsert cmp a l else a :: b :: l

/-- The library call `std::list::sort(comp)`: a stable sort by the comparison `comp`
(elements that compare equivalent keep their relative order). -/
def listSort {α : Type} (cmp : α → α → Bool) : List α → List α
  | [] => []
  | a :: l => listInsert cmp a (listSort cmp l)

/-- What `TextureTileLeaf::loadFromFile` stores in the leaf.  The member function is
declared at packer.cpp 79 and defined in none of the sources, so the packer is given it as
a parameter of type `String → LeafImage`. -/
structure LeafImage where
  sizeX : Int
  sizeY : Int
  exactWidth : Int
  exactHeight : Int
  image : Nat
deriving DecidableEq, Repr

/-- The local variables of `packTextures` that hold tiles.  `tiles` is the store of the
objects created with `new`, in allocation order: the pointer `p` designates `tiles[p]`,
which shows the object together with the tiles its child slots point to.
`headTiles`, `allTiles` are the two `std::list<TextureTile*>`, `materialTiles` the
`std::map<std::string, TextureTileLeaf*>` (as the list of its entries). -/
structure PackState where
  tiles : List TextureTile
  headTiles : List Nat
  allTiles : List Nat
  materialTiles : List (String × Nat)
deriving DecidableEq, Repr

/-- Dereference of a tile pointer. -/
def PackState.deref (tiles : List TextureTile) (p : Nat) : TextureTile :=
  tiles.getD p TextureTile.NULL

/-- The `maxSize()` of the tile a pointer designates. -/
def ptrMaxSize (tiles : List TextureTile) (p : Nat) : Int :=
  (PackState.deref tiles p).maxSize

/-- Function `compareTiles` on pointers into the store. -/
def ptrCompare (tiles : List TextureTile) (a b : Nat) : Bool :=
  compareTiles (PackState.deref tiles a) (PackState.deref tiles b)

/-- The type of `TextureTileQuad::addChildren(children, headTiles)`, which is declared at
packer.cpp 52 and defined in none of the sources.  It is a parameter of the packer: given
the store, the receiving Quad, the `children` argument and the head list, it yields the
store and the head list it leaves behind. -/
abbrev AddChildren := List TextureTile → Nat → List Nat → List Nat → List TextureTile × List Nat

/-- packer.cpp 101-105: the set of the material names the components use. -/
def usedMaterialNames (inputMesh : Mesh) : List String :=
  inputMesh.components.foldl
    (fun used ic => if ic.materialName ∈ used then used else used ++ [ic.materialName]) []

/-- The test of packer.cpp 117. -/
def hasUsedTexture (inputMesh : Mesh) (name : String) (mat : Material) : Bool :=
  !mat.textureDiffuse.isEmpty && decide (name ∈ usedMaterialNames inputMesh)

/-- The assignment `materialTiles[name] = leaf`. -/
def mapAssign (m : List (String × Nat)) (name : String) (leaf : Nat) : List (String × Nat) :=
  if m.any (fun e => e.1 == name) then m.map (fun e => if e.1 == name then (name, leaf) else e)
  else m ++ [(name, leaf)]

/-- The body of the loop of packer.cpp 113-125 for one entry of the material map. -/
def createLeaf (loadFromFile : String → LeafImage) (inputMesh : Mesh) (s : PackState)
    (im : String × Material) : PackState :=
  let name := im.1
  let mat := im.2
  if hasUsedTexture inputMesh name mat then
    let leaf := s.tiles.length
    let img := loadFromFile mat.textureDiffuse
    { tiles := s.tiles ++
        [TextureTile.leaf leaf none img.sizeX img.sizeY img.exactWidth img.exactHeight img.image]
      headTiles := s.headTiles ++ [leaf]
      allTiles := s.allTiles ++ [leaf]
      materialTiles := mapAssign s.materialTiles name leaf }
  else s

/-- packer.cpp 107-125: one leaf for each input material texture. -/
def createLeaves (loadFromFile : String → LeafImage) (inputMesh : Mesh) : PackState :=
  inputMesh.materials.foldl (createLeaf loadFromFile inputMesh)
    { tiles := [], headTiles := [], allTiles := [], materialTiles := [] }

/-- packer.cpp 132: the head list after `headTiles.sort(compareTiles)`. -/
def sortedHeads (s : PackState) : List Nat := listSort (ptrCompare s.tiles) s.headTiles

/-- packer.cpp 135-143: `smallestTile = headTiles.front()` and the tiles of the head list
whose `maxSize()` equals the one of `smallestTile`, in list order.  (The loop runs only
when the head list is not empty.) -/
def findCandidates (tiles : List TextureTile) (headTiles : List Nat) : List Nat :=
  match headTiles with
  | [] => []
  | smallestTile :: _ =>
    headTiles.filter (fun it => ptrMaxSize tiles smallestTile == ptrMaxSize tiles it)

/-- A Quad as `new TextureTileQuad()` leaves it (packer.cpp 24-29 and 62-68): no parent,
size 0, the four slots NULL.  The constructor does not initialise the offset arrays; the
embedding stores 0 there. -/
def newQuad (this : Nat) : TextureTile :=
  .quad this none 0 0 .NULL .NULL .NULL .NULL ⟨0, 0, 0, 0⟩ ⟨0, 0, 0, 0⟩

/-- The program point just before the call at packer.cpp 149. -/
structure AddChildrenCall where
  state : PackState
  quad : Nat
  candidateTiles : List Nat
deriving DecidableEq, Repr

/-- packer.cpp 132-148: one round of the loop up to the call of `addChildren`: sort, find
the candidates, create one Quad and append it to both lists. -/
def beforeAddChildren (s : PackState) : AddChildrenCall :=
  let headTiles := sortedHeads s
  let candidateTiles := findCandidates s.tiles headTiles
  let quad := s.tiles.length
  { state :=
      { tiles := s.tiles ++ [newQuad quad]
        headTiles := headTiles ++ [quad]
        allTiles := s.allTiles ++ [quad]
        materialTiles := s.materialTiles }
    quad := quad
    candidateTiles := candidateTiles }

/-- packer.cpp 131-150: one full round of the loop. -/
def mergeRound (addChildren : AddChildren) (s : PackState) : PackState :=
  let c := beforeAddChildren s
  let r := addChildren c.state.tiles c.quad c.candidateTiles c.state.headTiles
  { tiles := r.1, headTiles := r.2, allTiles := c.state.allTiles,
    materialTiles := c.state.materialTiles }

/-- packer.cpp 130-150: `while(headTiles.size()>0) { ... }`, with a bound on the number of
rounds; `none` when the bound is used up while the guard still holds. -/
def mergeLoop (addChildren : AddChildren) : Nat → PackState → Option PackState
  | 0, s => if s.headTiles.length > 0 then none else some s
  | fuel + 1, s =>
    if s.headTiles.length > 0 then mergeLoop addChildren fuel (mergeRound addChildren s)
    else some s

/-- packer.cpp 98-155: `packTextures(inputMesh, outputMesh)`.  The result is the value of
the reference parameter `outputMesh` when the function returns, together with the tile
variables at that point.  After the loop the body holds only the two comments of lines
152 and 154, and no statement of the function assigns to `outputMesh`. -/
def packTextures (loadFromFile : String → LeafImage) (addChildren : AddChildren) (fuel : Nat)
    (inputMesh outputMesh : Mesh) : Option (Mesh × PackState) :=
  match mergeLoop addChildren fuel (createLeaves loadFromFile inputMesh) with
  | none => none
  | some s => some (outputMesh, s)

/-- bakeObj.cpp 22-32: `Mesh mesh_out; ... packTextures(mesh_in, mesh_out);` gives the mesh
that `main` then hands to `writeObj`. -/
def bakeMesh (loadFromFile : String → LeafImage) (addChildren : AddChildren) (fuel : Nat)
    (mesh_in : Mesh) : Option Mesh :=
  (packTextures loadFromFile addChildren fuel mesh_in Mesh.init).map Prod.fst

/-! ## The data-model invariant (spec section 3) -/

namespace TextureTile

/-- Address of the object (`this`); 0 for NULL. -/
def addr : TextureTile → Nat
  | .NULL => 0
  | .leaf a _ _ _ _ _ _ => a
  | .quad a _ _ _ _ _ _ _ _ _ => a

/-- Field `exactWidth` of a Leaf (0 for the other tiles). -/
def exactWidth : TextureTile → Int
  | .leaf _ _ _ _ ew _ _ => ew
  | _ => 0

/-- Field `exactHeight` of a Leaf (0 for the other tiles). -/
def exactHeight : TextureTile → Int
  | .leaf _ _ _ _ _ eh _ => eh
  | _ => 0

/-- The Leaf objects below (or at) a tile, slot by slot. -/
def leaves : TextureTile → List TextureTile
  | .NULL => []
  | .leaf a p sx sy ew eh im => [.leaf a p sx sy ew eh im]
  | .quad _ _ _ _ c0 c1 c2 c3 _ _ => c0.leaves ++ c1.leaves ++ c2.leaves ++ c3.leaves

/-- A slot of a Quad of size `sx` x `sy` respects the invariant: it is empty, or its offset
is non-negative and offset + size of the child stays within the Quad. -/
def slotOk (sx sy : Int) (c : TextureTile) (ox oy : Int) : Bool :=
  c.isNull ||
    (decide (0 ≤ ox) && decide (0 ≤ oy) && decide (ox + c.sizeX ≤ sx) &&
      decide (oy + c.sizeY ≤ sy))

/-- Sizes and offsets respect the invariant everywhere in the tree: every slot is `slotOk`
and every Leaf has `exactWidth ≤ sizeX`, `exactHeight ≤ sizeY`. -/
def boundsOk : TextureTile → Bool
  | .NULL => true
  | .leaf _ _ sx sy ew eh _ => decide (ew ≤ sx) && decide (eh ≤ sy)
  | .quad _ _ sx sy c0 c1 c2 c3 ox oy =>
    slotOk sx sy c0 ox.i0 oy.i0 && slotOk sx sy c1 ox.i1 oy.i1 &&
    slotOk sx sy c2 ox.i2 oy.i2 && slotOk sx sy c3 ox.i3 oy.i3 &&
    c0.boundsOk && c1.boundsOk && c2.boundsOk && c3.boundsOk

/-- The data-model invariant of a tile tree: every Leaf occurs exactly once, and sizes and
offsets are consistent (`boundsOk`). -/
def dataModelInvariant (t : TextureTile) : Prop :=
  (t.leaves.map addr).Nodup ∧ t.boundsOk = true

instance (t : TextureTile) : Decidable t.dataModelInvariant := by
  unfold dataModelInvariant
  exact inferInstance

/-- The answer "found at (x, y), inside a root of the given size" that the spec expects of
`root.getTileOffset(L, 0, 0)`. -/
def foundInBounds (root leaf : TextureTile) (r : CallResult) : Prop :=
  r.returned = some true ∧ 0 ≤ r.resultX ∧ 0 ≤ r.resultY ∧
    r.resultX + leaf.exactWidth ≤ root.sizeX ∧ r.resultY + leaf.exactHeight ≤ root.sizeY

instance (root leaf : TextureTile) (r : CallResult) : Decidable (foundInBounds root leaf r) := by
  unfold foundInBounds
  exact inferInstance

end TextureTile

/-! ## `addChildren` as the spec describes it -/

/-- The object with its `parent` field set. -/
def TextureTile.withParent (q : Nat) : TextureTile → TextureTile
  | .NULL => .NULL
  | .leaf a _ sx sy ew eh im => .leaf a (some q) sx sy ew eh im
  | .quad a _ sx sy c0 c1 c2 c3 ox oy => .quad a (some q) sx sy c0 c1 c2 c3 ox oy

/-- Modelled from the spec: `TextureTileQuad::addChildren(children, headTiles)`, declared
at packer.cpp 52 and defined in none of the sources.  Spec 4.2, steps 3 and 4, for the one
receiving Quad: the Quad takes a group of up to 4 of the candidates (the first four),
arranged in a 2x2 grid: slot 0 top-left at (0,0), slot 1 top-right at (width of the left
column, 0), slot 2 bottom-left at (0, height of the top row), slot 3 bottom-right; unused
slots stay empty; the Quad's `sizeX` / `sizeY` is the sum of the column widths / row
heights; the merged candidates are removed from the head list (candidates beyond the group
stay heads). -/
def addChildrenSpec : AddChildren := fun tiles quad children headTiles =>
  let group := children.take 4
  let child (i : Nat) : TextureTile :=
    match group.get? i with
    | none => TextureTile.NULL
    | some p => (PackState.deref tiles p).withParent quad
  let c0 := child 0
  let c1 := child 1
  let c2 := child 2
  let c3 := child 3
  let w0 := max c0.sizeX c2.sizeX
  let w1 := max c1.sizeX c3.sizeX
  let h0 := max c0.sizeY c1.sizeY
  let h1 := max c2.sizeY c3.sizeY
  let q := TextureTile.quad quad none (w0 + w1) (h0 + h1) c0 c1 c2 c3
    ⟨0, w0, 0, w0⟩ ⟨0, 0, h0, h0⟩
  let tiles1 := (List.range tiles.length).map (fun p =>
    if p = quad then q
    else if p ∈ group then (PackState.deref tiles p).withParent quad
    else PackState.deref tiles p)
  (tiles1, headTiles.filter (fun p => !decide (p ∈ group)))

/-- parser.cpp 595-599: the first test `writeObj` makes on the mesh it is given; a mesh
without vertices is refused with this error. -/
def writeObjVertexCheck (mesh : Mesh) : Except String Unit :=
  if mesh.vertices.length = 0 then .error "mesh contains no vertices" else .ok ()

/-! ## Concrete inputs -/

/-- A 4x4 leaf allocated at address 1. -/
def leafA : TextureTile := .leaf 1 (some 0) 4 4 4 4 0

/-- A Quad at address 0 whose slot 0 holds `leafA` at offset (0,0); the other slots are
NULL. -/
def quadA : TextureTile :=
  .quad 0 none 4 4 leafA .NULL .NULL .NULL ⟨0, 0, 0, 0⟩ ⟨0, 0, 0, 0⟩

/-- A root Leaf at address 6 whose 3x2 image sits in an 8x8 footprint. -/
def paddedLeaf : TextureTile := .leaf 6 none 8 8 3 2 2

/-- A material with the given diffuse texture path and nothing else. -/
def textured (path : String) : Material :=
  { illuminationModel := 2
    colorDiffuse := ⟨0, 0, 0⟩, colorSpecular := ⟨0, 0, 0⟩
    colorAmbient := ⟨0, 0, 0⟩, colorEmissive := ⟨0, 0, 0⟩
    shininess := 0, transparency := 1
    textureDiffuse := path, textureSpecular := "", textureAmbient := ""
    textureEmissive := "", textureBump := "", textureTransparency := "" }

/-- A mesh of one triangle per given material name: component `i` uses material `names[i]`;
every listed material has the diffuse texture of the same name. -/
def meshOf (names : List String) : Mesh :=
  { vertices := [⟨0, 0, 0⟩, ⟨1, 0, 0⟩, ⟨0, 1, 0⟩]
    normals := [⟨0, 0, 1⟩, ⟨0, 0, 1⟩, ⟨0, 0, 1⟩]
    texcoord := [⟨0, 0⟩, ⟨1, 0⟩, ⟨0, 1⟩]
    components := names.map (fun n => ⟨n, n, [⟨0, 1, 2⟩]⟩)
    materials := names.map (fun n => (n, textured n)) }

/-- An image loader for the examples: the file called `"h"` is 8x8, the one called `"s"`
is 16x16, the ones called `"f"` and `"g"` are 4x4, every other file is 2x2. -/
def loadExample (filename : String) : LeafImage :=
  if filename = "h" then ⟨8, 8, 8, 8, 1⟩
  else if filename = "s" then ⟨16, 16, 16, 16, 1⟩
  else if filename = "f" then ⟨4, 4, 4, 4, 1⟩
  else if filename = "g" then ⟨4, 4, 4, 4, 1⟩
  else ⟨2, 2, 2, 2, 1⟩

/-- A mesh whose only component has no material, with no material defined: what `loadObj`
yields for a file with one untextured triangle. -/
def plainMesh : Mesh :=
  { vertices := [⟨0, 0, 0⟩, ⟨1, 0, 0⟩, ⟨0, 1, 0⟩]
    normals := [⟨0, 0, 1⟩, ⟨0, 0, 1⟩, ⟨0, 0, 1⟩]
    texcoord := [⟨0, 0⟩, ⟨0, 0⟩, ⟨0, 0⟩]
    components := [⟨"[default]", "", [⟨0, 1, 2⟩]⟩]
    materials := [] }

/-- A mesh with two materials of which none is packed: `"plain"` is used by the component
but has no diffuse texture, `"spare"` has one but no component uses it. -/
def idleMesh : Mesh :=
  { vertices := [⟨0, 0, 0⟩, ⟨1, 0, 0⟩, ⟨0, 1, 0⟩]
    normals := [⟨0, 0, 1⟩, ⟨0, 0, 1⟩, ⟨0, 0, 1⟩]
    texcoord := [⟨0, 0⟩, ⟨1, 0⟩, ⟨0, 1⟩]
    components := [⟨"body", "plain", [⟨0, 1, 2⟩]⟩]
    materials := [("plain", textured ""), ("spare", textured "s")] }

/-- The tile variables after the leaves of one 16x16 texture were created. -/
def oneLeaf : PackState := createLeaves loadExample (meshOf ["s"])

/-- The tile variables after the leaves of five 2x2 textures were created. -/
def fiveSmall : PackState := createLeaves loadExample (meshOf ["a", "b", "c", "d", "e"])

/-- The tile variables after the leaves of four 2x2 textures and one 8x8 texture were
created. -/
def fourSmallOneBig : PackState := createLeaves loadExample (meshOf ["a", "b", "c", "d", "h"])

/-- Number of executions of `new TextureTileQuad()` by the loop body in the round that
starts in state `s` (the objects added to the store up to the call of `addChildren`). -/
def quadsCreated (s : PackState) : Nat :=
  (beforeAddChildren s).state.tiles.length - s.tiles.length

/-! ## parser.cpp: the face parser (lines 12-170)

A `const char*` cursor into a NUL-terminated line is the list of the characters from the
cursor on; the terminating NUL is the end of the list.  `int` is taken as 32 bits wide:
the accumulation in `parseNumber` and the increment in `writeVertexIndex` wrap around
(`wrapInt`), as they do on the usual targets (C++ leaves signed overflow undefined). -/

/-- The value an `int` computation yields for the mathematical result `x`: reduction to
the range `-2^31 .. 2^31-1`. -/
def wrapInt (x : Int) : Int := (x + 2147483648) % 4294967296 - 2147483648

/-- parser.cpp 12-15: `c != 0 && c >= '0' && c <= '9'`. -/
def isDecimal (c : Char) : Bool := c.toNat != 0 && decide (48 ≤ c.toNat) && decide (c.toNat ≤ 57)

/-- parser.cpp 20-23: `c == ' ' || c=='\t'`. -/
def isWhitespace (c : Char) : Bool := c.toNat == 32 || c.toNat == 9

/-- parser.cpp 28-31: `c == '/'`. -/
def isSlash (c : Char) : Bool := c.toNat == 47

/-- parser.cpp 36-39: `static_cast<int>(c) - static_cast<int>('0')`. -/
def charToInt (c : Char) : Int := (c.toNat : Int) - 48

/-- parser.cpp 44-55: consumes one slash; the flag tells whether it did. -/
def parseSlash : List Char → Bool × List Char
  | [] => (false, [])
  | c :: str => if isSlash c then (true, str) else (false, c :: str)

/-- The loop of parser.cpp 66-69: `while(isWhitespace(*str)) str++;`. -/
def skipWhitespace : List Char → List Char
  | [] => []
  | c :: str => if isWhitespace c then skipWhitespace str else c :: str

/-- parser.cpp 60-71: consumes all whitespace; the flag tells whether there was any. -/
def parseWhitespace : List Char → Bool × List Char
  | [] => (false, [])
  | c :: str => if !isWhitespace c then (false, c :: str) else (true, skipWhitespace (c :: str))

/-- The loop of parser.cpp 84-88, started with the given value of `result`. -/
def parseNumberLoop : List Char → Int → Int × List Char
  | [], result => (result, [])
  | c :: str, result =>
    if isDecimal c then parseNumberLoop str (wrapInt (result * 10 + charToInt c))
    else (result, c :: str)

/-- parser.cpp 76-91: `parseNumber(str, result)`.  `none` is the return value `false`, in
which case neither `str` nor `result` was changed; otherwise the new `result` and `str`. -/
def parseNumber : List Char → Option (Int × List Char)
  | [] => none
  | c :: str => if !isDecimal c then none else some (parseNumberLoop (c :: str) 0)

/-- What `parseVertex` stores through its reference parameters. -/
structure VertexDef where
  vertex : Int
  normal : Int
  texcoord : Int
deriving DecidableEq, Repr

/-- The statement `if(parseSlash(str)) { parseNumber(str, x); }` of parser.cpp 106-109
and 111-114, for an `x` that holds the given value: the value of `x` and the cursor
afterwards. -/
def parseSlashNumber (str : List Char) (x : Int) : Int × List Char :=
  let s := parseSlash str
  if s.1 then
    match parseNumber s.2 with
    | some (y, r) => (y, r)
    | none => (x, s.2)
  else (x, s.2)

/-- parser.cpp 96-117: `parseVertex(str, vertex, normal, texcoord)`.  `none` is the return
value `false` (nothing was changed); otherwise the three numbers and the new cursor. -/
def parseVertex (str : List Char) : Option (VertexDef × List Char) :=
  match parseNumber str with
  | none => none
  | some (vertex, str1) =>
    let texcoord := parseSlashNumber str1 vertex
    let normal := parseSlashNumber texcoord.2 vertex
    some ({ vertex := vertex, normal := normal.1, texcoord := texcoord.1 }, normal.2)

/-- The result of `parseFace`: the entries `indices[0 .. vertexCount-1]` that were written
(`data[0]` vertex, `data[1]` normal, `data[2]` texcoord number) and the cursor. -/
structure FaceParse where
  indices : List Vector3i
  str : List Char
deriving DecidableEq, Repr

/-- The loop of parser.cpp 130-139,
`while(parseVertex(str, indexV, indexN, indexT) && vertexCount < maxVertexCount)`,
with `room = maxVertexCount - vertexCount`.  `parseVertex` is called first, so when no
room is left one more vertex definition is consumed and not stored. -/
def parseFaceLoop : Nat → List Char → List Vector3i → FaceParse
  | room, str, indices =>
    match parseVertex str with
    | none => { indices := indices, str := str }
    | some (v, str1) =>
      match room with
      | 0 => { indices := indices, str := str1 }
      | room1 + 1 =>
        parseFaceLoop room1 (parseWhitespace str1).2
          (indices ++ [{ d0 := v.vertex, d1 := v.normal, d2 := v.texcoord }])

/-- parser.cpp 122-142: `parseFace(str, indices, vertexCount, maxVertexCount)`; the
function returns `true` on every path, `vertexCount` is the length of `indices`. -/
def parseFace (str : List Char) (maxVertexCount : Nat) : FaceParse :=
  parseFaceLoop maxVertexCount (parseWhitespace str).2 []

/-- parser.cpp 147-170: `CompareFaces::operator()`. -/
def CompareFaces (a b : Vector3i) : Bool :=
  if a.d0 > b.d0 then true
  else if a.d0 < b.d0 then false
  else if a.d1 > b.d1 then true
  else if a.d1 < b.d1 then false
  else decide (a.d2 > b.d2)

/-- The text `outfile << index` writes for an `int`: decimal digits, with a minus sign for
a negative value. -/
def intText (index : Int) : List Char := (toString index).toList

/-- parser.cpp 560-575: the characters `writeVertexIndex(outfile, index, hasNormals,
hasTexCoord)` writes.  There is no branch for the case that both flags are false. -/
def writeVertexIndex (index : Int) (hasNormals hasTexCoord : Bool) : List Char :=
  let index := wrapInt (index + 1)
  if hasNormals && hasTexCoord then
    intText index ++ ['/'] ++ intText index ++ ['/'] ++ intText index
  else if hasNormals then
    intText index ++ ['/'] ++ intText index
  else if hasTexCoord then
    intText index ++ ['/', '/'] ++ intText index
  else []

/-- parser.cpp 674-680: the line `writeObj` writes for one face (without the line end). -/
def writeFaceLine (face : Vector3i) (hasNormals hasTexCoord : Bool) : List Char :=
  ['f', ' '] ++ writeVertexIndex face.d0 hasNormals hasTexCoord ++ [' '] ++
    writeVertexIndex face.d1 hasNormals hasTexCoord ++ [' '] ++
    writeVertexIndex face.d2 hasNormals hasTexCoord

/-! ## parser.cpp: the loaders (lines 175-546)

An `std::istringstream` is the list of its unread characters and its fail flag.  The
extraction of a `float` or an `int` from a stream is a library call whose result the
embedding takes from the environment; so are the contents of the files and the state of a
fresh and of a reset `Material`. -/

/-- How a run of a loader ends when it does not return: `runtime_error what` is
`throw std::runtime_error(what)`; `undefined` marks a step to which C++ gives no meaning
(an access outside an array). -/
inductive Failure where
  | runtime_error (what : String) : Failure
  | undefined (step : String) : Failure
deriving DecidableEq, Repr

deriving instance DecidableEq for Except

/-- An `std::istringstream`: the characters not yet read and the fail flag. -/
structure IStream where
  buf : List Char
  fail : Bool
deriving DecidableEq, Repr

/-- What the loaders take from their surroundings. -/
structure ParserEnv where
  /-- Library: `stream >> x` for a `float x` holding the given value. -/
  extractFloat : IStream → Rat → Rat × IStream
  /-- Library: `stream >> x` for an `int x` holding the given value. -/
  extractInt : IStream → Int → Int × IStream
  /-- The lines `getline` yields for the file of the given name; `none` when the file
  cannot be opened. -/
  readLines : String → Option (List String)
  /-- A default-constructed `Material` (the type is declared in the missing header). -/
  newMaterial : Material
  /-- Member function `Material::reset()` (declared in the missing header). -/
  resetMaterial : Material → Material
  /-- The rescaling of a normal at parser.cpp 400-409, which the source computes in `float`
  (`normalLength = x*x + y*y + z*z`, the test
  `abs(1.0f-normalLength) > 1e-3f && normalLength > 1e-3f`, three divisions).  Float
  arithmetic is not interpreted here: the result is taken from the surroundings. -/
  normalizeNormal : Vector3f → Vector3f

/-- Library: `isspace` in the "C" locale (space, `\t`, `\n`, `\v`, `\f`, `\r`). -/
def isSpace (c : Char) : Bool := c.toNat == 32 || (decide (9 ≤ c.toNat) && decide (c.toNat ≤ 13))

/-- Skips the leading white space of a stream buffer. -/
def skipSpace : List Char → List Char
  | [] => []
  | c :: cs => if isSpace c then skipSpace cs else c :: cs

/-- Splits a buffer into its leading run of non-space characters and the rest. -/
def takeToken : List Char → List Char × List Char
  | [] => ([], [])
  | c :: cs =>
    if isSpace c then ([], c :: cs)
    else ((c :: (takeToken cs).1), (takeToken cs).2)

/-- Library: `stream >> str` for a `std::string` holding `old`: leading white space is
skipped and the next run of non-space characters is stored; when there is none, or the
stream has failed already, the string keeps its value and the stream fails. -/
def IStream.extractString (stream : IStream) (old : String) : String × IStream :=
  if stream.fail then (old, stream)
  else
    match skipSpace stream.buf with
    | [] => (old, { buf := [], fail := true })
    | c :: cs =>
      (String.mk (takeToken (c :: cs)).1, { buf := (takeToken (c :: cs)).2, fail := false })

/-- Library: `std::transform(type.begin(), type.end(), type.begin(), tolower)`. -/
def toLowerString (type : String) : String := String.mk (type.toList.map Char.toLower)

/-- parser.cpp 215 / 344: `line.length()==0 || line[0] == '#'`. -/
def isSkippedLine (line : String) : Bool :=
  match line.toList with
  | [] => true
  | c :: _ => c == '#'

/-- parser.cpp 221-226 / 350-354: the stream over the line after `stream >> type`, and
`type` after the conversion to lower case. -/
def readCommand (line : String) : String × IStream :=
  let r := IStream.extractString { buf := line.toList, fail := false } ""
  (toLowerString r.1, r.2)

/-- parser.cpp 175-182: `parseColor(stream, color)`. -/
def parseColor (env : ParserEnv) (stream : IStream) (color : Vector3f) : Vector3f × IStream :=
  let r0 := env.extractFloat stream color.d0
  let r1 := env.extractFloat r0.2 color.d1
  let r2 := env.extractFloat r1.2 color.d2
  ({ d0 := r0.1, d1 := r1.1, d2 := r2.1 }, r2.2)

/-- `materials.find(name) != materials.end()` on the `std::map` of materials. -/
def materialsHas (materials : List (String × Material)) (name : String) : Bool :=
  materials.any (fun e => e.1 == name)

/-- The assignment `materials[name] = mat` on the `std::map` of materials, whose entries
are kept in ascending order of the key. -/
def materialsStore (materials : List (String × Material)) (name : String) (mat : Material) :
    List (String × Material) :=
  match materials with
  | [] => [(name, mat)]
  | e :: rest =>
    if e.1 == name then (name, mat) :: rest
    else if decide (name < e.1) then (name, mat) :: e :: rest
    else e :: materialsStore rest name mat

/-- The local variables of `loadMaterialFile`, the map it fills, and what it wrote to
`std::cerr`. -/
structure MtlLoader where
  materials : List (String × Material)
  currentMaterial : Material
  currentName : String
  linecount : Int
  cerr : List String

/-- parser.cpp 230-237 and 299-306: the current material is stored under its name, with a
message when the name is already defined. -/
def storeCurrentMaterial (st : MtlLoader) : MtlLoader :=
  if !st.currentName.isEmpty then
    { st with
      cerr := if materialsHas st.materials st.currentName
        then st.cerr ++ ["duplicate material definition for " ++ st.currentName]
        else st.cerr
      materials := materialsStore st.materials st.currentName st.currentMaterial }
  else st

/-- parser.cpp 228-296: the dispatch on the command of one material line. -/
def loadMaterialCommand (env : ParserEnv) (st : MtlLoader) (type : String)
    (stream : IStream) : MtlLoader :=
  let m := st.currentMaterial
  if type = "newmtl" then
    let st1 := storeCurrentMaterial st
    { st1 with currentMaterial := env.resetMaterial st1.currentMaterial
               currentName := (stream.extractString st1.currentName).1 }
  else if type = "illum" then
    { st with currentMaterial :=
        { m with illuminationModel := (env.extractInt stream m.illuminationModel).1 } }
  else if type = "kd" then
    { st with currentMaterial := { m with colorDiffuse := (parseColor env stream m.colorDiffuse).1 } }
  else if type = "ks" then
    { st with currentMaterial :=
        { m with colorSpecular := (parseColor env stream m.colorSpecular).1 } }
  else if type = "ka" then
    { st with currentMaterial := { m with colorAmbient := (parseColor env stream m.colorAmbient).1 } }
  else if type = "ke" then
    { st with currentMaterial :=
        { m with colorEmissive := (parseColor env stream m.colorEmissive).1 } }
  else if type = "ns" then
    { st with currentMaterial := { m with shininess := (env.extractFloat stream m.shininess).1 } }
  else if type = "d" || type = "Tr" then
    { st with currentMaterial :=
        { m with transparency := (env.extractFloat stream m.transparency).1 } }
  else if type = "map_kd" then
    { st with currentMaterial :=
        { m with textureDiffuse := (stream.extractString m.textureDiffuse).1 } }
  else if type = "map_ks" then
    { st with currentMaterial :=
        { m with textureSpecular := (stream.extractString m.textureSpecular).1 } }
  else if type = "map_ka" then
    { st with currentMaterial :=
        { m with textureAmbient := (stream.extractString m.textureAmbient).1 } }
  else if type = "map_ke" then
    { st with currentMaterial :=
        { m with textureEmissive := (stream.extractString m.textureEmissive).1 } }
  else if type = "map_bump" || type = "bump" then
    { st with currentMaterial := { m with textureBump := (stream.extractString m.textureBump).1 } }
  else if type = "map_d" || type = "map_tr" then
    { st with currentMaterial :=
        { m with textureTransparency := (stream.extractString m.textureTransparency).1 } }
  else
    { st with cerr := st.cerr ++ ["unknown material command: " ++ type] }

/-- parser.cpp 210-297: the loop body of `loadMaterialFile` for one line. -/
def loadMaterialLine (env : ParserEnv) (st : MtlLoader) (line : String) : MtlLoader :=
  let st := { st with linecount := st.linecount + 1 }
  if isSkippedLine line then st
  else loadMaterialCommand env st (readCommand line).1 (readCommand line).2

/-- parser.cpp 195-307: `loadMaterialFile(filename, materials)`; on return the map and the
messages written to `std::cerr`. -/
def loadMaterialFile (env : ParserEnv) (filename : String)
    (materials : List (String × Material)) :
    Except Failure (List (String × Material) × List String) :=
  match env.readLines filename with
  | none => .error (.runtime_error ("Unable to open material file: " ++ filename))
  | some lines =>
    let st := lines.foldl (loadMaterialLine env)
      { materials := materials, currentMaterial := env.newMaterial, currentName := "",
        linecount := 0, cerr := [] }
    let st := storeCurrentMaterial st
    .ok (st.materials, st.cerr)

/-- The local variables of `loadObj`, the mesh it fills, and what it wrote to `std::cerr`.
`uniqueVertexMap` is the `std::map<Vector3i, int, CompareFaces>` as the list of its
entries in the order of their insertion (the source never iterates over it). -/
structure ObjLoader where
  result : Mesh
  hasNormals : Bool
  hasTextureCoordinates : Bool
  vertices : List Vector3f
  normals : List Vector3f
  texcoord : List Vector2f
  uniqueVertexMap : List (Vector3i × Int)
  unsupportedTypeWarningsLeft : Int
  linecount : Int
  cerr : List String

/-- The state of `loadObj` when its loop starts (parser.cpp 314-338); `result.reset()`
leaves an empty mesh. -/
def ObjLoader.init : ObjLoader :=
  { result := Mesh.init, hasNormals := false, hasTextureCoordinates := false,
    vertices := [], normals := [], texcoord := [], uniqueVertexMap := [],
    unsupportedTypeWarningsLeft := 10, linecount := 0, cerr := [] }

/-- `uniqueVertexMap.find(key)`: the value of the entry whose key is equivalent to `key`
under the ordering `CompareFaces` (neither is ordered before the other), if there is one. -/
def mapFind (m : List (Vector3i × Int)) (key : Vector3i) : Option Int :=
  match m with
  | [] => none
  | e :: rest =>
    if !CompareFaces e.1 key && !CompareFaces key e.1 then some e.2 else mapFind rest key

/-- Element access `v[i]` of a `std::vector` for an `int i`; `none` when `i` is outside
the vector, where the access has no defined result. -/
def vectorAt {α : Type} (v : List α) (i : Int) : Option α :=
  if i < 0 then none else v.get? i.toNat

/-- The pattern the source repeats at parser.cpp 448-456, 458-470 and 473-485:
`if (flag) { int i = number - 1; if (i < (int) v.size()) dst.push_back(v[i]); else throw
std::runtime_error(what); }`.  The test has no lower bound, so a negative `i` reaches the
access `v[i]`.  (For the vertex position the block is unconditional: `flag` is true.) -/
def pushChecked {α : Type} (flag : Bool) (v : List α) (number : Int) (dst : List α)
    (what step : String) : Except Failure (List α) :=
  if flag then
    let i := number - 1
    if i < v.length then
      match vectorAt v i with
      | none => .error (.undefined step)
      | some x => .ok (dst ++ [x])
    else .error (.runtime_error what)
  else .ok dst

/-- parser.cpp 439-486: the body of the loop over the vertices of a face, for the index
triple `key`: the mapped index and the new state. -/
def mapVertex (st : ObjLoader) (key : Vector3i) : Except Failure (Int × ObjLoader) :=
  match mapFind st.uniqueVertexMap key with
  | some mapped => .ok (mapped, st)
  | none =>
    let mapped : Int := st.result.vertices.length
    let uniqueVertexMap := st.uniqueVertexMap ++ [(key, (st.uniqueVertexMap.length : Int))]
    match pushChecked true st.vertices key.d0 st.result.vertices
        "Unknown vertex specified" "vertices[vertexIndex]" with
    | .error e => .error e
    | .ok vertices =>
      match pushChecked st.hasNormals st.normals key.d1 st.result.normals
          "Unknown normal specified" "normals[normalIndex]" with
      | .error e => .error e
      | .ok normals =>
        match pushChecked st.hasTextureCoordinates st.texcoord key.d2 st.result.texcoord
            "Unknown texture coordinate specified" "texcoord[texCoordIndex]" with
        | .error e => .error e
        | .ok texcoord =>
          .ok (mapped, { st with
            uniqueVertexMap := uniqueVertexMap
            result := { st.result with
              vertices := vertices, normals := normals, texcoord := texcoord } })

/-- parser.cpp 437-487: the loop over `loadedIndices[0 .. vertexCount-1]`; the mapped
indices are collected in order. -/
def mapVertices : List Vector3i → ObjLoader → List Int → Except Failure (List Int × ObjLoader)
  | [], st, mapped => .ok (mapped, st)
  | key :: rest, st, mapped =>
    match mapVertex st key with
    | .error e => .error e
    | .ok (i, st1) => mapVertices rest st1 (mapped ++ [i])

/-- A default-constructed `MeshComponent`. -/
def MeshComponent.init : MeshComponent := { componentName := "", materialName := "", faces := [] }

/-- The statement `result.components.back().faces.push_back(tri)`. -/
def pushFace (components : List MeshComponent) (tri : Vector3i) : List MeshComponent :=
  match components.getLast? with
  | none => components
  | some c => components.dropLast ++ [{ c with faces := c.faces ++ [tri] }]

/-- parser.cpp 489-507: what is done with the mapped indices of a face. -/
def storeFace (st : ObjLoader) (mapped : List Int) : Except Failure ObjLoader :=
  match mapped with
  | [i0, i1, i2] =>
    let components :=
      if st.result.components.length = 0 then
        [{ MeshComponent.init with componentName := "[default]" }]
      else st.result.components
    .ok { st with result :=
      { st.result with components := pushFace components { d0 := i0, d1 := i1, d2 := i2 } } }
  | [_, _, _, _] =>
    .error (.runtime_error "OBJ loader: quads are not supported, convert them to triangles")
  | _ => .error (.runtime_error "OBJ loader: face with strange number of vertices encountered")

/-- parser.cpp 424-513: the branch for the command `f`.  `stream.tellg()` is -1 when the
command reached the end of the line (the stream is then at its end), and the cursor
`line.c_str() + pos` lies before the line. -/
def loadFace (st : ObjLoader) (stream : IStream) : Except Failure ObjLoader :=
  if stream.fail || stream.buf.isEmpty then .error (.undefined "line.c_str() + pos")
  else
    let face := parseFace stream.buf 3
    match mapVertices face.indices st [] with
    | .error e => .error e
    | .ok (mapped, st1) => storeFace st1 mapped

/-- The rescaling of a normal with exact arithmetic on rationals; stands for the `float`
computation of parser.cpp 400-409 in the examples, whose normals have length 1. -/
def exampleNormalize (vn : Vector3f) : Vector3f :=
  let normalLength := vn.d0 * vn.d0 + vn.d1 * vn.d1 + vn.d2 * vn.d2
  if |1 - normalLength| > 1 / 1000 ∧ normalLength > 1 / 1000 then
    { d0 := vn.d0 / normalLength, d1 := vn.d1 / normalLength, d2 := vn.d2 / normalLength }
  else vn

/-- parser.cpp 356-522: the dispatch on the command of one line of the mesh file. -/
def loadObjCommand (env : ParserEnv) (st : ObjLoader) (type : String) (stream : IStream) :
    Except Failure ObjLoader :=
  if type = "mtllib" then
    let materialFileName := (stream.extractString "").1
    match loadMaterialFile env materialFileName st.result.materials with
    | .error e => .error e
    | .ok (materials, cerr) =>
      .ok { st with result := { st.result with materials := materials }
                    cerr := st.cerr ++ cerr }
  else if type = "g" then
    .ok { st with result := { st.result with components := st.result.components ++
      [{ MeshComponent.init with
          componentName := (stream.extractString MeshComponent.init.componentName).1 }] } }
  else if type = "usemtl" then
    match st.result.components.getLast? with
    | none => .error (.runtime_error "material without a group encountered")
    | some c =>
      .ok { st with
        cerr := if !c.materialName.isEmpty
          then st.cerr ++ ["component " ++ c.componentName ++
            " already has a material, replacing the old definition"]
          else st.cerr
        result := { st.result with components := st.result.components.dropLast ++
          [{ c with materialName := (stream.extractString c.materialName).1 }] } }
  else if type = "s" then .ok st
  else if type = "o" then .ok st
  else if type = "v" then
    let r0 := env.extractFloat stream 0
    let r1 := env.extractFloat r0.2 0
    let r2 := env.extractFloat r1.2 0
    .ok { st with vertices := st.vertices ++ [{ d0 := r0.1, d1 := r1.1, d2 := r2.1 }] }
  else if type = "vn" then
    let r0 := env.extractFloat stream 0
    let r1 := env.extractFloat r0.2 0
    let r2 := env.extractFloat r1.2 0
    .ok { st with hasNormals := true
                  normals := st.normals ++
                    [env.normalizeNormal { d0 := r0.1, d1 := r1.1, d2 := r2.1 }] }
  else if type = "vt" then
    let r0 := env.extractFloat stream 0
    let r1 := env.extractFloat r0.2 0
    .ok { st with hasTextureCoordinates := true
                  texcoord := st.texcoord ++ [{ d0 := r0.1, d1 := r1.1 }] }
  else if type = "f" then loadFace st stream
  else if st.unsupportedTypeWarningsLeft > 0 then
    let left := st.unsupportedTypeWarningsLeft - 1
    .ok { st with
      unsupportedTypeWarningsLeft := left
      cerr := st.cerr ++
        ["Unsupported type in obj: " ++ type ++ " at line " ++ toString st.linecount] ++
        (if left = 0 then
          ["Too many warnings about unsupported types, further warnings are suppressed."]
         else []) }
  else .ok st

/-- parser.cpp 339-523: the loop body of `loadObj` for one line. -/
def loadObjLine (env : ParserEnv) (st : ObjLoader) (line : String) : Except Failure ObjLoader :=
  let st := { st with linecount := st.linecount + 1 }
  if isSkippedLine line then .ok st
  else loadObjCommand env st (readCommand line).1 (readCommand line).2

/-- parser.cpp 339-523: the loop of `loadObj` over the lines of the file. -/
def loadObjLines (env : ParserEnv) : List String → ObjLoader → Except Failure ObjLoader
  | [], st => .ok st
  | line :: rest, st =>
    match loadObjLine env st line with
    | .error e => .error e
    | .ok st1 => loadObjLines env rest st1

/-- parser.cpp 525-545: the checks after the loop, and the mesh `loadObj` returns. -/
def loadObjFinish (st : ObjLoader) : Except Failure Mesh :=
  if !st.hasNormals then .error (.runtime_error "OBJ loader: mesh without normals")
  else
    let texcoord :=
      if st.result.texcoord.length = 0 then
        List.replicate st.result.vertices.length ({ d0 := 0, d1 := 0 } : Vector2f)
      else st.result.texcoord
    let result : Mesh := { st.result with texcoord := texcoord }
    if result.normals.length ≠ result.vertices.length then
      .error (.runtime_error "OBJ loader: inconsistent number of normals")
    else if result.texcoord.length ≠ result.vertices.length then
      .error (.runtime_error "OBJ loader: inconsistent number of texture coordinates")
    else .ok result

/-- parser.cpp 312-546: `loadObj(filename, result)`: the mesh left in `result` when the
function returns, or the way the run fails. -/
def loadObj (env : ParserEnv) (filename : String) : Except Failure Mesh :=
  match env.readLines filename with
  | none => .error (.runtime_error ("Unable to open mesh file: " ++ filename))
  | some lines =>
    match loadObjLines env lines ObjLoader.init with
    | .error e => .error e
    | .ok st => loadObjFinish st

/-! ## Descriptions used in the statements about `packTextures` -/

/-- The leaves of the materials `el`, one each, allocated from address `start` on: the
leaf of a material is what `new TextureTileLeaf()` and `loadFromFile(textureDiffuse)`
leave. -/
def leafTiles (loadFromFile : String → LeafImage) : Nat → List (String × Material) →
    List TextureTile
  | _, [] => []
  | start, im :: rest =>
    TextureTile.leaf start none (loadFromFile im.2.textureDiffuse).sizeX
      (loadFromFile im.2.textureDiffuse).sizeY (loadFromFile im.2.textureDiffuse).exactWidth
      (loadFromFile im.2.textureDiffuse).exactHeight (loadFromFile im.2.textureDiffuse).image ::
    leafTiles loadFromFile (start + 1) rest

/-- The map entries of the materials `el`: name of the material and address of its leaf,
the first leaf at address `start`. -/
def leafEntries : Nat → List (String × Material) → List (String × Nat)
  | _, [] => []
  | start, im :: rest => (im.1, start) :: leafEntries (start + 1) rest

/-- The materials of the mesh that pass the test of packer.cpp 117, in the order of the
material map. -/
def packedMaterials (inputMesh : Mesh) : List (String × Material) :=
  inputMesh.materials.filter (fun im => hasUsedTexture inputMesh im.1 im.2)

/-- A 2x2 leaf, a 4x4 leaf, an 8x8 leaf, and a 1x8 leaf (same `maxSize()` as the 8x8 leaf,
smaller area than the 4x4 leaf). -/
def tile2 : TextureTile := .leaf 0 none 2 2 2 2 0

/-- A 4x4 leaf. -/
def tile4 : TextureTile := .leaf 1 none 4 4 4 4 0

/-- An 8x8 leaf. -/
def tile8 : TextureTile := .leaf 2 none 8 8 8 8 0

/-- A 1x8 leaf. -/
def tile1x8 : TextureTile := .leaf 3 none 1 8 1 8 0

/-- A mesh with three materials: `"a"` is used and textured, `"b"` is used and has no
texture, `"c"` is textured and not used; a component names the undefined material `"z"`. -/
def mixedMesh : Mesh :=
  { vertices := [⟨0, 0, 0⟩, ⟨1, 0, 0⟩, ⟨0, 1, 0⟩]
    normals := [⟨0, 0, 1⟩, ⟨0, 0, 1⟩, ⟨0, 0, 1⟩]
    texcoord := [⟨0, 0⟩, ⟨1, 0⟩, ⟨0, 1⟩]
    components := [⟨"one", "a", [⟨0, 1, 2⟩]⟩, ⟨"two", "b", []⟩, ⟨"three", "a", []⟩,
      ⟨"four", "z", []⟩]
    materials := [("a", textured "h"), ("b", textured ""), ("c", textured "s")] }

/-! ## Descriptions used in the statements about the face parser -/

/-- The decimal digits a text starts with. -/
def digitsOf (str : List Char) : List Char := str.takeWhile isDecimal

/-- The text after its leading decimal digits. -/
def afterDigits (str : List Char) : List Char := str.dropWhile isDecimal

/-- The number a run of decimal digits denotes. -/
def decimalValue (ds : List Char) : Int := ds.foldl (fun a c => a * 10 + charToInt c) 0

/-- The text after a leading `'/'`, if the text starts with one. -/
def slashTail : List Char → Option (List Char)
  | [] => none
  | c :: r => if c = '/' then some r else none

/-- The number of a `/t` the text starts with, and `v` when the text does not start with a
slash or no number follows the slash; and the text behind what was read. -/
def numberAfterSlash (str : List Char) (v : Int) : Int × List Char :=
  match slashTail str with
  | none => (v, str)
  | some r => (if digitsOf r = [] then v else decimalValue (digitsOf r), afterDigits r)

/-- What a vertex definition means, in words: a text that starts with the decimal number
`v` gives vertex `v`; the texcoord is the number `t` of a following `/t` and `v` otherwise;
the normal is the number `n` after a second slash and `v` otherwise; the cursor ends behind
what was read.  A text that does not start with a digit gives nothing. -/
def describeVertex (str : List Char) : Option (VertexDef × List Char) :=
  if digitsOf str = [] then none
  else
    let v := decimalValue (digitsOf str)
    let t := numberAfterSlash (afterDigits str) v
    let n := numberAfterSlash t.2 v
    some ({ vertex := v, normal := n.1, texcoord := t.1 }, n.2)

/-- The number behind a leading slash, if there is one, is at most 2147483647. -/
def fitsAfterSlash (str : List Char) : Bool :=
  match slashTail str with
  | none => true
  | some r => decide (decimalValue (digitsOf r) < 2147483648)

/-- Every number of the vertex definition at the start of the text is at most
`INT_MAX = 2147483647`. -/
def numbersFit (str : List Char) : Bool :=
  decide (decimalValue (digitsOf str) < 2147483648) &&
    fitsAfterSlash (afterDigits str) &&
    fitsAfterSlash (numberAfterSlash (afterDigits str) 0).2

/-! ## Descriptions used in the statements about `loadObj` -/

/-- All faces of a mesh, component after component. -/
def Mesh.allFaces (m : Mesh) : List Vector3i := m.components.flatMap (fun c => c.faces)

/-- The line is not skipped and its command is `f`. -/
def isFaceLine (line : String) : Bool :=
  !isSkippedLine line && decide ((readCommand line).1 = "f")

/-- The line is not skipped and its command is `vt`. -/
def isTexcoordLine (line : String) : Bool :=
  !isSkippedLine line && decide ((readCommand line).1 = "vt")

/-- The face corners of a line: for a face line the index triples `parseFace` hands to the
loop of parser.cpp 437 (at most three), for any other line none. -/
def lineCorners (line : String) : List Vector3i :=
  if isFaceLine line then (parseFace (readCommand line).2.buf 3).indices else []

/-- The face corners of a file, in order. -/
def fileCorners (lines : List String) : List Vector3i := lines.flatMap lineCorners

/-- The corners of the face lines of a file, line by line. -/
def fileFaces (lines : List String) : List (List Vector3i) :=
  (lines.filter isFaceLine).map lineCorners

/-- The face `f` has the indices the map `m` gives to the three corners `c`. -/
def faceOfCorners (m : List (Vector3i × Int)) (f : Vector3i) (c : List Vector3i) : Prop :=
  ∃ k0 k1 k2, c = [k0, k1, k2] ∧ mapFind m k0 = some f.d0 ∧ mapFind m k1 = some f.d1 ∧
    mapFind m k2 = some f.d2

/-- The entry of number `number` (counted from 1) of a list read from the file. -/
def named {α : Type} (v : List α) (number : Int) : Option α :=
  if 1 ≤ number then v.get? (number - 1).toNat else none

/-- What holds of the variables of `loadObj` after a run over lines whose face corners are
`corners` and whose face lines have the corners `faces`:
the map gives the triples seen, each once, the values 0, 1, 2, ... in the order of
insertion; the vertex stored at a value is the one the triple names; the stored normals
(texture coordinates) belong to the last triples inserted and are the ones these name; and
the faces stored are the faces read, with the indices the map gives to their corners. -/
structure LoaderInv (st : ObjLoader) (corners : List Vector3i) (faces : List (List Vector3i)) :
    Prop where
  values : st.uniqueVertexMap.map Prod.snd =
    (List.range st.uniqueVertexMap.length).map Int.ofNat
  keys_nodup : (st.uniqueVertexMap.map Prod.fst).Nodup
  keys : ∀ k, k ∈ st.uniqueVertexMap.map Prod.fst ↔ k ∈ corners
  vertices : List.Forall₂ (fun e v => named st.vertices e.1.d0 = some v)
    st.uniqueVertexMap st.result.vertices
  normals : List.Forall₂ (fun e n => named st.normals e.1.d1 = some n)
    (st.uniqueVertexMap.drop (st.uniqueVertexMap.length - st.result.normals.length))
    st.result.normals
  normals_flag : st.hasNormals = false → st.result.normals = []
  texcoord : List.Forall₂ (fun e t => named st.texcoord e.1.d2 = some t)
    (st.uniqueVertexMap.drop (st.uniqueVertexMap.length - st.result.texcoord.length))
    st.result.texcoord
  texcoord_flag : st.hasTextureCoordinates = false → st.result.texcoord = []
  faces : List.Forall₂ (faceOfCorners st.uniqueVertexMap) st.result.allFaces faces

/-- The mesh a run of `loadObj` returned (the empty mesh when the run failed). -/
def loadedMesh (run : Except Failure Mesh) : Mesh :=
  match run with
  | .ok mesh => mesh
  | .error _ => Mesh.init

/-- The variables of `loadObj` after its loop (the initial ones when the run failed). -/
def loaderState (run : Except Failure ObjLoader) : ObjLoader :=
  match run with
  | .ok st => st
  | .error _ => ObjLoader.init

/-- Reads an unsigned decimal integer as a `float`; stands for the library in the
examples. -/
def exampleExtractFloat (stream : IStream) (old : Rat) : Rat × IStream :=
  if stream.fail then (old, stream)
  else
    match parseNumber (skipSpace stream.buf) with
    | none => (0, { buf := skipSpace stream.buf, fail := true })
    | some (x, r) => ((x : Rat), { buf := r, fail := false })

/-- A file with four positions, one normal and one face line that lists four vertex
definitions. -/
def quadFile : List String :=
  ["v 0 0 0", "v 1 0 0", "v 1 1 0", "v 0 1 0", "vn 0 0 1", "f 1//1 2//1 3//1 4//1"]

/-- A file with one position, one normal, no texture coordinate, and a face whose corners
give the texcoord number 7. -/
def noTexcoordFile : List String := ["v 1 2 3", "vn 0 0 1", "f 1/7/1 1/7/1 1/7/1"]

/-- A file whose face names the vertex number 0. -/
def zeroIndexFile : List String := ["v 1 2 3", "vn 0 0 1", "f 0//1 1//1 1//1"]

/-- A file whose face names the vertex number 2 when one position has been read. -/
def highIndexFile : List String := ["v 1 2 3", "vn 0 0 1", "f 2//1 1//1 1//1"]

/-- A file whose face comes before the texture coordinate its corners name. -/
def lateTexcoordFile : List String :=
  ["v 1 2 3", "v 4 5 6", "vn 0 0 1", "f 1/1/1 2/1/1 1/1/1", "vt 5 6"]

/-- A file with positions, normals and texture coordinates and two faces that share two
corners. -/
def squareFile : List String :=
  ["v 0 0 0", "v 1 0 0", "v 1 1 0", "v 0 1 0", "vn 0 0 1", "vt 0 0", "vt 1 0", "vt 1 1",
   "vt 0 1", "g square", "f 1/1/1 2/2/1 3/3/1", "f 1/1/1 3/3/1 4/4/1"]

/-- The environment of the examples: the files above under their names, floats read by
`exampleExtractFloat`, normals rescaled by `exampleNormalize`. -/
def exampleEnv : ParserEnv :=
  { extractFloat := exampleExtractFloat
    extractInt := fun stream _ => (0, stream)
    readLines := fun name =>
      if name = "quad.obj" then some quadFile
      else if name = "notexcoord.obj" then some noTexcoordFile
      else if name = "zero.obj" then some zeroIndexFile
      else if name = "high.obj" then some highIndexFile
      else if name = "late.obj" then some lateTexcoordFile
      else if name = "square.obj" then some squareFile
      else none
    newMaterial := textured ""
    resetMaterial := fun _ => textured ""
    normalizeNormal := exampleNormalize }

/-- A material file that gives the transparency of its material with the keyword `Tr`. -/
def trFile : List String := ["newmtl glass", "Tr 0", "map_Tr alpha.png"]

/-- The same material, its transparency given with the keyword `d`. -/
def dFile : List String := ["newmtl glass", "d 0", "map_d alpha.png"]

/-- The environment of the material examples: the two files above under the names
`tr.mtl` and `d.mtl`; a fresh or reset material is `textured ""`, of transparency 1. -/
def materialEnv : ParserEnv :=
  { exampleEnv with
    readLines := fun name =>
      if name = "tr.mtl" then some trFile
      else if name = "d.mtl" then some dFile
      else none }

/-! ## The file as the statements about the numbers of a face corner see it -/

/-- The line is not skipped and its command is `v`. -/
def isPositionLine (line : String) : Bool :=
  !isSkippedLine line && decide ((readCommand line).1 = "v")

/-- The line is not skipped and its command is `vn`. -/
def isNormalLine (line : String) : Bool :=
  !isSkippedLine line && decide ((readCommand line).1 = "vn")

/-- The three `float` values `stream >> v.data[0] >> v.data[1] >> v.data[2]` reads
(parser.cpp 391-393 and 399-400). -/
def readVector3 (env : ParserEnv) (stream : IStream) : Vector3f :=
  { d0 := (env.extractFloat stream 0).1
    d1 := (env.extractFloat (env.extractFloat stream 0).2 0).1
    d2 := (env.extractFloat (env.extractFloat (env.extractFloat stream 0).2 0).2 0).1 }

/-- The two `float` values `stream >> vt.data[0] >> vt.data[1]` reads (parser.cpp 418). -/
def readVector2 (env : ParserEnv) (stream : IStream) : Vector2f :=
  { d0 := (env.extractFloat stream 0).1
    d1 := (env.extractFloat (env.extractFloat stream 0).2 0).1 }

/-- The positions the `v` lines of a file give, in the order of the lines: number `k`
(counted from 1) names the `k`-th of them. -/
def filePositions (env : ParserEnv) (lines : List String) : List Vector3f :=
  (lines.filter isPositionLine).map (fun line => readVector3 env (readCommand line).2)

/-- The normals the `vn` lines of a file give (after the rescaling), in the order of the
lines. -/
def fileNormals (env : ParserEnv) (lines : List String) : List Vector3f :=
  (lines.filter isNormalLine).map
    (fun line => env.normalizeNormal (readVector3 env (readCommand line).2))

/-- The texture coordinates the `vt` lines of a file give, in the order of the lines. -/
def fileTexcoords (env : ParserEnv) (lines : List String) : List Vector2f :=
  (lines.filter isTexcoordLine).map (fun line => readVector2 env (readCommand line).2)

/-- A `vt` line comes before the first face line of the file. -/
def texcoordBeforeFaces : List String → Bool
  | [] => false
  | line :: rest =>
    if isTexcoordLine line then true
    else if isFaceLine line then false
    else texcoordBeforeFaces rest

/-- What claim C15 asks of the index `i` that the corner `k` of a face received: `i` is
an index into the vertices of the mesh, the vertex and the normal stored at `i` are the
ones the vertex and normal number of `k` name in the file, and the texture coordinate
stored at `i` is the one the texcoord number of `k` names when a `vt` line comes before the
first face line, and (0, 0) otherwise. -/
def cornerData (env : ParserEnv) (lines : List String) (mesh : Mesh) (i : Int)
    (k : Vector3i) : Prop :=
  0 ≤ i ∧ i < mesh.vertices.length ∧
  (∃ v, mesh.vertices.get? i.toNat = some v ∧ named (filePositions env lines) k.d0 = some v) ∧
  (∃ n, mesh.normals.get? i.toNat = some n ∧ named (fileNormals env lines) k.d1 = some n) ∧
  (∃ t, mesh.texcoord.get? i.toNat = some t ∧
    if texcoordBeforeFaces lines = true then named (fileTexcoords env lines) k.d2 = some t
    else t = { d0 := 0, d1 := 0 })

/-- The face `f` of the mesh belongs to the face line with the corners `c`: there are
three corners, and each index of `f` carries the data of its corner (`cornerData`). -/
def faceData (env : ParserEnv) (lines : List String) (mesh : Mesh) (f : Vector3i)
    (c : List Vector3i) : Prop :=
  ∃ k0 k1 k2, c = [k0, k1, k2] ∧ cornerData env lines mesh f.d0 k0 ∧
    cornerData env lines mesh f.d1 k1 ∧ cornerData env lines mesh f.d2 k2

/-- A file whose face names the normal number 2 when one normal has been read. -/
def highNormalFile : List String := ["v 1 2 3", "vn 0 0 1", "f 1//2 1//1 1//1"]

/-- A file whose face names the texcoord number 2 when one texture coordinate has been
read. -/
def highTexcoordFile : List String := ["v 1 2 3", "vn 0 0 1", "vt 0 0", "f 1/2/1 1/1/1 1/1/1"]

/-- A file whose face writes the vertex number 4294967297, which is 2^32 + 1. -/
def wrapIndexFile : List String := ["v 1 2 3", "vn 0 0 1", "f 4294967297//1 1//1 1//1"]

/-- The environment of the examples on the numbers of a face corner: the three files
above under the names `highnormal.obj`, `hightexcoord.obj` and `wrap.obj`, and the files
of `exampleEnv`. -/
def numbersEnv : ParserEnv :=
  { exampleEnv with
    readLines := fun name =>
      if name = "highnormal.obj" then some highNormalFile
      else if name = "hightexcoord.obj" then some highTexcoordFile
      else if name = "wrap.obj" then some wrapIndexFile
      else exampleEnv.readLines name }

/-! ## Lemmas on the stable sort -/

section SortLemmas

variable {α : Type} (f : α → Int)

theorem listInsert_perm (cmp : α → α → Bool) (a : α) (l : List α) :
    (listInsert cmp a l).Perm (a :: l) := by
  induction l with
  | nil => exact List.Perm.refl _
  | cons b t ih =>
    unfold listInsert
    split
    · exact ((List.Perm.cons b ih).trans (List.Perm.swap a b t))
    · exact List.Perm.refl _

theorem listSort_perm (cmp : α → α → Bool) (l : List α) : (listSort cmp l).Perm l := by
  induction l with
  | nil => exact List.Perm.refl _
  | cons a t ih =>
    unfold listSort
    exact (listInsert_perm cmp a _).trans (List.Perm.cons a ih)

theorem listInsert_sorted (a : α) (l : List α)
    (hl : l.Pairwise (fun x y => f x ≤ f y)) :
    (listInsert (fun x y => decide (f x < f y)) a l).Pairwise (fun x y => f x ≤ f y) := by
  induction l with
  | nil => simp [listInsert]
  | cons b t ih =>
    rw [List.pairwise_cons] at hl
    unfold listInsert
    split
    · rename_i hlt
      have hlt2 : f b < f a := by simpa using hlt
      rw [List.pairwise_cons]
      refine ⟨?_, ih hl.2⟩
      intro x hx
      have hx2 := (listInsert_perm (fun x y => decide (f x < f y)) a t).mem_iff.mp hx
      rcases List.mem_cons.mp hx2 with h | h
      · rw [h]; exact le_of_lt hlt2
      · exact hl.1 x h
    · rename_i hlt
      have hle : f a ≤ f b := by simpa using hlt
      rw [List.pairwise_cons]
      refine ⟨?_, List.pairwise_cons.mpr hl⟩
      intro x hx
      rcases List.mem_cons.mp hx with h | h
      · rw [h]; exact hle
      · exact le_trans hle (hl.1 x h)

theorem listSort_sorted (l : List α) :
    (listSort (fun x y => decide (f x < f y)) l).Pairwise (fun x y => f x ≤ f y) := by
  induction l with
  | nil => simp [listSort]
  | cons a t ih =>
    unfold listSort
    exact listInsert_sorted f a _ ih

/-- In a list sorted by `f` whose keys are all at least `m`, the elements of key `m` form
an initial segment. -/
theorem filter_key_prefix (m : Int) (l : List α)
    (hl : l.Pairwise (fun x y => f x ≤ f y)) (hm : ∀ x ∈ l, m ≤ f x) :
    l.filter (fun x => m == f x) <+: l := by
  induction l with
  | nil => simp
  | cons a t ih =>
    rw [List.pairwise_cons] at hl
    by_cases ha : m = f a
    · have e : (a :: t).filter (fun x => m == f x) = a :: t.filter (fun x => m == f x) := by
        simp [List.filter_cons, ha]
      rw [e]
      exact (List.prefix_cons_inj a).mpr (ih hl.2 (fun x hx => hm x (List.mem_cons_of_mem a hx)))
    · have hlt : m < f a := lt_of_le_of_ne (hm a (List.mem_cons_self a t)) ha
      have hnil : (a :: t).filter (fun x => m == f x) = [] := by
        rw [List.filter_eq_nil_iff]
        intro x hx
        rcases List.mem_cons.mp hx with h | h
        · rw [h]; simpa using ha
        · have := hl.1 x h
          have hne : m ≠ f x := by omega
          simpa using hne
      rw [hnil]
      exact List.nil_prefix

end SortLemmas

/-! ## Lemmas on `packTextures` -/

theorem ptrCompare_eq (tiles : List TextureTile) :
    ptrCompare tiles = fun a b => decide (ptrMaxSize tiles a < ptrMaxSize tiles b) := rfl

theorem sortedHeads_perm (s : PackState) : (sortedHeads s).Perm s.headTiles :=
  listSort_perm _ _

theorem sortedHeads_sorted (s : PackState) :
    (sortedHeads s).Pairwise (fun a b => ptrMaxSize s.tiles a ≤ ptrMaxSize s.tiles b) := by
  unfold sortedHeads
  rw [ptrCompare_eq]
  exact listSort_sorted (ptrMaxSize s.tiles) s.headTiles

theorem sortedHeads_ne_nil (s : PackState) (h : s.headTiles ≠ []) : sortedHeads s ≠ [] := by
  intro e
  have hp := sortedHeads_perm s
  rw [e] at hp
  exact h (List.Perm.nil_eq hp).symm

/-- The front of the sorted head list has the least `maxSize()` of all heads. -/
theorem sortedHeads_front_le (s : PackState) (a : Nat) (t : List Nat)
    (e : sortedHeads s = a :: t) :
    ∀ q ∈ s.headTiles, ptrMaxSize s.tiles a ≤ ptrMaxSize s.tiles q := by
  intro q hq
  have hs := sortedHeads_sorted s
  rw [e, List.pairwise_cons] at hs
  have hq2 : q ∈ a :: t := by
    rw [← e]
    exact (sortedHeads_perm s).mem_iff.mpr hq
  rcases List.mem_cons.mp hq2 with h | h
  · rw [h]
  · exact hs.1 q h

theorem mem_findCandidates (s : PackState) (a : Nat) (t : List Nat)
    (e : sortedHeads s = a :: t) (p : Nat) :
    p ∈ findCandidates s.tiles (sortedHeads s) ↔
      p ∈ s.headTiles ∧ ∀ q ∈ s.headTiles, ptrMaxSize s.tiles p ≤ ptrMaxSize s.tiles q := by
  have hmin := sortedHeads_front_le s a t e
  have ha : a ∈ s.headTiles := by
    apply (sortedHeads_perm s).mem_iff.mp
    rw [e]
    exact List.mem_cons_self a t
  have hmem : p ∈ a :: t ↔ p ∈ s.headTiles := by
    rw [← e]
    exact (sortedHeads_perm s).mem_iff
  rw [e]
  unfold findCandidates
  rw [List.mem_filter, hmem]
  constructor
  · rintro ⟨hp, heq⟩
    have heq2 : ptrMaxSize s.tiles a = ptrMaxSize s.tiles p := by simpa using heq
    refine ⟨hp, ?_⟩
    intro q hq
    rw [← heq2]
    exact hmin q hq
  · rintro ⟨hp, hle⟩
    refine ⟨hp, ?_⟩
    have h1 := hmin p hp
    have h2 := hle a ha
    have : ptrMaxSize s.tiles a = ptrMaxSize s.tiles p := le_antisymm h1 h2
    simpa using this

theorem findCandidates_prefix (s : PackState) :
    findCandidates s.tiles (sortedHeads s) <+: sortedHeads s := by
  rcases e : sortedHeads s with _ | ⟨a, t⟩
  · simp [findCandidates]
  · unfold findCandidates
    have hs := sortedHeads_sorted s
    rw [e] at hs
    apply filter_key_prefix (ptrMaxSize s.tiles) (ptrMaxSize s.tiles a) (a :: t) hs
    intro x hx
    rcases List.mem_cons.mp hx with h | h
    · rw [h]
    · exact (List.pairwise_cons.mp hs).1 x h

theorem findCandidates_ne_nil (s : PackState) (h : s.headTiles ≠ []) :
    findCandidates s.tiles (sortedHeads s) ≠ [] := by
  rcases e : sortedHeads s with _ | ⟨a, t⟩
  · exact absurd e (sortedHeads_ne_nil s h)
  · intro hnil
    have ha : a ∈ findCandidates s.tiles (a :: t) := by
      unfold findCandidates
      rw [List.mem_filter]
      exact ⟨List.mem_cons_self a t, by simp⟩
    rw [hnil] at ha
    exact absurd ha (List.not_mem_nil a)

theorem mergeLoop_of_nil (ac : AddChildren) (fuel : Nat) (s : PackState)
    (h : s.headTiles = []) : mergeLoop ac fuel s = some s := by
  cases fuel <;> simp [mergeLoop, h]

/-- The loop is left only through its guard: with an empty head list. -/
theorem mergeLoop_exit (ac : AddChildren) (fuel : Nat) (s r : PackState)
    (h : mergeLoop ac fuel s = some r) : r.headTiles = [] := by
  induction fuel generalizing s with
  | zero =>
    unfold mergeLoop at h
    split at h
    · exact absurd h (by simp)
    · rename_i hg
      have : s = r := by simpa using h
      rw [← this]
      exact List.length_eq_zero.mp (by omega)
  | succ n ih =>
    unfold mergeLoop at h
    split at h
    · exact ih _ h
    · rename_i hg
      have : s = r := by simpa using h
      rw [← this]
      exact List.length_eq_zero.mp (by omega)

theorem mem_usedMaterialNames_fold (l : List MeshComponent) (acc : List String) (x : String) :
    x ∈ l.foldl
        (fun used ic => if ic.materialName ∈ used then used else used ++ [ic.materialName]) acc ↔
      x ∈ acc ∨ ∃ c ∈ l, c.materialName = x := by
  induction l generalizing acc with
  | nil => simp
  | cons c t ih =>
    rw [List.foldl_cons, ih]
    by_cases hc : c.materialName ∈ acc
    · simp only [hc, if_true, List.mem_cons, exists_eq_or_imp]
      constructor
      · rintro (h | h)
        · exact Or.inl h
        · exact Or.inr (Or.inr h)
      · rintro (h | h | h)
        · exact Or.inl h
        · exact Or.inl (h ▸ hc)
        · exact Or.inr h
    · simp only [hc, if_false, List.mem_append, List.mem_singleton, List.mem_cons,
        exists_eq_or_imp, List.not_mem_nil, or_false]
      constructor
      · rintro ((h | h) | h)
        · exact Or.inl h
        · exact Or.inr (Or.inl h.symm)
        · exact Or.inr (Or.inr h)
      · rintro (h | h | h)
        · exact Or.inl (Or.inl h)
        · exact Or.inl (Or.inr h.symm)
        · exact Or.inr h

theorem mem_usedMaterialNames (m : Mesh) (x : String) :
    x ∈ usedMaterialNames m ↔ ∃ c ∈ m.components, c.materialName = x := by
  unfold usedMaterialNames
  rw [mem_usedMaterialNames_fold]
  simp

/-- The test of packer.cpp 117 holds exactly for a material with a non-empty diffuse
texture path that some component names. -/
theorem hasUsedTexture_iff (m : Mesh) (name : String) (mat : Material) :
    hasUsedTexture m name mat = true ↔
      mat.textureDiffuse ≠ "" ∧ ∃ c ∈ m.components, c.materialName = name := by
  unfold hasUsedTexture
  rw [Bool.and_eq_true, decide_eq_true_iff, mem_usedMaterialNames]
  have : (!mat.textureDiffuse.isEmpty) = true ↔ mat.textureDiffuse ≠ "" := by
    rw [Bool.not_eq_true', Ne, ← String.isEmpty_iff]
    simp
  rw [this]

theorem foldl_createLeaf_skip (lf : String → LeafImage) (m : Mesh)
    (l : List (String × Material)) (s : PackState)
    (h : ∀ im ∈ l, hasUsedTexture m im.1 im.2 = false) :
    l.foldl (createLeaf lf m) s = s := by
  induction l generalizing s with
  | nil => rfl
  | cons im t ih =>
    rw [List.foldl_cons]
    have h1 : createLeaf lf m s im = s := by
      unfold createLeaf
      simp [h im (List.mem_cons_self im t)]
    rw [h1]
    exact ih s (fun x hx => h x (List.mem_cons_of_mem im hx))

/-- With no material that is both used and textured, no leaf is created. -/
theorem createLeaves_empty (lf : String → LeafImage) (m : Mesh)
    (h : ∀ im ∈ m.materials,
      ¬ (im.2.textureDiffuse ≠ "" ∧ ∃ c ∈ m.components, c.materialName = im.1)) :
    createLeaves lf m = { tiles := [], headTiles := [], allTiles := [], materialTiles := [] } := by
  unfold createLeaves
  apply foldl_createLeaf_skip
  intro im him
  have := h im him
  rw [← hasUsedTexture_iff] at this
  simpa using this

/-! ## The claims -/

/-- Claim C1, evaluated on the code.  `quadA` holds the wanted leaf in slot 0: the child
reports found, the loop of the Quad ends with `result == true` and the child's position in
the reference parameters, yet the call of the Quad returns no value.  A Quad with four
empty slots does not report not-found either.  This is so for every Quad: the body of
`TextureTileQuad::getTileOffset` (packer.cpp 54-61) has no return statement. -/
theorem quad_getTileOffset_returns_no_value :
    (leafA.getTileOffset 1 0 0 (-1) (-1)).returned = some true ∧
    quadA.quadLocals 1 0 0 (-1) (-1) = ⟨some true, 0, 0⟩ ∧
    (quadA.getTileOffset 1 0 0 (-1) (-1)).returned = none ∧
    (newQuad 0).quadLocals 1 0 0 (-1) (-1) = ⟨some false, -1, -1⟩ ∧
    ((newQuad 0).getTileOffset 1 0 0 (-1) (-1)).returned = none ∧
    ∀ (this : Nat) (parent : Option Nat) (sx sy : Int) (c0 c1 c2 c3 : TextureTile)
      (ox oy : Int4) (tile : Nat) (x y rx ry : Int),
      ((TextureTile.quad this parent sx sy c0 c1 c2 c3 ox oy).getTileOffset
        tile x y rx ry).returned = none := by
  refine ⟨by decide, by decide, by decide, by decide, by decide, ?_⟩
  intros
  rfl

/-- Claim C2.  A Leaf queried for itself returns found and stores the accumulated offset
in the result; queried for any other tile it returns not-found and leaves the result as it
was on entry. -/
theorem leaf_getTileOffset (this : Nat) (parent : Option Nat) (sx sy ew eh : Int) (im : Nat)
    (tile : Nat) (ox oy rx ry : Int) :
    (TextureTile.leaf this parent sx sy ew eh im).getTileOffset this ox oy rx ry
        = ⟨some true, ox, oy⟩ ∧
    (tile ≠ this →
      (TextureTile.leaf this parent sx sy ew eh im).getTileOffset tile ox oy rx ry
        = ⟨some false, rx, ry⟩) := by
  constructor
  · simp [TextureTile.getTileOffset]
  · intro h
    simp [TextureTile.getTileOffset, h]

/-- Witness of `leaf_getTileOffset`: `leafA` (address 1) queried for the tile at address 2. -/
theorem leaf_getTileOffset_witness :
    (2 : Nat) ≠ 1 ∧ leafA.getTileOffset 2 3 5 7 9 = ⟨some false, 7, 9⟩ :=
  ⟨by decide, (leaf_getTileOffset 1 (some 0) 4 4 4 4 0 2 3 5 7 9).2 (by decide)⟩

/-- In a tree of the declared types a Quad, and every tile a slot can hold, has no Leaf
below it. -/
theorem leaves_of_isQuadPtr (t : TextureTile) (hq : t.isQuadPtr = true)
    (hty : t.wellTyped = true) : t.leaves = [] := by
  induction t with
  | NULL => rfl
  | leaf => simp [TextureTile.isQuadPtr] at hq
  | quad a p sx sy c0 c1 c2 c3 ox oy ih0 ih1 ih2 ih3 =>
    simp only [TextureTile.wellTyped, Bool.and_eq_true] at hty
    obtain ⟨⟨⟨⟨⟨⟨⟨q0, q1⟩, q2⟩, q3⟩, t0⟩, t1⟩, t2⟩, t3⟩ := hty
    simp only [TextureTile.leaves, ih0 q0 t0, ih1 q1 t1, ih2 q2 t2, ih3 q3 t3,
      List.append_nil]

/-- Claim C5, evaluated on the code.  Whatever `addChildren` does and however many rounds
are allowed, the loop `while(headTiles.size()>0)` either has not ended or has ended with an
empty head list, never with exactly one head.  Started on one 16x16 leaf the guard holds,
so a round is run. -/
theorem mergeLoop_never_ends_with_one_head :
    (∀ (ac : AddChildren) (fuel : Nat) (s : PackState),
      mergeLoop ac fuel s = none ∨ ∃ r, mergeLoop ac fuel s = some r ∧ r.headTiles.length = 0) ∧
    oneLeaf.headTiles = [0] ∧
    (∀ (ac : AddChildren) (fuel : Nat),
      mergeLoop ac (fuel + 1) oneLeaf = mergeLoop ac fuel (mergeRound ac oneLeaf)) ∧
    ∀ (ac : AddChildren) (fuel : Nat),
      ¬ ∃ r, mergeLoop ac fuel oneLeaf = some r ∧ r.headTiles.length = 1 := by
  refine ⟨?_, by decide, ?_, ?_⟩
  · intro ac fuel s
    cases h : mergeLoop ac fuel s with
    | none => exact Or.inl rfl
    | some r =>
      refine Or.inr ⟨r, rfl, ?_⟩
      rw [mergeLoop_exit ac fuel s r h]
      rfl
  · intro ac fuel
    have hg : oneLeaf.headTiles.length > 0 := by decide
    conv_lhs => unfold mergeLoop
    rw [if_pos hg]
  · rintro ac fuel ⟨r, hr, h1⟩
    rw [mergeLoop_exit ac fuel oneLeaf r hr] at h1
    exact absurd h1 (by decide)

/-- Claim C6.  In a round (the head list is not empty), after the sort: the candidates the
loop collects are the heads whose `maxSize()` is the least among all heads, every such head
is collected, there is at least one, and the candidates are an initial segment of the
sorted list.  The sorted list is a rearrangement of the head list in ascending order of
`maxSize()`. -/
theorem candidates_are_the_smallest_heads (s : PackState) (h : s.headTiles ≠ []) :
    (sortedHeads s).Perm s.headTiles ∧
    (sortedHeads s).Pairwise (fun a b => ptrMaxSize s.tiles a ≤ ptrMaxSize s.tiles b) ∧
    (∀ p, p ∈ (beforeAddChildren s).candidateTiles ↔
      p ∈ s.headTiles ∧ ∀ q ∈ s.headTiles, ptrMaxSize s.tiles p ≤ ptrMaxSize s.tiles q) ∧
    (beforeAddChildren s).candidateTiles ≠ [] ∧
    (beforeAddChildren s).candidateTiles <+: sortedHeads s := by
  have hc : (beforeAddChildren s).candidateTiles = findCandidates s.tiles (sortedHeads s) := rfl
  rw [hc]
  refine ⟨sortedHeads_perm s, sortedHeads_sorted s, ?_, findCandidates_ne_nil s h,
    findCandidates_prefix s⟩
  intro p
  rcases e : sortedHeads s with _ | ⟨a, t⟩
  · exact absurd e (sortedHeads_ne_nil s h)
  · rw [← e]
    exact mem_findCandidates s a t e p

/-- Witness of `candidates_are_the_smallest_heads`: four 2x2 leaves and one 8x8 leaf. -/
theorem candidates_are_the_smallest_heads_witness :
    fourSmallOneBig.headTiles ≠ [] ∧
    (beforeAddChildren fourSmallOneBig).candidateTiles = [0, 1, 2, 3] ∧
    (beforeAddChildren fourSmallOneBig).candidateTiles <+: sortedHeads fourSmallOneBig :=
  ⟨by decide, by decide,
    (candidates_are_the_smallest_heads fourSmallOneBig (by decide)).2.2.2.2⟩

/-- Claim C7 as stated fails: with five 2x2 heads the round creates one Quad, not
ceil(5/4) = 2, and that Quad is handed all five candidates. -/
theorem five_candidates_one_quad :
    (beforeAddChildren fiveSmall).candidateTiles = [0, 1, 2, 3, 4] ∧
    quadsCreated fiveSmall = 1 ∧
    (mergeRound addChildrenSpec fiveSmall).allTiles = [0, 1, 2, 3, 4, 5] ∧
    ¬ (quadsCreated fiveSmall = ((beforeAddChildren fiveSmall).candidateTiles.length + 3) / 4) ∧
    ¬ ((beforeAddChildren fiveSmall).candidateTiles.length ≤ 4) := by
  refine ⟨by decide, by decide, by decide, by decide, by decide⟩

/-- Claim C7, amended.  In every round with k >= 1 candidates the loop body creates exactly
one new Quad, appends it to the head list and to the all-tiles list, and hands all k
candidates to that one Quad in a single call of `addChildren`; one Quad is ceil(k/4) Quads
exactly when k <= 4. -/
theorem one_quad_per_round (ac : AddChildren) (s : PackState) (h : s.headTiles ≠ []) :
    1 ≤ (beforeAddChildren s).candidateTiles.length ∧
    quadsCreated s = 1 ∧
    (beforeAddChildren s).state.tiles = s.tiles ++ [newQuad s.tiles.length] ∧
    (beforeAddChildren s).state.headTiles = sortedHeads s ++ [s.tiles.length] ∧
    (mergeRound ac s).allTiles = s.allTiles ++ [s.tiles.length] ∧
    mergeRound ac s =
      { tiles := (ac (s.tiles ++ [newQuad s.tiles.length]) s.tiles.length
          (findCandidates s.tiles (sortedHeads s)) (sortedHeads s ++ [s.tiles.length])).1
        headTiles := (ac (s.tiles ++ [newQuad s.tiles.length]) s.tiles.length
          (findCandidates s.tiles (sortedHeads s)) (sortedHeads s ++ [s.tiles.length])).2
        allTiles := s.allTiles ++ [s.tiles.length]
        materialTiles := s.materialTiles } ∧
    (quadsCreated s = ((beforeAddChildren s).candidateTiles.length + 3) / 4 ↔
      (beforeAddChildren s).candidateTiles.length ≤ 4) := by
  have hk : 1 ≤ (beforeAddChildren s).candidateTiles.length :=
    List.length_pos.mpr (findCandidates_ne_nil s h)
  have hq : quadsCreated s = 1 := by
    simp [quadsCreated, beforeAddChildren]
  refine ⟨hk, hq, rfl, rfl, rfl, rfl, ?_⟩
  rw [hq]
  omega

/-- Witness of `one_quad_per_round`: four 2x2 leaves and one 8x8 leaf give, in the first
round, one Quad that is handed the four 2x2 leaves. -/
theorem one_quad_per_round_witness :
    fourSmallOneBig.headTiles ≠ [] ∧
    quadsCreated fourSmallOneBig = 1 ∧
    (beforeAddChildren fourSmallOneBig).candidateTiles = [0, 1, 2, 3] :=
  ⟨by decide, (one_quad_per_round addChildrenSpec fourSmallOneBig (by decide)).2.1, by decide⟩

/-- Claim C8, evaluated on the code.  With exactly one leaf (one 16x16 texture) the guard
`headTiles.size()>0` holds, so the loop body runs: it creates a Quad (object 1) and hands it
the leaf as the only candidate.  No run of the loop ends with the leaf as the single head
and no Quad created. -/
theorem single_leaf_still_gets_a_quad :
    oneLeaf = { tiles := [.leaf 0 none 16 16 16 16 1], headTiles := [0], allTiles := [0],
                materialTiles := [("s", 0)] } ∧
    (∀ ac : AddChildren, mergeLoop ac 0 oneLeaf = none) ∧
    (beforeAddChildren oneLeaf).state.tiles = [.leaf 0 none 16 16 16 16 1, newQuad 1] ∧
    (beforeAddChildren oneLeaf).candidateTiles = [0] ∧
    quadsCreated oneLeaf = 1 ∧
    (∀ (ac : AddChildren) (fuel : Nat),
      mergeLoop ac (fuel + 1) oneLeaf = mergeLoop ac fuel (mergeRound ac oneLeaf) ∧
      (mergeRound ac oneLeaf).allTiles = [0, 1]) ∧
    ∀ (ac : AddChildren) (fuel : Nat) (out : Mesh),
      packTextures loadExample ac fuel (meshOf ["s"]) out ≠ some (out, oneLeaf) := by
  refine ⟨by decide, ?_, by decide, by decide, by decide, ?_, ?_⟩
  · intro ac
    have hg : oneLeaf.headTiles.length > 0 := by decide
    unfold mergeLoop
    rw [if_pos hg]
  · intro ac fuel
    have hg : oneLeaf.headTiles.length > 0 := by decide
    refine ⟨?_, rfl⟩
    conv_lhs => unfold mergeLoop
    rw [if_pos hg]
  · intro ac fuel out hp
    unfold packTextures at hp
    have e : createLeaves loadExample (meshOf ["s"]) = oneLeaf := rfl
    rw [e] at hp
    cases hm : mergeLoop ac fuel oneLeaf with
    | none => rw [hm] at hp; exact absurd hp (by simp)
    | some r =>
      rw [hm] at hp
      have hr : r = oneLeaf := by
        have := Option.some.inj hp
        exact (Prod.mk.inj this).2
      have h0 := mergeLoop_exit ac fuel oneLeaf r hm
      rw [hr] at h0
      exact absurd h0 (by decide)

/-- Claim C9, evaluated on the code.  `plainMesh` has no material at all.  `packTextures`
returns with `outputMesh` exactly as the caller passed it, because no statement assigns to
it; `main` passes a default-constructed mesh, so the mesh handed to `writeObj` is empty,
differs from the input mesh, and is refused by `writeObj`. -/
theorem output_mesh_is_never_written :
    (∀ (lf : String → LeafImage) (ac : AddChildren) (fuel : Nat) (outputMesh : Mesh),
      (packTextures lf ac fuel plainMesh outputMesh).map Prod.fst = some outputMesh) ∧
    (∀ (lf : String → LeafImage) (ac : AddChildren) (fuel : Nat),
      bakeMesh lf ac fuel plainMesh = some Mesh.init) ∧
    Mesh.init ≠ plainMesh ∧
    writeObjVertexCheck Mesh.init = .error "mesh contains no vertices" ∧
    writeObjVertexCheck plainMesh = .ok () := by
  have hc : ∀ lf : String → LeafImage, createLeaves lf plainMesh =
      { tiles := [], headTiles := [], allTiles := [], materialTiles := [] } := fun _ => rfl
  have hp : ∀ (lf : String → LeafImage) (ac : AddChildren) (fuel : Nat) (outputMesh : Mesh),
      (packTextures lf ac fuel plainMesh outputMesh).map Prod.fst = some outputMesh := by
    intro lf ac fuel outputMesh
    unfold packTextures
    rw [hc lf, mergeLoop_of_nil ac fuel _ rfl]
    rfl
  refine ⟨hp, ?_, by decide, rfl, rfl⟩
  intro lf ac fuel
  exact hp lf ac fuel Mesh.init

/-- Claim C10.  When no material is both named by a component and has a non-empty diffuse
texture path, `packTextures` creates no tile: after the leaf loop the store, the head list,
the all-tiles list and the material map are empty, the guard of the merge loop fails at once
(the loop returns its entry state even when no round is allowed), and the function returns
with these empty lists. -/
theorem no_texture_no_tile (lf : String → LeafImage) (ac : AddChildren) (fuel : Nat)
    (inputMesh outputMesh : Mesh)
    (h : ∀ im ∈ inputMesh.materials,
      ¬ (im.2.textureDiffuse ≠ "" ∧ ∃ c ∈ inputMesh.components, c.materialName = im.1)) :
    createLeaves lf inputMesh =
      { tiles := [], headTiles := [], allTiles := [], materialTiles := [] } ∧
    ¬ ((createLeaves lf inputMesh).headTiles.length > 0) ∧
    mergeLoop ac 0 (createLeaves lf inputMesh) = some (createLeaves lf inputMesh) ∧
    (packTextures lf ac fuel inputMesh outputMesh).map Prod.snd =
      some { tiles := [], headTiles := [], allTiles := [], materialTiles := [] } := by
  have hc := createLeaves_empty lf inputMesh h
  refine ⟨hc, ?_, ?_, ?_⟩
  · rw [hc]; simp
  · exact mergeLoop_of_nil ac 0 _ (by rw [hc])
  · unfold packTextures
    rw [mergeLoop_of_nil ac fuel _ (by rw [hc]), hc]
    rfl

/-- Witness of `no_texture_no_tile`: `idleMesh`, whose used material has no texture and
whose textured material is not used. -/
theorem no_texture_no_tile_witness :
    (∀ im ∈ idleMesh.materials,
      ¬ (im.2.textureDiffuse ≠ "" ∧ ∃ c ∈ idleMesh.components, c.materialName = im.1)) ∧
    (packTextures loadExample addChildrenSpec 0 idleMesh Mesh.init).map Prod.snd =
      some { tiles := [], headTiles := [], allTiles := [], materialTiles := [] } :=
  ⟨by decide, (no_texture_no_tile loadExample addChildrenSpec 0 idleMesh Mesh.init
    (by decide)).2.2.2⟩

/-! ## Lemmas for the leaf loop of `packTextures` -/

theorem mapAssign_new (m : List (String × Nat)) (name : String) (leaf : Nat)
    (h : name ∉ m.map Prod.fst) : mapAssign m name leaf = m ++ [(name, leaf)] := by
  unfold mapAssign
  have : m.any (fun e => e.1 == name) = false := by
    rw [Bool.eq_false_iff]
    intro hany
    rw [List.any_eq_true] at hany
    obtain ⟨e, he, heq⟩ := hany
    have : e.1 = name := by simpa using heq
    exact h (this ▸ List.mem_map_of_mem Prod.fst he)
  simp [this]

theorem leafTiles_length (lf : String → LeafImage) (start : Nat) (el : List (String × Material)) :
    (leafTiles lf start el).length = el.length := by
  induction el generalizing start with
  | nil => rfl
  | cons im rest ih => simp [leafTiles, ih]

theorem leafEntries_keys (start : Nat) (el : List (String × Material)) :
    (leafEntries start el).map Prod.fst = el.map Prod.fst := by
  induction el generalizing start with
  | nil => rfl
  | cons im rest ih => simp [leafEntries, ih]

theorem leafEntries_values (start : Nat) (el : List (String × Material)) :
    (leafEntries start el).map Prod.snd = List.range' start el.length := by
  induction el generalizing start with
  | nil => rfl
  | cons im rest ih => simp [leafEntries, ih, List.range']

/-- The leaf loop from any state: the eligible materials of the remaining entries get one
leaf each, appended in order. -/
theorem foldl_createLeaf (lf : String → LeafImage) (m : Mesh) (l : List (String × Material))
    (s : PackState) (hnd : (l.map Prod.fst).Nodup)
    (hdis : ∀ name ∈ l.map Prod.fst, name ∉ s.materialTiles.map Prod.fst) :
    l.foldl (createLeaf lf m) s =
      { tiles := s.tiles ++
          leafTiles lf s.tiles.length (l.filter (fun im => hasUsedTexture m im.1 im.2))
        headTiles := s.headTiles ++
          List.range' s.tiles.length (l.filter (fun im => hasUsedTexture m im.1 im.2)).length
        allTiles := s.allTiles ++
          List.range' s.tiles.length (l.filter (fun im => hasUsedTexture m im.1 im.2)).length
        materialTiles := s.materialTiles ++
          leafEntries s.tiles.length (l.filter (fun im => hasUsedTexture m im.1 im.2)) } := by
  induction l generalizing s with
  | nil => simp [leafTiles, leafEntries, List.range']
  | cons im rest ih =>
    rw [List.map_cons, List.nodup_cons] at hnd
    rw [List.foldl_cons]
    by_cases hu : hasUsedTexture m im.1 im.2 = true
    · have hnew : im.1 ∉ s.materialTiles.map Prod.fst :=
        hdis im.1 (by simp)
      have hstep : createLeaf lf m s im =
          { tiles := s.tiles ++ [TextureTile.leaf s.tiles.length none
              (lf im.2.textureDiffuse).sizeX (lf im.2.textureDiffuse).sizeY
              (lf im.2.textureDiffuse).exactWidth (lf im.2.textureDiffuse).exactHeight
              (lf im.2.textureDiffuse).image]
            headTiles := s.headTiles ++ [s.tiles.length]
            allTiles := s.allTiles ++ [s.tiles.length]
            materialTiles := s.materialTiles ++ [(im.1, s.tiles.length)] } := by
        unfold createLeaf
        simp only [hu, if_true]
        rw [mapAssign_new _ _ _ hnew]
      rw [hstep, ih _ hnd.2]
      · simp [List.filter_cons, hu, leafTiles, leafEntries, List.range', List.append_assoc]
      · intro name hname
        simp only [List.map_append, List.map_cons, List.map_nil, List.mem_append,
          List.mem_singleton, not_or]
        refine ⟨hdis name (List.mem_cons_of_mem _ hname), ?_⟩
        intro e
        exact hnd.1 (e ▸ hname)
    · have hu2 : hasUsedTexture m im.1 im.2 = false := by simpa using hu
      have hstep : createLeaf lf m s im = s := by
        unfold createLeaf
        simp [hu2]
      rw [hstep, ih s hnd.2 (fun name hname => hdis name (List.mem_cons_of_mem _ hname))]
      simp [List.filter_cons, hu2]

/-! ## The claims on `packTextures`, continued -/

/-- Claim C11.  The keys of a `std::map` are distinct.  `packTextures` then creates exactly
one Leaf for each material that passes the test of line 117, in the order of the map, at
the addresses 0, 1, ...; the head list and the all-tiles list hold exactly these leaves; the
material map has one entry for each of these materials, whose value is the address of its
leaf.  A material has a key in the map exactly when it has a non-empty diffuse texture
path and some component names it. -/
theorem one_leaf_per_used_texture (lf : String → LeafImage) (m : Mesh)
    (h : (m.materials.map Prod.fst).Nodup) :
    createLeaves lf m =
      { tiles := leafTiles lf 0 (packedMaterials m)
        headTiles := List.range (packedMaterials m).length
        allTiles := List.range (packedMaterials m).length
        materialTiles := leafEntries 0 (packedMaterials m) } ∧
    (createLeaves lf m).tiles.length = (packedMaterials m).length ∧
    (createLeaves lf m).materialTiles.map Prod.fst = (packedMaterials m).map Prod.fst ∧
    (createLeaves lf m).materialTiles.map Prod.snd = List.range (packedMaterials m).length ∧
    ∀ im ∈ m.materials,
      (im.1 ∈ (createLeaves lf m).materialTiles.map Prod.fst ↔
        im.2.textureDiffuse ≠ "" ∧ ∃ c ∈ m.components, c.materialName = im.1) := by
  have hc : createLeaves lf m =
      { tiles := leafTiles lf 0 (packedMaterials m)
        headTiles := List.range (packedMaterials m).length
        allTiles := List.range (packedMaterials m).length
        materialTiles := leafEntries 0 (packedMaterials m) } := by
    unfold createLeaves
    rw [foldl_createLeaf lf m m.materials _ h (by simp)]
    simp [packedMaterials, List.range_eq_range']
  refine ⟨hc, ?_, ?_, ?_, ?_⟩
  · rw [hc]; exact leafTiles_length lf 0 _
  · rw [hc]; exact leafEntries_keys 0 _
  · rw [hc, List.range_eq_range']; exact leafEntries_values 0 _
  · intro im him
    rw [hc]
    show im.1 ∈ (leafEntries 0 (packedMaterials m)).map Prod.fst ↔ _
    rw [leafEntries_keys, ← hasUsedTexture_iff]
    constructor
    · intro hk
      obtain ⟨im2, him2, he⟩ := List.mem_map.mp hk
      have hf := List.mem_filter.mp him2
      have heq : im2 = im := by
        have hinj := List.inj_on_of_nodup_map h
        exact hinj hf.1 him he
      rw [← heq]
      exact hf.2
    · intro hu
      exact List.mem_map_of_mem Prod.fst (List.mem_filter.mpr ⟨him, hu⟩)

/-- Witness of `one_leaf_per_used_texture`: of the three materials of `mixedMesh` only
`"a"` gets a leaf and a map entry. -/
theorem one_leaf_per_used_texture_witness :
    (mixedMesh.materials.map Prod.fst).Nodup ∧
    (createLeaves loadExample mixedMesh).tiles = [.leaf 0 none 8 8 8 8 1] ∧
    (createLeaves loadExample mixedMesh).materialTiles = [("a", 0)] ∧
    (createLeaves loadExample mixedMesh).tiles.length = (packedMaterials mixedMesh).length :=
  ⟨by decide, by decide, by decide,
    (one_leaf_per_used_texture loadExample mixedMesh (by decide)).2.1⟩

/-- Claim C12.  `compareTiles(a, b)` holds exactly when `max(a.sizeX, a.sizeY)` is less than
`max(b.sizeX, b.sizeY)`.  The comparison is irreflexive and transitive, being unordered in
both directions is transitive, tiles of equal `maxSize()` are unordered in both directions,
and the outcome depends on the two `maxSize()` values alone (`area()` plays no part). -/
theorem compareTiles_strict_weak_order (a b c : TextureTile) :
    (compareTiles a b = true ↔ max a.sizeX a.sizeY < max b.sizeX b.sizeY) ∧
    compareTiles a a = false ∧
    (compareTiles a b = true → compareTiles b c = true → compareTiles a c = true) ∧
    (compareTiles a b = false ∧ compareTiles b a = false →
      compareTiles b c = false ∧ compareTiles c b = false →
      compareTiles a c = false ∧ compareTiles c a = false) ∧
    (a.maxSize = b.maxSize → compareTiles a b = false ∧ compareTiles b a = false) ∧
    (∀ a2 b2 : TextureTile, a2.maxSize = a.maxSize → b2.maxSize = b.maxSize →
      compareTiles a2 b2 = compareTiles a b) := by
  have key : ∀ x y : TextureTile, compareTiles x y = true ↔ x.maxSize < y.maxSize := by
    intro x y; simp [compareTiles]
  have keyf : ∀ x y : TextureTile, compareTiles x y = false ↔ y.maxSize ≤ x.maxSize := by
    intro x y; simp [compareTiles]
  refine ⟨key a b, (keyf a a).mpr (le_refl _), ?_, ?_, ?_, ?_⟩
  · intro h1 h2
    exact (key a c).mpr (lt_trans ((key a b).mp h1) ((key b c).mp h2))
  · rintro ⟨h1, h2⟩ ⟨h3, h4⟩
    exact ⟨(keyf a c).mpr (le_trans ((keyf b c).mp h3) ((keyf a b).mp h1)),
      (keyf c a).mpr (le_trans ((keyf b a).mp h2) ((keyf c b).mp h4))⟩
  · intro h
    exact ⟨(keyf a b).mpr (le_of_eq h.symm), (keyf b a).mpr (le_of_eq h)⟩
  · intro a2 b2 h1 h2
    unfold compareTiles
    rw [h1, h2]

/-- Witness of `compareTiles_strict_weak_order`: 2x2 before 4x4 before 8x8 gives 2x2 before
8x8; the 1x8 and the 8x8 tile are unordered; the 4x4 tile comes before the 1x8 tile although
its area is larger. -/
theorem compareTiles_strict_weak_order_witness :
    compareTiles tile2 tile4 = true ∧ compareTiles tile4 tile8 = true ∧
    compareTiles tile2 tile8 = true ∧
    compareTiles tile1x8 tile8 = false ∧ compareTiles tile8 tile1x8 = false ∧
    compareTiles tile4 tile1x8 = true ∧ tile1x8.area < tile4.area :=
  ⟨by decide, by decide,
    (compareTiles_strict_weak_order tile2 tile4 tile8).2.2.1 (by decide) (by decide),
    by decide, by decide, by decide, by decide⟩

/-- Claim C13, evaluated on the code.  Whatever the input mesh, `packTextures` either does
not return or returns with `outputMesh` as the caller passed it: after the merge loop the
body holds only the comment `// Transform texture coordinates`.  For the mesh with one
16x16 texture, whose second texture coordinate is (1,0), the mesh `main` passes on has no
texture coordinate at all. -/
theorem texture_coordinates_are_not_transformed :
    (∀ (lf : String → LeafImage) (ac : AddChildren) (fuel : Nat) (inputMesh outputMesh : Mesh),
      (packTextures lf ac fuel inputMesh outputMesh).map Prod.fst = none ∨
      (packTextures lf ac fuel inputMesh outputMesh).map Prod.fst = some outputMesh) ∧
    (createLeaves loadExample (meshOf ["s"])).materialTiles = [("s", 0)] ∧
    (meshOf ["s"]).texcoord.get? 1 = some ⟨1, 0⟩ ∧
    (∀ (ac : AddChildren) (fuel : Nat),
      bakeMesh loadExample ac fuel (meshOf ["s"]) = none ∨
      bakeMesh loadExample ac fuel (meshOf ["s"]) = some Mesh.init) ∧
    Mesh.init.texcoord.get? 1 = none := by
  have hgen : ∀ (lf : String → LeafImage) (ac : AddChildren) (fuel : Nat)
      (inputMesh outputMesh : Mesh),
      (packTextures lf ac fuel inputMesh outputMesh).map Prod.fst = none ∨
      (packTextures lf ac fuel inputMesh outputMesh).map Prod.fst = some outputMesh := by
    intro lf ac fuel inputMesh outputMesh
    unfold packTextures
    cases mergeLoop ac fuel (createLeaves lf inputMesh) with
    | none => exact Or.inl rfl
    | some r => exact Or.inr rfl
  refine ⟨hgen, by decide, by decide, ?_, by decide⟩
  intro ac fuel
  exact hgen loadExample ac fuel (meshOf ["s"]) Mesh.init

/-! ## Lemmas on the face parser -/

theorem wrapInt_of_fits (x : Int) (h0 : 0 ≤ x) (h1 : x < 2147483648) : wrapInt x = x := by
  unfold wrapInt
  omega

theorem charToInt_of_isDecimal (c : Char) (h : isDecimal c = true) :
    0 ≤ charToInt c ∧ charToInt c ≤ 9 := by
  unfold isDecimal at h
  unfold charToInt
  simp only [Bool.and_eq_true, decide_eq_true_iff] at h
  omega

theorem isSlash_eq (c : Char) : isSlash c = decide (c = '/') := by
  unfold isSlash
  have h : c.toNat = 47 ↔ c = '/' := by
    constructor
    · intro h
      apply Char.ext
      apply UInt32.ext
      exact h
    · intro h; rw [h]; rfl
  by_cases hc : c = '/'
  · simp [hc]
  · simp [hc, h]

theorem parseSlash_eq (str : List Char) :
    parseSlash str = match slashTail str with
      | some r => (true, r)
      | none => (false, str) := by
  cases str with
  | nil => rfl
  | cons c r =>
    show (if isSlash c then (true, r) else (false, c :: r)) =
      match (if c = '/' then some r else none) with
      | some r => (true, r)
      | none => (false, c :: r)
    rw [isSlash_eq]
    by_cases hc : c = '/' <;> simp [hc]

/-- The value accumulated over decimal digits does not decrease. -/
theorem foldl_digits_ge (ds : List Char) (a : Int) (hds : ∀ c ∈ ds, isDecimal c = true)
    (ha : 0 ≤ a) : a ≤ ds.foldl (fun a c => a * 10 + charToInt c) a := by
  induction ds generalizing a with
  | nil => exact le_refl _
  | cons c r ih =>
    rw [List.foldl_cons]
    have hc := charToInt_of_isDecimal c (hds c (List.mem_cons_self c r))
    have h1 : 0 ≤ a * 10 + charToInt c := by omega
    have := ih (a * 10 + charToInt c) (fun x hx => hds x (List.mem_cons_of_mem c hx)) h1
    omega

theorem parseNumberLoop_eq (str : List Char) (a : Int) (ha : 0 ≤ a)
    (hfit : (digitsOf str).foldl (fun a c => a * 10 + charToInt c) a < 2147483648) :
    parseNumberLoop str a =
      ((digitsOf str).foldl (fun a c => a * 10 + charToInt c) a, afterDigits str) := by
  induction str generalizing a with
  | nil => rfl
  | cons c r ih =>
    unfold parseNumberLoop
    by_cases hc : isDecimal c = true
    · have hd : digitsOf (c :: r) = c :: digitsOf r := by simp [digitsOf, hc]
      have hr : afterDigits (c :: r) = afterDigits r := by simp [afterDigits, hc]
      rw [hd, List.foldl_cons] at hfit
      have hci := charToInt_of_isDecimal c hc
      have h0 : 0 ≤ a * 10 + charToInt c := by omega
      have hmono := foldl_digits_ge (digitsOf r) (a * 10 + charToInt c)
        (fun x hx => (List.mem_takeWhile_imp hx)) h0
      have hw : wrapInt (a * 10 + charToInt c) = a * 10 + charToInt c :=
        wrapInt_of_fits _ h0 (by omega)
      rw [if_pos hc, hw, ih _ h0 hfit, hd, hr, List.foldl_cons]
    · have hd : digitsOf (c :: r) = [] := by simp [digitsOf, hc]
      have hr : afterDigits (c :: r) = c :: r := by simp [afterDigits, hc]
      rw [if_neg hc, hd, hr]
      rfl

theorem parseNumber_eq (str : List Char) (hfit : decimalValue (digitsOf str) < 2147483648) :
    parseNumber str =
      if digitsOf str = [] then none
      else some (decimalValue (digitsOf str), afterDigits str) := by
  cases str with
  | nil => rfl
  | cons c r =>
    unfold parseNumber
    by_cases hc : isDecimal c = true
    · have hd : digitsOf (c :: r) ≠ [] := by simp [digitsOf, hc]
      rw [if_neg hd]
      simp only [hc, Bool.not_true, Bool.false_eq_true, if_false]
      rw [parseNumberLoop_eq (c :: r) 0 (le_refl 0) hfit]
      rfl
    · have hd : digitsOf (c :: r) = [] := by simp [digitsOf, hc]
      rw [if_pos hd]
      simp [hc]

theorem parseNumber_none (str : List Char) (h : digitsOf str = []) : parseNumber str = none := by
  cases str with
  | nil => rfl
  | cons c r =>
    unfold parseNumber
    by_cases hc : isDecimal c = true
    · simp [digitsOf, hc] at h
    · simp [hc]

theorem afterDigits_of_no_digits (str : List Char) (h : digitsOf str = []) :
    afterDigits str = str := by
  cases str with
  | nil => rfl
  | cons c r =>
    by_cases hc : isDecimal c = true
    · simp [digitsOf, hc] at h
    · simp [afterDigits, hc]

theorem parseSlashNumber_eq (str : List Char) (x : Int) (hfit : fitsAfterSlash str = true) :
    parseSlashNumber str x = numberAfterSlash str x := by
  unfold parseSlashNumber numberAfterSlash
  unfold fitsAfterSlash at hfit
  rw [parseSlash_eq]
  cases h : slashTail str with
  | none => simp
  | some r =>
    rw [h] at hfit
    have hr : decimalValue (digitsOf r) < 2147483648 := by simpa using hfit
    simp only [if_true]
    rw [parseNumber_eq r hr]
    by_cases hd : digitsOf r = []
    · simp [hd, afterDigits_of_no_digits r hd]
    · simp [hd]

theorem numberAfterSlash_snd (str : List Char) (x y : Int) :
    (numberAfterSlash str x).2 = (numberAfterSlash str y).2 := by
  unfold numberAfterSlash
  cases slashTail str <;> rfl

/-! ## The claims on the face parser -/

/-- Claim C19 as stated fails: the text `2147483648` starts with the decimal number
2147483648, and `parseVertex` yields the vertex number -2147483648, because the
accumulation in `parseNumber` is done in `int`. -/
theorem parseVertex_overflows :
    parseVertex "2147483648".toList =
      some ({ vertex := -2147483648, normal := -2147483648, texcoord := -2147483648 }, []) ∧
    decimalValue (digitsOf "2147483648".toList) = 2147483648 := by
  refine ⟨by decide, by decide⟩

/-- Claim C19, amended.  For every text whose leading vertex definition has numbers of at
most 2147483647, `parseVertex` yields what `describeVertex` says: vertex = v, texcoord = t
after `/t` and v otherwise, normal = n after a second slash and v otherwise, the cursor
behind what was read.  For every text that does not start with a decimal digit it fails
(and, returning `false`, has changed nothing). -/
theorem parseVertex_eq_describeVertex (str : List Char) :
    (numbersFit str = true → parseVertex str = describeVertex str) ∧
    (digitsOf str = [] → parseVertex str = none) := by
  constructor
  · intro hfit
    unfold numbersFit at hfit
    simp only [Bool.and_eq_true, decide_eq_true_iff] at hfit
    obtain ⟨⟨hv, ht⟩, hn⟩ := hfit
    unfold parseVertex describeVertex
    rw [parseNumber_eq str hv]
    by_cases hd : digitsOf str = []
    · simp [hd]
    · simp only [hd, if_false]
      rw [parseSlashNumber_eq _ _ ht]
      rw [numberAfterSlash_snd (afterDigits str) 0 (decimalValue (digitsOf str))] at hn
      rw [parseSlashNumber_eq _ _ hn]
  · intro hd
    unfold parseVertex
    rw [parseNumber_none str hd]

/-- Witness of `parseVertex_eq_describeVertex`: the forms `v/t/n`, `v//n`, `v/t` and `v`. -/
theorem parseVertex_eq_describeVertex_witness :
    numbersFit "12/7/9 x".toList = true ∧
    parseVertex "12/7/9 x".toList = describeVertex "12/7/9 x".toList ∧
    describeVertex "12/7/9 x".toList =
      some ({ vertex := 12, normal := 9, texcoord := 7 }, " x".toList) ∧
    describeVertex "12//9".toList = some ({ vertex := 12, normal := 9, texcoord := 12 }, []) ∧
    describeVertex "12/7".toList = some ({ vertex := 12, normal := 12, texcoord := 7 }, []) ∧
    describeVertex "12 3".toList =
      some ({ vertex := 12, normal := 12, texcoord := 12 }, " 3".toList) ∧
    digitsOf "x12".toList = [] ∧ parseVertex "x12".toList = none :=
  ⟨by decide, (parseVertex_eq_describeVertex "12/7/9 x".toList).1 (by decide), by decide,
    by decide, by decide, by decide, by decide,
    (parseVertex_eq_describeVertex "x12".toList).2 (by decide)⟩

/-! ## Lemmas on the written vertex indices -/

theorem digitChar_decimal (k : Nat) (h : k < 10) :
    isDecimal (Nat.digitChar k) = true ∧ charToInt (Nat.digitChar k) = (k : Int) := by
  interval_cases k <;> exact ⟨by decide, by decide⟩

theorem parseNumberLoop_stop (rest : List Char) (a : Int) (h : digitsOf rest = []) :
    parseNumberLoop rest a = (a, rest) := by
  cases rest with
  | nil => rfl
  | cons c r =>
    by_cases hc : isDecimal c = true
    · simp [digitsOf, hc] at h
    · unfold parseNumberLoop
      rw [if_neg hc]

/-- Reading the digits `Nat.toDigitsCore` puts in front of `ds` yields the number. -/
theorem parseNumberLoop_toDigitsCore (fuel n : Nat) (ds rest : List Char) (hf : n < fuel)
    (hn : n < 2147483648) :
    parseNumberLoop (Nat.toDigitsCore 10 fuel n ds ++ rest) 0 =
      parseNumberLoop (ds ++ rest) (n : Int) := by
  induction fuel generalizing n ds with
  | zero => omega
  | succ fuel ih =>
    have hd := digitChar_decimal (n % 10) (Nat.mod_lt n (by decide))
    unfold Nat.toDigitsCore
    by_cases h0 : n / 10 = 0
    · simp only [h0, if_true]
      have hn10 : n % 10 = n := by omega
      rw [List.cons_append]
      conv_lhs => unfold parseNumberLoop
      rw [if_pos hd.1, hd.2, hn10]
      have : wrapInt (0 * 10 + (n : Int)) = (n : Int) := by
        rw [wrapInt_of_fits] <;> omega
      rw [this]
    · simp only [h0, if_false]
      rw [ih (n / 10) _ (by omega) (by omega), List.cons_append]
      conv_lhs => unfold parseNumberLoop
      rw [if_pos hd.1, hd.2]
      have : wrapInt (((n / 10 : Nat) : Int) * 10 + ((n % 10 : Nat) : Int)) = (n : Int) := by
        rw [wrapInt_of_fits] <;> omega
      rw [this]

theorem toDigitsCore_head (fuel n : Nat) (ds : List Char) (hf : n < fuel) :
    ∃ c tl, Nat.toDigitsCore 10 fuel n ds = c :: tl ∧ isDecimal c = true := by
  induction fuel generalizing n ds with
  | zero => omega
  | succ fuel ih =>
    have hd := digitChar_decimal (n % 10) (Nat.mod_lt n (by decide))
    unfold Nat.toDigitsCore
    by_cases h0 : n / 10 = 0
    · simp only [h0, if_true]
      exact ⟨_, _, rfl, hd.1⟩
    · simp only [h0, if_false]
      exact ih (n / 10) _ (by omega)

/-- The decimal text of a number that fits an `int` is read back by `parseNumber`. -/
theorem parseNumber_intText (n : Nat) (rest : List Char) (hn : n < 2147483648)
    (hrest : digitsOf rest = []) :
    parseNumber (intText (n : Int) ++ rest) = some ((n : Int), rest) := by
  have ht : intText (n : Int) = Nat.toDigitsCore 10 (n + 1) n [] := rfl
  obtain ⟨c, tl, hc, hdec⟩ := toDigitsCore_head (n + 1) n [] (Nat.lt_succ_self n)
  have hl := parseNumberLoop_toDigitsCore (n + 1) n [] rest (Nat.lt_succ_self n) hn
  rw [ht]
  rw [hc] at hl ⊢
  rw [List.cons_append] at hl ⊢
  unfold parseNumber
  simp only [hdec, Bool.not_true, Bool.false_eq_true, if_false]
  rw [hl, List.nil_append, parseNumberLoop_stop rest _ hrest]

theorem digitsOf_slash (r : List Char) : digitsOf ('/' :: r) = [] := by
  simp [digitsOf, isDecimal]

theorem parseSlashNumber_number (n : Nat) (rest : List Char) (x : Int) (hn : n < 2147483648)
    (hrest : digitsOf rest = []) :
    parseSlashNumber ('/' :: (intText (n : Int) ++ rest)) x = ((n : Int), rest) := by
  unfold parseSlashNumber
  rw [parseSlash_eq]
  simp only [slashTail, if_true]
  rw [parseNumber_intText n rest hn hrest]

theorem parseSlashNumber_slash (r : List Char) (x : Int) :
    parseSlashNumber ('/' :: '/' :: r) x = (x, '/' :: r) := by
  unfold parseSlashNumber
  rw [parseSlash_eq]
  simp only [slashTail, if_true]
  rw [parseNumber_none _ (digitsOf_slash r)]

theorem parseSlashNumber_none (rest : List Char) (x : Int) (h : slashTail rest = none) :
    parseSlashNumber rest x = (x, rest) := by
  unfold parseSlashNumber
  rw [parseSlash_eq, h]
  simp

/-- A written vertex index (some flag set, index + 1 fits an `int`) is read back. -/
theorem parseVertex_writeVertexIndex (n : Nat) (hasNormals hasTexCoord : Bool)
    (rest : List Char) (hn : n + 1 < 2147483648) (hflag : (hasNormals || hasTexCoord) = true)
    (hd : digitsOf rest = []) (hs : slashTail rest = none) :
    parseVertex (writeVertexIndex (n : Int) hasNormals hasTexCoord ++ rest) =
      some ({ vertex := (n : Int) + 1, normal := (n : Int) + 1, texcoord := (n : Int) + 1 },
        rest) := by
  have hw : wrapInt ((n : Int) + 1) = ((n + 1 : Nat) : Int) := by
    rw [wrapInt_of_fits] <;> omega
  have hcast : ((n + 1 : Nat) : Int) = (n : Int) + 1 := by omega
  unfold writeVertexIndex
  simp only [hw]
  unfold parseVertex
  cases hasNormals <;> cases hasTexCoord
  · simp at hflag
  · simp only [Bool.false_and, Bool.false_eq_true, if_false, if_true, List.append_assoc,
      List.cons_append, List.nil_append]
    rw [parseNumber_intText (n + 1) _ hn (digitsOf_slash _)]
    simp only
    rw [parseSlashNumber_slash]
    simp only
    rw [parseSlashNumber_number (n + 1) rest _ hn hd, hcast]
  · simp only [Bool.and_false, Bool.false_eq_true, if_false, if_true, List.append_assoc,
      List.cons_append, List.nil_append]
    rw [parseNumber_intText (n + 1) _ hn (digitsOf_slash _)]
    simp only
    rw [parseSlashNumber_number (n + 1) rest _ hn hd]
    simp only
    rw [parseSlashNumber_none rest _ hs, hcast]
  · simp only [Bool.and_self, if_true, List.append_assoc, List.cons_append, List.nil_append]
    rw [parseNumber_intText (n + 1) _ hn (digitsOf_slash _)]
    simp only
    rw [parseSlashNumber_number (n + 1) _ _ hn (digitsOf_slash _)]
    simp only
    rw [parseSlashNumber_number (n + 1) rest _ hn hd, hcast]

theorem parseFaceLoop_step (room : Nat) (str str1 : List Char) (v : VertexDef)
    (indices : List Vector3i) (h : parseVertex str = some (v, str1)) :
    parseFaceLoop (room + 1) str indices =
      parseFaceLoop room (parseWhitespace str1).2
        (indices ++ [{ d0 := v.vertex, d1 := v.normal, d2 := v.texcoord }]) := by
  conv_lhs => unfold parseFaceLoop
  rw [h]

theorem parseFaceLoop_stop (room : Nat) (str : List Char) (indices : List Vector3i)
    (h : parseVertex str = none) :
    parseFaceLoop room str indices = { indices := indices, str := str } := by
  unfold parseFaceLoop
  rw [h]

theorem parseVertex_head (str : List Char) (x : VertexDef × List Char)
    (h : parseVertex str = some x) : ∃ c r, str = c :: r ∧ isDecimal c = true := by
  cases str with
  | nil => simp [parseVertex, parseNumber] at h
  | cons c r =>
    by_cases hc : isDecimal c = true
    · exact ⟨c, r, rfl, hc⟩
    · simp [parseVertex, parseNumber, hc] at h

theorem isWhitespace_of_isDecimal (c : Char) (h : isDecimal c = true) :
    isWhitespace c = false := by
  unfold isDecimal at h
  unfold isWhitespace
  simp only [Bool.and_eq_true, decide_eq_true_iff] at h
  have h1 : c.toNat ≠ 32 := by omega
  have h2 : c.toNat ≠ 9 := by omega
  simp [h1, h2]

/-- White space in front of a vertex definition is skipped up to the definition. -/
theorem parseWhitespace_space (str : List Char) (x : VertexDef × List Char)
    (h : parseVertex str = some x) : (parseWhitespace (' ' :: str)).2 = str := by
  obtain ⟨c, r, hs, hc⟩ := parseVertex_head str x h
  have hw := isWhitespace_of_isDecimal c hc
  rw [hs]
  have h1 : isWhitespace ' ' = true := by decide
  simp [parseWhitespace, skipWhitespace, h1, hw]

/-- A written face line (some flag set, indices that fit) is read back by `parseFace`. -/
theorem parseFace_writeFaceLine (a b c : Nat) (hasNormals hasTexCoord : Bool)
    (ha : a + 1 < 2147483648) (hb : b + 1 < 2147483648) (hc : c + 1 < 2147483648)
    (hflag : (hasNormals || hasTexCoord) = true) :
    parseFace ((writeFaceLine { d0 := a, d1 := b, d2 := c } hasNormals hasTexCoord).drop 1) 3 =
      { indices := [{ d0 := (a : Int) + 1, d1 := (a : Int) + 1, d2 := (a : Int) + 1 },
          { d0 := (b : Int) + 1, d1 := (b : Int) + 1, d2 := (b : Int) + 1 },
          { d0 := (c : Int) + 1, d1 := (c : Int) + 1, d2 := (c : Int) + 1 }]
        str := [] } := by
  have hsp : ∀ r : List Char, digitsOf (' ' :: r) = [] ∧ slashTail (' ' :: r) = none := by
    intro r
    exact ⟨by simp [digitsOf, isDecimal], by simp [slashTail]⟩
  have h3 := parseVertex_writeVertexIndex c hasNormals hasTexCoord [] hc hflag rfl rfl
  rw [List.append_nil] at h3
  have h2 := parseVertex_writeVertexIndex b hasNormals hasTexCoord
    (' ' :: writeVertexIndex (c : Int) hasNormals hasTexCoord) hb hflag (hsp _).1 (hsp _).2
  have h1 := parseVertex_writeVertexIndex a hasNormals hasTexCoord
    (' ' :: (writeVertexIndex (b : Int) hasNormals hasTexCoord ++
      ' ' :: writeVertexIndex (c : Int) hasNormals hasTexCoord)) ha hflag (hsp _).1 (hsp _).2
  have hline : (writeFaceLine { d0 := a, d1 := b, d2 := c } hasNormals hasTexCoord).drop 1 =
      ' ' :: (writeVertexIndex (a : Int) hasNormals hasTexCoord ++
        ' ' :: (writeVertexIndex (b : Int) hasNormals hasTexCoord ++
          ' ' :: writeVertexIndex (c : Int) hasNormals hasTexCoord)) := by
    simp [writeFaceLine]
  rw [hline]
  unfold parseFace
  rw [parseWhitespace_space _ _ h1, parseFaceLoop_step _ _ _ _ _ h1,
    parseWhitespace_space _ _ h2, parseFaceLoop_step _ _ _ _ _ h2,
    parseWhitespace_space _ _ h3, parseFaceLoop_step _ _ _ _ _ h3]
  have hw : (parseWhitespace ([] : List Char)).2 = [] := rfl
  rw [hw, parseFaceLoop_stop 0 [] _ rfl]
  rfl

/-- Claim C20, evaluated on the code.  With both flags false `writeVertexIndex` writes
nothing, for every index: the text is empty and `parseVertex` fails on it; the face line
`writeObj` writes is `f` followed by three blanks, from which `parseFace` reads no vertex.
With at least one flag set (and an index whose successor fits an `int`) the written text
is read back as vertex = normal = texcoord = index + 1 with nothing left over, and a written
face line is read back as its three 1-based indices. -/
theorem writeVertexIndex_without_flags_writes_nothing :
    (∀ index : Int, writeVertexIndex index false false = []) ∧
    parseVertex (writeVertexIndex 0 false false) = none ∧
    writeFaceLine { d0 := 0, d1 := 1, d2 := 2 } false false = ['f', ' ', ' ', ' '] ∧
    (parseFace ((writeFaceLine { d0 := 0, d1 := 1, d2 := 2 } false false).drop 1) 3).indices
      = [] ∧
    (∀ (n : Nat) (hasNormals hasTexCoord : Bool), n + 1 < 2147483648 →
      (hasNormals || hasTexCoord) = true →
      parseVertex (writeVertexIndex (n : Int) hasNormals hasTexCoord) =
        some ({ vertex := (n : Int) + 1, normal := (n : Int) + 1, texcoord := (n : Int) + 1 },
          [])) ∧
    (∀ (a b c : Nat) (hasNormals hasTexCoord : Bool), a + 1 < 2147483648 →
      b + 1 < 2147483648 → c + 1 < 2147483648 → (hasNormals || hasTexCoord) = true →
      parseFace ((writeFaceLine { d0 := a, d1 := b, d2 := c } hasNormals hasTexCoord).drop 1) 3
        = { indices := [{ d0 := (a : Int) + 1, d1 := (a : Int) + 1, d2 := (a : Int) + 1 },
              { d0 := (b : Int) + 1, d1 := (b : Int) + 1, d2 := (b : Int) + 1 },
              { d0 := (c : Int) + 1, d1 := (c : Int) + 1, d2 := (c : Int) + 1 }]
            str := [] }) := by
  refine ⟨?_, by decide, by decide, by decide, ?_, ?_⟩
  · intro index
    simp [writeVertexIndex]
  · intro n hasNormals hasTexCoord hn hflag
    have := parseVertex_writeVertexIndex n hasNormals hasTexCoord [] hn hflag rfl rfl
    rwa [List.append_nil] at this
  · intro a b c hasNormals hasTexCoord ha hb hc hflag
    exact parseFace_writeFaceLine a b c hasNormals hasTexCoord ha hb hc hflag

/-- Witness of `writeVertexIndex_without_flags_writes_nothing`: index 41 written with the
normal flag alone is the text `42/42`, read back as 42, 42, 42. -/
theorem writeVertexIndex_without_flags_writes_nothing_witness :
    (41 : Nat) + 1 < 2147483648 ∧ (true || false) = true ∧
    writeVertexIndex 41 true false = ['4', '2', '/', '4', '2'] ∧
    parseVertex (writeVertexIndex ((41 : Nat) : Int) true false) =
      some (⟨((41 : Nat) : Int) + 1, ((41 : Nat) : Int) + 1, ((41 : Nat) : Int) + 1⟩, []) :=
  ⟨by decide, by decide, by decide,
    writeVertexIndex_without_flags_writes_nothing.2.2.2.2.1 41 true false (by decide)
      (by decide)⟩

/-! ## Lemmas on `CompareFaces` and the vertex map -/

theorem compareFaces_iff (a b : Vector3i) :
    CompareFaces a b = true ↔
      (a.d0 > b.d0 ∨ (a.d0 = b.d0 ∧ (a.d1 > b.d1 ∨ (a.d1 = b.d1 ∧ a.d2 > b.d2)))) := by
  unfold CompareFaces
  split_ifs <;> simp <;> omega

theorem vector3i_eq_iff (a b : Vector3i) : a = b ↔ a.d0 = b.d0 ∧ a.d1 = b.d1 ∧ a.d2 = b.d2 := by
  cases a; cases b; simp

/-- Two triples are equivalent under `CompareFaces` exactly when they are equal. -/
theorem compareFaces_equiv (a b : Vector3i) :
    (!CompareFaces a b && !CompareFaces b a) = true ↔ a = b := by
  rw [Bool.and_eq_true, Bool.not_eq_true', Bool.not_eq_true', ← Bool.not_eq_true,
    ← Bool.not_eq_true, compareFaces_iff, compareFaces_iff, vector3i_eq_iff]
  omega

theorem mapFind_cons (e : Vector3i × Int) (m : List (Vector3i × Int)) (key : Vector3i) :
    mapFind (e :: m) key = if e.1 = key then some e.2 else mapFind m key := by
  conv_lhs => unfold mapFind
  by_cases h : e.1 = key
  · rw [if_pos h, if_pos ((compareFaces_equiv e.1 key).mpr h)]
  · rw [if_neg h, if_neg (fun hc => h ((compareFaces_equiv e.1 key).mp hc))]

theorem mapFind_eq_none (m : List (Vector3i × Int)) (key : Vector3i) :
    mapFind m key = none ↔ key ∉ m.map Prod.fst := by
  induction m with
  | nil => simp [mapFind]
  | cons e r ih =>
    rw [mapFind_cons]
    by_cases h : e.1 = key
    · simp [h]
    · rw [if_neg h, ih]
      simp only [List.map_cons, List.mem_cons, not_or]
      exact ⟨fun hr => ⟨fun hk => h hk.symm, hr⟩, fun hr => hr.2⟩

theorem mapFind_mem (m : List (Vector3i × Int)) (key : Vector3i) (i : Int)
    (h : mapFind m key = some i) : (key, i) ∈ m := by
  induction m with
  | nil => simp [mapFind] at h
  | cons e r ih =>
    rw [mapFind_cons] at h
    by_cases hk : e.1 = key
    · rw [if_pos hk] at h
      have : e = (key, i) := by
        cases e
        simp only [Prod.mk.injEq]
        exact ⟨hk, Option.some.inj h⟩
      rw [this]
      exact List.mem_cons_self _ _
    · rw [if_neg hk] at h
      exact List.mem_cons_of_mem _ (ih h)

theorem mapFind_append_left (m n : List (Vector3i × Int)) (key : Vector3i) (i : Int)
    (h : mapFind m key = some i) : mapFind (m ++ n) key = some i := by
  induction m with
  | nil => simp [mapFind] at h
  | cons e r ih =>
    rw [List.cons_append, mapFind_cons]
    rw [mapFind_cons] at h
    by_cases hk : e.1 = key
    · rw [if_pos hk] at h ⊢
      exact h
    · rw [if_neg hk] at h ⊢
      exact ih h

theorem mapFind_append_new (m : List (Vector3i × Int)) (key : Vector3i) (i : Int)
    (h : mapFind m key = none) : mapFind (m ++ [(key, i)]) key = some i := by
  induction m with
  | nil =>
    rw [List.nil_append, mapFind_cons]
    simp
  | cons e r ih =>
    rw [List.cons_append, mapFind_cons]
    rw [mapFind_cons] at h
    by_cases hk : e.1 = key
    · rw [if_pos hk] at h
      exact absurd h (by simp)
    · rw [if_neg hk] at h ⊢
      exact ih h


/-! ## Lemmas on the loop body of `loadObj` for one face corner -/

theorem pushChecked_ok {α : Type} (flag : Bool) (v : List α) (number : Int) (dst r : List α)
    (what step : String) (h : pushChecked flag v number dst what step = .ok r) :
    (flag = true ∧ ∃ x, named v number = some x ∧ r = dst ++ [x]) ∨
    (flag = false ∧ r = dst) := by
  unfold pushChecked at h
  cases flag with
  | false =>
    right
    simp only [Bool.false_eq_true, if_false] at h
    exact ⟨rfl, (Except.ok.inj h).symm⟩
  | true =>
    left
    simp only [if_true] at h
    split at h
    · rename_i hlt
      split at h
      · exact absurd h (by simp)
      · rename_i x hx
        refine ⟨rfl, x, ?_, (Except.ok.inj h).symm⟩
        unfold named
        unfold vectorAt at hx
        split at hx
        · exact absurd hx (by simp)
        · rename_i hnn
          rw [if_pos (by omega)]
          exact hx
    · exact absurd h (by simp)

/-- A triple that is not yet in the map and whose vertex number is beyond the positions
read so far is refused. -/
theorem pushChecked_beyond {α : Type} (v : List α) (number : Int) (dst : List α)
    (what step : String) (h : (v.length : Int) < number) :
    pushChecked true v number dst what step = .error (.runtime_error what) := by
  unfold pushChecked
  simp only [if_true]
  rw [if_neg (by omega)]

theorem pushChecked_named {α : Type} (v : List α) (number : Int) (dst : List α) (x : α)
    (what step : String) (h : named v number = some x) :
    pushChecked true v number dst what step = .ok (dst ++ [x]) := by
  unfold named at h
  split at h
  · rename_i h1
    have hlt : (number - 1).toNat < v.length := by
      by_contra hc
      rw [List.get?_eq_none.mpr (by omega)] at h
      exact absurd h (by simp)
    unfold pushChecked vectorAt
    simp only [if_true]
    rw [if_pos (by omega), if_neg (by omega), h]
  · exact absurd h (by simp)

theorem mapVertex_found (st : ObjLoader) (key : Vector3i) (i : Int)
    (h : mapFind st.uniqueVertexMap key = some i) : mapVertex st key = .ok (i, st) := by
  unfold mapVertex
  rw [h]

/-- The new state after a triple that was not in the map. -/
theorem mapVertex_new (st st1 : ObjLoader) (key : Vector3i) (i : Int)
    (hnew : mapFind st.uniqueVertexMap key = none) (h : mapVertex st key = .ok (i, st1)) :
    i = (st.result.vertices.length : Int) ∧
    ∃ rv rn rt,
      pushChecked true st.vertices key.d0 st.result.vertices
        "Unknown vertex specified" "vertices[vertexIndex]" = .ok rv ∧
      pushChecked st.hasNormals st.normals key.d1 st.result.normals
        "Unknown normal specified" "normals[normalIndex]" = .ok rn ∧
      pushChecked st.hasTextureCoordinates st.texcoord key.d2 st.result.texcoord
        "Unknown texture coordinate specified" "texcoord[texCoordIndex]" = .ok rt ∧
      st1 = { st with
        uniqueVertexMap := st.uniqueVertexMap ++ [(key, (st.uniqueVertexMap.length : Int))]
        result := { st.result with vertices := rv, normals := rn, texcoord := rt } } := by
  unfold mapVertex at h
  rw [hnew] at h
  simp only at h
  split at h
  · exact absurd h (by simp)
  · rename_i rv hrv
    split at h
    · exact absurd h (by simp)
    · rename_i rn hrn
      split at h
      · exact absurd h (by simp)
      · rename_i rt hrt
        have hh := Except.ok.inj h
        rw [Prod.mk.injEq] at hh
        exact ⟨hh.1.symm, rv, rn, rt, hrv, hrn, hrt, hh.2.symm⟩

theorem forall2_snoc {α β : Type} (R : α → β → Prop) (l1 : List α) (l2 : List β) (a : α) (b : β)
    (h : List.Forall₂ R l1 l2) (hab : R a b) : List.Forall₂ R (l1 ++ [a]) (l2 ++ [b]) :=
  List.rel_append h (List.Forall₂.cons hab List.Forall₂.nil)

/-- The stored entries of a list read with a flag: after a new triple, they still belong to
the last triples inserted. -/
theorem forall2_drop_push {α : Type} (R : Vector3i × Int → α → Prop)
    (m : List (Vector3i × Int)) (e : Vector3i × Int) (flag : Bool)
    (number : Int) (src dst r : List α) (what step : String)
    (hinv : List.Forall₂ R (m.drop (m.length - dst.length)) dst)
    (hflag : flag = false → dst = [])
    (hpush : pushChecked flag src number dst what step = .ok r)
    (hR : ∀ x, named src number = some x → R e x) :
    List.Forall₂ R ((m ++ [e]).drop ((m ++ [e]).length - r.length)) r ∧
      (flag = false → r = []) := by
  have hlen := hinv.length_eq
  rw [List.length_drop] at hlen
  rcases pushChecked_ok flag src number dst r what step hpush with ⟨hf, x, hx, hr⟩ | ⟨hf, hr⟩
  · constructor
    · rw [hr]
      have e1 : (m ++ [e]).length - (dst ++ [x]).length = m.length - dst.length := by
        simp
      rw [e1, List.drop_append_of_le_length (by omega)]
      exact forall2_snoc R _ _ e x hinv (hR x hx)
    · intro hff
      rw [hf] at hff
      exact absurd hff (by simp)
  · have hd := hflag hf
    rw [hr, hd]
    constructor
    · have e1 : (m ++ [e]).length - ([] : List α).length = (m ++ [e]).length := by simp
      rw [e1, List.drop_length]
      exact List.Forall₂.nil
    · intro _; rfl

/-- The loop body for one face corner keeps `LoaderInv`, with the corner added to the
corners seen; it yields the index the map gives to the corner; entries of the map stay. -/
theorem mapVertex_inv (st st1 : ObjLoader) (key : Vector3i) (i : Int)
    (corners : List Vector3i) (faces : List (List Vector3i))
    (hinv : LoaderInv st corners faces) (h : mapVertex st key = .ok (i, st1)) :
    LoaderInv st1 (corners ++ [key]) faces ∧
    mapFind st1.uniqueVertexMap key = some i ∧
    (∀ k j, mapFind st.uniqueVertexMap k = some j → mapFind st1.uniqueVertexMap k = some j) ∧
    st1.vertices = st.vertices ∧ st1.normals = st.normals ∧ st1.texcoord = st.texcoord ∧
    st1.hasNormals = st.hasNormals ∧
    st1.hasTextureCoordinates = st.hasTextureCoordinates ∧
    st1.result.components = st.result.components := by
  cases hfind : mapFind st.uniqueVertexMap key with
  | some j =>
    rw [mapVertex_found st key j hfind] at h
    have hh := Except.ok.inj h
    rw [Prod.mk.injEq] at hh
    obtain ⟨hj, hst⟩ := hh
    subst hst
    subst hj
    refine ⟨?_, hfind, fun k j0 hk => hk, rfl, rfl, rfl, rfl, rfl, rfl⟩
    have hmem : key ∈ st.uniqueVertexMap.map Prod.fst :=
      List.mem_map_of_mem Prod.fst (mapFind_mem _ _ _ hfind)
    exact { hinv with
      keys := by
        intro k
        rw [hinv.keys k, List.mem_append, List.mem_singleton]
        constructor
        · exact Or.inl
        · rintro (hk | hk)
          · exact hk
          · rw [hk]; exact (hinv.keys key).mp hmem }
  | none =>
    obtain ⟨hi, rv, rn, rt, hrv, hrn, hrt, hst⟩ := mapVertex_new st st1 key i hfind h
    subst hst
    have hlenv := hinv.vertices.length_eq
    have hnotmem : key ∉ st.uniqueVertexMap.map Prod.fst := (mapFind_eq_none _ _).mp hfind
    have hmono : ∀ k j, mapFind st.uniqueVertexMap k = some j →
        mapFind (st.uniqueVertexMap ++ [(key, (st.uniqueVertexMap.length : Int))]) k = some j :=
      fun k j hk => mapFind_append_left _ _ _ _ hk
    have hn := forall2_drop_push (fun e n => named st.normals e.1.d1 = some n)
      st.uniqueVertexMap (key, (st.uniqueVertexMap.length : Int)) st.hasNormals
      key.d1 st.normals st.result.normals rn _ _ hinv.normals hinv.normals_flag hrn
      (fun x hx => hx)
    have ht := forall2_drop_push (fun e t => named st.texcoord e.1.d2 = some t)
      st.uniqueVertexMap (key, (st.uniqueVertexMap.length : Int)) st.hasTextureCoordinates
      key.d2 st.texcoord st.result.texcoord rt _ _ hinv.texcoord
      hinv.texcoord_flag hrt (fun x hx => hx)
    rcases pushChecked_ok true st.vertices key.d0 st.result.vertices rv _ _ hrv with
      ⟨_, v, hv, hrveq⟩ | ⟨hf, _⟩
    · refine ⟨?_, ?_, hmono, rfl, rfl, rfl, rfl, rfl, rfl⟩
      · exact {
          values := by
            show (st.uniqueVertexMap ++ [(key, (st.uniqueVertexMap.length : Int))]).map Prod.snd
              = (List.range (st.uniqueVertexMap ++
                  [(key, (st.uniqueVertexMap.length : Int))]).length).map Int.ofNat
            rw [List.map_append, hinv.values, List.length_append, List.length_singleton,
              List.range_succ, List.map_append]
            rfl
          keys_nodup := by
            show ((st.uniqueVertexMap ++ [(key, (st.uniqueVertexMap.length : Int))]).map
              Prod.fst).Nodup
            rw [List.map_append, List.nodup_append]
            refine ⟨hinv.keys_nodup, by simp, ?_⟩
            intro a ha hb
            rw [List.map_cons, List.map_nil, List.mem_singleton] at hb
            have hb2 : a = key := hb
            rw [hb2] at ha
            exact hnotmem ha
          keys := by
            intro k
            show k ∈ (st.uniqueVertexMap ++ [(key, (st.uniqueVertexMap.length : Int))]).map
              Prod.fst ↔ _
            rw [List.map_append, List.mem_append, List.mem_append, hinv.keys k]
            simp
          vertices := by
            show List.Forall₂ (fun e v => named st.vertices e.1.d0 = some v)
              (st.uniqueVertexMap ++ [(key, (st.uniqueVertexMap.length : Int))]) rv
            rw [hrveq]
            exact forall2_snoc _ _ _ _ _ hinv.vertices hv
          normals := hn.1
          normals_flag := hn.2
          texcoord := ht.1
          texcoord_flag := ht.2
          faces := by
            show List.Forall₂ (faceOfCorners (st.uniqueVertexMap ++
              [(key, (st.uniqueVertexMap.length : Int))])) st.result.allFaces faces
            refine List.Forall₂.imp ?_ hinv.faces
            rintro f c ⟨k0, k1, k2, hc, h0, h1, h2⟩
            exact ⟨k0, k1, k2, hc, hmono _ _ h0, hmono _ _ h1, hmono _ _ h2⟩ }
      · show mapFind (st.uniqueVertexMap ++ [(key, (st.uniqueVertexMap.length : Int))]) key
          = some i
        rw [hi, ← hlenv]
        exact mapFind_append_new _ _ _ hfind
    · exact absurd hf (by simp)

theorem named_append {α : Type} (v w : List α) (number : Int) (x : α)
    (h : named v number = some x) : named (v ++ w) number = some x := by
  unfold named at h ⊢
  split at h
  · rename_i h1
    rw [if_pos h1]
    have hlt : (number - 1).toNat < v.length := by
      by_contra hc
      rw [List.get?_eq_none.mpr (by omega)] at h
      exact absurd h (by simp)
    rw [List.get?_eq_getElem?] at h ⊢
    rw [List.getElem?_append_left hlt]
    exact h
  · exact absurd h (by simp)

/-- `LoaderInv` is kept by a step that leaves the map and the stored data alone, only
appends to the lists read from the file, and does not clear a flag. -/
theorem LoaderInv.mono (st st1 : ObjLoader) (corners : List Vector3i)
    (faces : List (List Vector3i)) (hinv : LoaderInv st corners faces)
    (hm : st1.uniqueVertexMap = st.uniqueVertexMap)
    (hrv : st1.result.vertices = st.result.vertices)
    (hrn : st1.result.normals = st.result.normals)
    (hrt : st1.result.texcoord = st.result.texcoord)
    (hf : st1.result.allFaces = st.result.allFaces)
    (hv : ∃ x, st1.vertices = st.vertices ++ x)
    (hn : ∃ x, st1.normals = st.normals ++ x)
    (ht : ∃ x, st1.texcoord = st.texcoord ++ x)
    (hfn : st.hasNormals = true → st1.hasNormals = true)
    (hft : st.hasTextureCoordinates = true → st1.hasTextureCoordinates = true) :
    LoaderInv st1 corners faces := by
  obtain ⟨xv, hxv⟩ := hv
  obtain ⟨xn, hxn⟩ := hn
  obtain ⟨xt, hxt⟩ := ht
  exact {
    values := by rw [hm]; exact hinv.values
    keys_nodup := by rw [hm]; exact hinv.keys_nodup
    keys := by rw [hm]; exact hinv.keys
    vertices := by
      rw [hm, hrv, hxv]
      exact List.Forall₂.imp (fun e v h => named_append _ _ _ _ h) hinv.vertices
    normals := by
      rw [hm, hrn, hxn]
      exact List.Forall₂.imp (fun e v h => named_append _ _ _ _ h) hinv.normals
    normals_flag := by
      intro h
      rw [hrn]
      apply hinv.normals_flag
      cases hh : st.hasNormals with
      | false => rfl
      | true => rw [hfn hh] at h; exact absurd h (by simp)
    texcoord := by
      rw [hm, hrt, hxt]
      exact List.Forall₂.imp (fun e v h => named_append _ _ _ _ h) hinv.texcoord
    texcoord_flag := by
      intro h
      rw [hrt]
      apply hinv.texcoord_flag
      cases hh : st.hasTextureCoordinates with
      | false => rfl
      | true => rw [hft hh] at h; exact absurd h (by simp)
    faces := by rw [hm, hf]; exact hinv.faces }

/-- The loop over the corners of a face keeps `LoaderInv` and collects the indices that
the map gives to the corners. -/
theorem mapVertices_inv (keys : List Vector3i) (st st1 : ObjLoader) (acc mapped : List Int)
    (corners : List Vector3i) (faces : List (List Vector3i))
    (hinv : LoaderInv st corners faces) (h : mapVertices keys st acc = .ok (mapped, st1)) :
    LoaderInv st1 (corners ++ keys) faces ∧
    (∃ idx, mapped = acc ++ idx ∧
      List.Forall₂ (fun k i => mapFind st1.uniqueVertexMap k = some i) keys idx) ∧
    (∀ k j, mapFind st.uniqueVertexMap k = some j → mapFind st1.uniqueVertexMap k = some j) ∧
    st1.vertices = st.vertices ∧ st1.normals = st.normals ∧ st1.texcoord = st.texcoord ∧
    st1.hasNormals = st.hasNormals ∧
    st1.hasTextureCoordinates = st.hasTextureCoordinates ∧
    st1.result.components = st.result.components := by
  induction keys generalizing st acc corners with
  | nil =>
    unfold mapVertices at h
    have hh := Except.ok.inj h
    rw [Prod.mk.injEq] at hh
    obtain ⟨h1, h2⟩ := hh
    subst h2
    rw [List.append_nil]
    exact ⟨hinv, ⟨[], by rw [← h1, List.append_nil], List.Forall₂.nil⟩, fun _ _ hk => hk,
      rfl, rfl, rfl, rfl, rfl, rfl⟩
  | cons key rest ih =>
    unfold mapVertices at h
    split at h
    · exact absurd h (by simp)
    · rename_i i st2 hstep
      obtain ⟨hinv2, hfind, hmono, e1, e2, e3, e4, e5, e6⟩ :=
        mapVertex_inv st st2 key i corners faces hinv hstep
      obtain ⟨hinv3, ⟨idx, hidx, hall⟩, hmono2, f1, f2, f3, f4, f5, f6⟩ :=
        ih st2 (acc ++ [i]) (corners ++ [key]) hinv2 h
      refine ⟨?_, ⟨i :: idx, ?_, ?_⟩, fun k j hk => hmono2 k j (hmono k j hk),
        f1.trans e1, f2.trans e2, f3.trans e3, f4.trans e4, f5.trans e5, f6.trans e6⟩
      · rw [List.append_assoc] at hinv3
        exact hinv3
      · rw [hidx, List.append_assoc]
        rfl
      · exact List.Forall₂.cons (hmono2 key i hfind) hall

theorem allFaces_pushFace (components : List MeshComponent) (tri : Vector3i)
    (h : components ≠ []) :
    (components.flatMap (fun c => c.faces)) ++ [tri] =
      (pushFace components tri).flatMap (fun c => c.faces) := by
  unfold pushFace
  cases hl : components.getLast? with
  | none => exact absurd (List.getLast?_eq_none_iff.mp hl) h
  | some c =>
    have hsplit := List.dropLast_append_getLast? c hl
    simp only
    conv_lhs => rw [← hsplit]
    simp [List.flatMap_append]

/-- Storing a face of three mapped corners appends it to the faces of the mesh. -/
theorem storeFace_ok (st st1 : ObjLoader) (mapped : List Int)
    (h : storeFace st mapped = .ok st1) :
    ∃ i0 i1 i2, mapped = [i0, i1, i2] ∧
      st1.result.allFaces = st.result.allFaces ++ [{ d0 := i0, d1 := i1, d2 := i2 }] ∧
      st1.uniqueVertexMap = st.uniqueVertexMap ∧
      st1.result.vertices = st.result.vertices ∧ st1.result.normals = st.result.normals ∧
      st1.result.texcoord = st.result.texcoord ∧
      st1.vertices = st.vertices ∧ st1.normals = st.normals ∧ st1.texcoord = st.texcoord ∧
      st1.hasNormals = st.hasNormals ∧
      st1.hasTextureCoordinates = st.hasTextureCoordinates := by
  unfold storeFace at h
  split at h
  · rename_i i0 i1 i2
    have hh := Except.ok.inj h
    subst hh
    refine ⟨i0, i1, i2, rfl, ?_, rfl, rfl, rfl, rfl, rfl, rfl, rfl, rfl, rfl⟩
    unfold Mesh.allFaces
    simp only
    by_cases hc : st.result.components.length = 0
    · have hnil : st.result.components = [] := List.length_eq_zero.mp hc
      simp [hnil, pushFace, MeshComponent.init]
    · rw [if_neg hc]
      exact (allFaces_pushFace _ _ (fun hn => hc (by rw [hn]; rfl))).symm
  · exact absurd h (by simp)
  · exact absurd h (by simp)

theorem forall2_three {α β : Type} (R : α → β → Prop) (keys : List α) (i0 i1 i2 : β)
    (h : List.Forall₂ R keys [i0, i1, i2]) :
    ∃ k0 k1 k2, keys = [k0, k1, k2] ∧ R k0 i0 ∧ R k1 i1 ∧ R k2 i2 := by
  cases h with
  | cons h0 t0 =>
    cases t0 with
    | cons h1 t1 =>
      cases t1 with
      | cons h2 t2 =>
        cases t2
        exact ⟨_, _, _, rfl, h0, h1, h2⟩

/-- The branch for the command `f` keeps `LoaderInv`, with the corners and the face of the
line added. -/
theorem loadFace_inv (st st2 : ObjLoader) (stream : IStream) (corners : List Vector3i)
    (faces : List (List Vector3i)) (hinv : LoaderInv st corners faces)
    (h : loadFace st stream = .ok st2) :
    LoaderInv st2 (corners ++ (parseFace stream.buf 3).indices)
      (faces ++ [(parseFace stream.buf 3).indices]) ∧
    (parseFace stream.buf 3).indices.length = 3 ∧
    st2.vertices = st.vertices ∧ st2.normals = st.normals ∧ st2.texcoord = st.texcoord ∧
    st2.hasNormals = st.hasNormals ∧
    st2.hasTextureCoordinates = st.hasTextureCoordinates := by
  unfold loadFace at h
  split at h
  · exact absurd h (by simp)
  · simp only at h
    split at h
    · exact absurd h (by simp)
    · rename_i mapped st1 hmap
      obtain ⟨hinv1, ⟨idx, hidx, hall⟩, _, e1, e2, e3, e4, e5, e6⟩ :=
        mapVertices_inv _ st st1 [] mapped corners faces hinv hmap
      obtain ⟨i0, i1, i2, hm, hfaces, g1, g2, g3, g4, g5, g6, g7, g8, g9⟩ :=
        storeFace_ok st1 st2 mapped h
      rw [List.nil_append] at hidx
      rw [hidx] at hm
      rw [hm] at hall
      obtain ⟨k0, k1, k2, hkeys, h0, h1, h2⟩ := forall2_three _ _ _ _ _ hall
      have hf1 : st1.result.allFaces = st.result.allFaces := by
        unfold Mesh.allFaces
        rw [e6]
      refine ⟨?_, by rw [hkeys]; rfl, g5.trans e1, g6.trans e2, g7.trans e3, g8.trans e4,
        g9.trans e5⟩
      exact {
        values := by rw [g1]; exact hinv1.values
        keys_nodup := by rw [g1]; exact hinv1.keys_nodup
        keys := by rw [g1]; exact hinv1.keys
        vertices := by rw [g1, g2, g5]; exact hinv1.vertices
        normals := by rw [g1, g3, g6]; exact hinv1.normals
        normals_flag := by rw [g8, g3]; exact hinv1.normals_flag
        texcoord := by rw [g1, g4, g7]; exact hinv1.texcoord
        texcoord_flag := by rw [g9, g4]; exact hinv1.texcoord_flag
        faces := by
          rw [g1, hfaces]
          refine forall2_snoc _ _ _ _ _ hinv1.faces ?_
          exact ⟨k0, k1, k2, hkeys, h0, h1, h2⟩ }

theorem allFaces_append_empty (components : List MeshComponent) (name : String) :
    (components ++ [{ MeshComponent.init with componentName := name }]).flatMap
      (fun c => c.faces) = components.flatMap (fun c => c.faces) := by
  simp [List.flatMap_append, MeshComponent.init]

theorem allFaces_rename (components : List MeshComponent) (c : MeshComponent) (name : String)
    (h : components.getLast? = some c) :
    (components.dropLast ++ [{ c with materialName := name }]).flatMap (fun c => c.faces) =
      components.flatMap (fun c => c.faces) := by
  have hsplit := List.dropLast_append_getLast? c h
  conv_rhs => rw [← hsplit]
  simp [List.flatMap_append]

/-- A command other than `f` keeps `LoaderInv`. -/
theorem loadObjCommand_other (env : ParserEnv) (st st1 : ObjLoader) (type : String)
    (stream : IStream) (corners : List Vector3i) (faces : List (List Vector3i))
    (hinv : LoaderInv st corners faces) (hf : type ≠ "f")
    (h : loadObjCommand env st type stream = .ok st1) :
    LoaderInv st1 corners faces := by
  unfold loadObjCommand at h
  by_cases c1 : type = "mtllib"
  · rw [if_pos c1] at h
    simp only at h
    split at h
    · exact absurd h (by simp)
    · have hh := Except.ok.inj h
      subst hh
      exact LoaderInv.mono st _ corners faces hinv rfl rfl rfl rfl rfl ⟨[], by simp⟩
        ⟨[], by simp⟩ ⟨[], by simp⟩ (fun x => x) (fun x => x)
  rw [if_neg c1] at h
  by_cases c2 : type = "g"
  · rw [if_pos c2] at h
    have hh := Except.ok.inj h
    subst hh
    exact LoaderInv.mono st _ corners faces hinv rfl rfl rfl rfl
      (allFaces_append_empty _ _) ⟨[], by simp⟩ ⟨[], by simp⟩ ⟨[], by simp⟩
      (fun x => x) (fun x => x)
  rw [if_neg c2] at h
  by_cases c3 : type = "usemtl"
  · rw [if_pos c3] at h
    split at h
    · exact absurd h (by simp)
    · rename_i c hc
      have hh := Except.ok.inj h
      subst hh
      exact LoaderInv.mono st _ corners faces hinv rfl rfl rfl rfl
        (allFaces_rename _ c _ hc) ⟨[], by simp⟩ ⟨[], by simp⟩ ⟨[], by simp⟩
        (fun x => x) (fun x => x)
  rw [if_neg c3] at h
  by_cases c4 : type = "s"
  · rw [if_pos c4] at h
    have hh := Except.ok.inj h
    subst hh
    exact hinv
  rw [if_neg c4] at h
  by_cases c5 : type = "o"
  · rw [if_pos c5] at h
    have hh := Except.ok.inj h
    subst hh
    exact hinv
  rw [if_neg c5] at h
  by_cases c6 : type = "v"
  · rw [if_pos c6] at h
    have hh := Except.ok.inj h
    subst hh
    exact LoaderInv.mono st _ corners faces hinv rfl rfl rfl rfl rfl ⟨_, rfl⟩
      ⟨[], by simp⟩ ⟨[], by simp⟩ (fun x => x) (fun x => x)
  rw [if_neg c6] at h
  by_cases c7 : type = "vn"
  · rw [if_pos c7] at h
    have hh := Except.ok.inj h
    subst hh
    exact LoaderInv.mono st _ corners faces hinv rfl rfl rfl rfl rfl
      ⟨[], by simp⟩ ⟨_, rfl⟩ ⟨[], by simp⟩ (fun _ => rfl) (fun x => x)
  rw [if_neg c7] at h
  by_cases c8 : type = "vt"
  · rw [if_pos c8] at h
    have hh := Except.ok.inj h
    subst hh
    exact LoaderInv.mono st _ corners faces hinv rfl rfl rfl rfl rfl
      ⟨[], by simp⟩ ⟨[], by simp⟩ ⟨_, rfl⟩ (fun x => x) (fun _ => rfl)
  rw [if_neg c8, if_neg hf] at h
  by_cases c9 : st.unsupportedTypeWarningsLeft > 0
  · rw [if_pos c9] at h
    have hh := Except.ok.inj h
    subst hh
    exact LoaderInv.mono st _ corners faces hinv rfl rfl rfl rfl rfl
      ⟨[], by simp⟩ ⟨[], by simp⟩ ⟨[], by simp⟩ (fun x => x) (fun x => x)
  · rw [if_neg c9] at h
    have hh := Except.ok.inj h
    subst hh
    exact hinv

theorem loadObjCommand_face (env : ParserEnv) (st : ObjLoader) (stream : IStream) :
    loadObjCommand env st "f" stream = loadFace st stream := by
  unfold loadObjCommand
  simp

theorem LoaderInv.init : LoaderInv ObjLoader.init [] [] := by
  exact {
    values := rfl
    keys_nodup := List.nodup_nil
    keys := by intro k; simp [ObjLoader.init]
    vertices := List.Forall₂.nil
    normals := List.Forall₂.nil
    normals_flag := fun _ => rfl
    texcoord := List.Forall₂.nil
    texcoord_flag := fun _ => rfl
    faces := List.Forall₂.nil }

/-- One line keeps `LoaderInv`, with the corners and the face of the line added. -/
theorem loadObjLine_inv (env : ParserEnv) (st st1 : ObjLoader) (line : String)
    (corners : List Vector3i) (faces : List (List Vector3i))
    (hinv : LoaderInv st corners faces) (h : loadObjLine env st line = .ok st1) :
    LoaderInv st1 (corners ++ lineCorners line)
      (faces ++ (if isFaceLine line = true then [lineCorners line] else [])) ∧
    (isFaceLine line = true → (lineCorners line).length = 3) := by
  have hinv0 : LoaderInv { st with linecount := st.linecount + 1 } corners faces :=
    LoaderInv.mono st _ corners faces hinv rfl rfl rfl rfl rfl ⟨[], by simp⟩ ⟨[], by simp⟩
      ⟨[], by simp⟩ (fun x => x) (fun x => x)
  unfold loadObjLine at h
  simp only at h
  by_cases hskip : isSkippedLine line = true
  · rw [if_pos hskip] at h
    have hh := Except.ok.inj h
    subst hh
    have hnf : isFaceLine line = false := by simp [isFaceLine, hskip]
    simp only [lineCorners, hnf, Bool.false_eq_true, if_false, List.append_nil]
    exact ⟨hinv0, fun hc => absurd hc (by simp)⟩
  · rw [if_neg hskip] at h
    by_cases hf : (readCommand line).1 = "f"
    · have hface : isFaceLine line = true := by simp [isFaceLine, hskip, hf]
      rw [hf, loadObjCommand_face] at h
      obtain ⟨hinv1, hlen, _⟩ := loadFace_inv _ st1 _ corners faces hinv0 h
      simp only [lineCorners, hface, if_true]
      exact ⟨hinv1, fun _ => hlen⟩
    · have hnf : isFaceLine line = false := by simp [isFaceLine, hf]
      simp only [lineCorners, hnf, Bool.false_eq_true, if_false, List.append_nil]
      exact ⟨loadObjCommand_other env _ st1 _ _ corners faces hinv0 hf h,
        fun hc => absurd hc (by simp)⟩

theorem fileFaces_cons (line : String) (rest : List String) :
    fileFaces (line :: rest) =
      (if isFaceLine line = true then [lineCorners line] else []) ++ fileFaces rest := by
  unfold fileFaces
  by_cases h : isFaceLine line = true
  · simp [List.filter_cons, h]
  · simp [List.filter_cons, h]

/-- The loop over the lines keeps `LoaderInv`, with the corners and faces of the lines
added; every face line has three corners. -/
theorem loadObjLines_inv (env : ParserEnv) (lines : List String) (st st1 : ObjLoader)
    (corners : List Vector3i) (faces : List (List Vector3i))
    (hinv : LoaderInv st corners faces) (h : loadObjLines env lines st = .ok st1) :
    LoaderInv st1 (corners ++ fileCorners lines) (faces ++ fileFaces lines) ∧
    ∀ c ∈ fileFaces lines, c.length = 3 := by
  induction lines generalizing st corners faces with
  | nil =>
    unfold loadObjLines at h
    have hh := Except.ok.inj h
    subst hh
    simp only [fileCorners, fileFaces, List.flatMap_nil, List.filter_nil, List.map_nil,
      List.append_nil]
    exact ⟨hinv, fun c hc => absurd hc (List.not_mem_nil c)⟩
  | cons line rest ih =>
    unfold loadObjLines at h
    split at h
    · exact absurd h (by simp)
    · rename_i st2 hline
      obtain ⟨hinv2, hlen2⟩ := loadObjLine_inv env st st2 line corners faces hinv hline
      obtain ⟨hinv3, hlen3⟩ := ih st2 _ _ hinv2 h
      rw [fileFaces_cons]
      constructor
      · have e1 : corners ++ fileCorners (line :: rest) =
            corners ++ lineCorners line ++ fileCorners rest := by
          simp [fileCorners, List.flatMap_cons]
        rw [e1, ← List.append_assoc]
        exact hinv3
      · intro c hc
        rcases List.mem_append.mp hc with h1 | h1
        · by_cases hface : isFaceLine line = true
          · rw [if_pos hface, List.mem_singleton] at h1
            rw [h1]
            exact hlen2 hface
          · rw [if_neg hface] at h1
            exact absurd h1 (List.not_mem_nil c)
        · exact hlen3 c h1

/-- What `loadObjFinish` returns when it returns. -/
theorem loadObjFinish_ok (st : ObjLoader) (mesh : Mesh) (h : loadObjFinish st = .ok mesh) :
    st.hasNormals = true ∧
    mesh.vertices = st.result.vertices ∧ mesh.normals = st.result.normals ∧
    mesh.components = st.result.components ∧ mesh.materials = st.result.materials ∧
    mesh.texcoord = (if st.result.texcoord.length = 0 then
        List.replicate st.result.vertices.length ({ d0 := 0, d1 := 0 } : Vector2f)
      else st.result.texcoord) ∧
    mesh.normals.length = mesh.vertices.length ∧
    mesh.texcoord.length = mesh.vertices.length := by
  by_cases hn : st.hasNormals = true
  · by_cases h1 : st.result.normals.length = st.result.vertices.length
    · by_cases ht0 : st.result.texcoord.length = 0
      · have hh : mesh = { st.result with
            texcoord := List.replicate st.result.vertices.length ⟨0, 0⟩ } := by
          simp [loadObjFinish, hn, h1, ht0] at h
          exact h.symm
        subst hh
        refine ⟨hn, rfl, rfl, rfl, rfl, by simp [ht0], h1, by simp⟩
      · by_cases h2 : st.result.texcoord.length = st.result.vertices.length
        · have hh : mesh = st.result := by
            simp [loadObjFinish, hn, h1, ht0] at h
            rw [if_pos h2] at h
            exact (Except.ok.inj h).symm
          subst hh
          refine ⟨hn, rfl, rfl, rfl, rfl, by simp [ht0], h1, h2⟩
        · simp [loadObjFinish, hn, h1, ht0] at h
          rw [if_neg h2] at h
          exact absurd h (by simp)
    · simp [loadObjFinish, hn, h1] at h
  · simp [loadObjFinish, hn] at h

/-- A command other than `vt` leaves the flag `hasTextureCoordinates` as it is. -/
theorem loadObjCommand_flag (env : ParserEnv) (st st1 : ObjLoader) (type : String)
    (stream : IStream) (corners : List Vector3i) (faces : List (List Vector3i))
    (hinv : LoaderInv st corners faces) (hvt : type ≠ "vt")
    (h : loadObjCommand env st type stream = .ok st1) :
    st1.hasTextureCoordinates = st.hasTextureCoordinates := by
  by_cases hf : type = "f"
  · rw [hf, loadObjCommand_face] at h
    exact (loadFace_inv st st1 stream corners faces hinv h).2.2.2.2.2.2
  unfold loadObjCommand at h
  by_cases c1 : type = "mtllib"
  · rw [if_pos c1] at h
    simp only at h
    split at h
    · exact absurd h (by simp)
    · have hh := Except.ok.inj h
      subst hh
      rfl
  rw [if_neg c1] at h
  by_cases c2 : type = "g"
  · rw [if_pos c2] at h
    have hh := Except.ok.inj h
    subst hh
    rfl
  rw [if_neg c2] at h
  by_cases c3 : type = "usemtl"
  · rw [if_pos c3] at h
    split at h
    · exact absurd h (by simp)
    · have hh := Except.ok.inj h
      subst hh
      rfl
  rw [if_neg c3] at h
  by_cases c4 : type = "s"
  · rw [if_pos c4] at h
    have hh := Except.ok.inj h
    subst hh
    rfl
  rw [if_neg c4] at h
  by_cases c5 : type = "o"
  · rw [if_pos c5] at h
    have hh := Except.ok.inj h
    subst hh
    rfl
  rw [if_neg c5] at h
  by_cases c6 : type = "v"
  · rw [if_pos c6] at h
    have hh := Except.ok.inj h
    subst hh
    rfl
  rw [if_neg c6] at h
  by_cases c7 : type = "vn"
  · rw [if_pos c7] at h
    have hh := Except.ok.inj h
    subst hh
    rfl
  rw [if_neg c7, if_neg hvt, if_neg hf] at h
  by_cases c9 : st.unsupportedTypeWarningsLeft > 0
  · rw [if_pos c9] at h
    have hh := Except.ok.inj h
    subst hh
    rfl
  · rw [if_neg c9] at h
    have hh := Except.ok.inj h
    subst hh
    rfl

/-- Over lines none of which is a `vt` line the flag `hasTextureCoordinates` stays. -/
theorem loadObjLines_flag (env : ParserEnv) (lines : List String) (st st1 : ObjLoader)
    (corners : List Vector3i) (faces : List (List Vector3i))
    (hinv : LoaderInv st corners faces)
    (hno : ∀ line ∈ lines, isTexcoordLine line = false)
    (h : loadObjLines env lines st = .ok st1) :
    st1.hasTextureCoordinates = st.hasTextureCoordinates := by
  induction lines generalizing st corners faces with
  | nil =>
    unfold loadObjLines at h
    have hh := Except.ok.inj h
    subst hh
    rfl
  | cons line rest ih =>
    unfold loadObjLines at h
    split at h
    · exact absurd h (by simp)
    · rename_i st2 hline
      obtain ⟨hinv2, _⟩ := loadObjLine_inv env st st2 line corners faces hinv hline
      have hrest := ih st2 _ _ hinv2 (fun l hl => hno l (List.mem_cons_of_mem _ hl)) h
      rw [hrest]
      have hl := hno line (List.mem_cons_self _ _)
      unfold loadObjLine at hline
      simp only at hline
      by_cases hskip : isSkippedLine line = true
      · rw [if_pos hskip] at hline
        have hh := Except.ok.inj hline
        subst hh
        rfl
      · rw [if_neg hskip] at hline
        have hvt : (readCommand line).1 ≠ "vt" := by
          intro hc
          simp [isTexcoordLine, hskip, hc] at hl
        have hinv0 : LoaderInv { st with linecount := st.linecount + 1 } corners faces :=
          LoaderInv.mono st _ corners faces hinv rfl rfl rfl rfl rfl ⟨[], by simp⟩
            ⟨[], by simp⟩ ⟨[], by simp⟩ (fun x => x) (fun x => x)
        exact loadObjCommand_flag env { st with linecount := st.linecount + 1 } st2 _ _
          corners faces hinv0 hvt hline

/-- The run of `loadObj` behind a returned mesh. -/
theorem loadObj_ok (env : ParserEnv) (filename : String) (mesh : Mesh)
    (h : loadObj env filename = .ok mesh) :
    ∃ lines st, env.readLines filename = some lines ∧
      loadObjLines env lines ObjLoader.init = .ok st ∧ loadObjFinish st = .ok mesh := by
  unfold loadObj at h
  split at h
  · exact absurd h (by simp)
  · rename_i lines hl
    split at h
    · exact absurd h (by simp)
    · rename_i st hst
      exact ⟨lines, st, hl, hst, h⟩

/-! ## The claims on `loadObj` -/

/-- Claim C14.  Whenever `loadObj` returns a mesh, the mesh has as many normals and as many
texture coordinates as vertices; and if no line of the file is a `vt` line, every texture
coordinate of the mesh is (0, 0). -/
theorem loadObj_sizes (env : ParserEnv) (filename : String) (mesh : Mesh)
    (h : loadObj env filename = .ok mesh) :
    mesh.normals.length = mesh.vertices.length ∧
    mesh.texcoord.length = mesh.vertices.length ∧
    ((∀ lines, env.readLines filename = some lines →
        ∀ line ∈ lines, isTexcoordLine line = false) →
      ∀ t ∈ mesh.texcoord, t = ({ d0 := 0, d1 := 0 } : Vector2f)) := by
  obtain ⟨lines, st, hl, hst, hfin⟩ := loadObj_ok env filename mesh h
  obtain ⟨_, _, _, _, _, htex, hn, ht⟩ := loadObjFinish_ok st mesh hfin
  refine ⟨hn, ht, ?_⟩
  intro hno t hmem
  have hflag := loadObjLines_flag env lines ObjLoader.init st [] [] LoaderInv.init
    (hno lines hl) hst
  have hinv := (loadObjLines_inv env lines ObjLoader.init st [] [] LoaderInv.init hst).1
  have hempty : st.result.texcoord = [] := hinv.texcoord_flag (by rw [hflag]; rfl)
  rw [htex, hempty] at hmem
  simp only [List.length_nil, if_true] at hmem
  exact (List.mem_replicate.mp hmem).2

/-- Witness of `loadObj_sizes`: the file `quad.obj` has no `vt` line; its mesh has three
vertices, three normals and three texture coordinates (0, 0). -/
theorem loadObj_sizes_witness :
    loadObj exampleEnv "quad.obj" = .ok (loadedMesh (loadObj exampleEnv "quad.obj")) ∧
    (loadedMesh (loadObj exampleEnv "quad.obj")).vertices.length = 3 ∧
    (loadedMesh (loadObj exampleEnv "quad.obj")).normals.length =
      (loadedMesh (loadObj exampleEnv "quad.obj")).vertices.length ∧
    (loadedMesh (loadObj exampleEnv "quad.obj")).texcoord = [⟨0, 0⟩, ⟨0, 0⟩, ⟨0, 0⟩] :=
  ⟨by rfl, by decide, (loadObj_sizes exampleEnv "quad.obj" _ (by rfl)).1, by decide⟩

theorem forall2_get? {α β : Type} (R : α → β → Prop) (l1 : List α) (l2 : List β)
    (h : List.Forall₂ R l1 l2) (j : Nat) (a : α) (ha : l1.get? j = some a) :
    ∃ b, l2.get? j = some b ∧ R a b := by
  induction h generalizing j with
  | nil => simp at ha
  | cons hab _ ih =>
    cases j with
    | zero =>
      simp only [List.get?_cons_zero, Option.some.injEq] at ha
      subst ha
      exact ⟨_, rfl, hab⟩
    | succ j =>
      simp only [List.get?_cons_succ] at ha
      exact ih j ha

theorem forall2_mem_left {α β : Type} (R : α → β → Prop) (l1 : List α) (l2 : List β)
    (h : List.Forall₂ R l1 l2) (a : α) (ha : a ∈ l1) : ∃ b, b ∈ l2 ∧ R a b := by
  induction h with
  | nil => exact absurd ha (List.not_mem_nil a)
  | cons hab _ ih =>
    rcases List.mem_cons.mp ha with h1 | h1
    · subst h1
      exact ⟨_, List.mem_cons_self _ _, hab⟩
    · obtain ⟨b, hb, hr⟩ := ih h1
      exact ⟨b, List.mem_cons_of_mem _ hb, hr⟩

/-- The value the map gives to a triple is the position of its entry. -/
theorem LoaderInv.index (st : ObjLoader) (corners : List Vector3i)
    (faces : List (List Vector3i)) (hinv : LoaderInv st corners faces) (key : Vector3i)
    (i : Int) (h : mapFind st.uniqueVertexMap key = some i) :
    ∃ j : Nat, i = (j : Int) ∧ st.uniqueVertexMap.get? j = some (key, i) := by
  obtain ⟨j, hj⟩ := List.mem_iff_get?.mp (mapFind_mem _ _ _ h)
  refine ⟨j, ?_, hj⟩
  have hlt : j < st.uniqueVertexMap.length := by
    by_contra hc
    rw [List.get?_eq_none.mpr (by omega)] at hj
    exact absurd hj (by simp)
  have h1 : (st.uniqueVertexMap.map Prod.snd)[j]? = some i := by
    rw [List.getElem?_map, ← List.get?_eq_getElem?, hj]
    rfl
  rw [hinv.values, List.getElem?_map, List.getElem?_range hlt] at h1
  exact (Option.some.inj h1).symm

/-- After a run that returned, the data stored at the index of a triple are the ones the
triple names (for the texture coordinates: when any were collected, else (0, 0)). -/
theorem LoaderInv.data (st : ObjLoader) (mesh : Mesh) (corners : List Vector3i)
    (faces : List (List Vector3i)) (hinv : LoaderInv st corners faces)
    (hfin : loadObjFinish st = .ok mesh) (key : Vector3i) (i : Int)
    (h : mapFind st.uniqueVertexMap key = some i) :
    0 ≤ i ∧ i < mesh.vertices.length ∧
    (∃ v, mesh.vertices.get? i.toNat = some v ∧ named st.vertices key.d0 = some v) ∧
    (∃ n, mesh.normals.get? i.toNat = some n ∧ named st.normals key.d1 = some n) ∧
    (st.result.texcoord ≠ [] →
      ∃ t, mesh.texcoord.get? i.toNat = some t ∧ named st.texcoord key.d2 = some t) ∧
    (st.result.texcoord = [] → mesh.texcoord.get? i.toNat = some { d0 := 0, d1 := 0 }) := by
  obtain ⟨_, hv, hn, _, _, htex, hnl, htl⟩ := loadObjFinish_ok st mesh hfin
  obtain ⟨j, hij, hj⟩ := hinv.index st corners faces key i h
  have hlenv := hinv.vertices.length_eq
  have hjlt : j < st.uniqueVertexMap.length := by
    by_contra hc
    rw [List.get?_eq_none.mpr (by omega)] at hj
    exact absurd hj (by simp)
  have hnlen : st.result.normals.length = st.uniqueVertexMap.length := by
    rw [← hn, hnl, hv, hlenv]
  have hitn : i.toNat = j := by rw [hij]; rfl
  rw [hitn]
  refine ⟨by omega, by rw [hv, ← hlenv]; omega, ?_, ?_, ?_, ?_⟩
  · obtain ⟨v, hv1, hv2⟩ := forall2_get? _ _ _ hinv.vertices j _ hj
    exact ⟨v, by rw [hv]; exact hv1, hv2⟩
  · have hnorm := hinv.normals
    rw [hnlen, Nat.sub_self, List.drop_zero] at hnorm
    obtain ⟨n, hn1, hn2⟩ := forall2_get? _ _ _ hnorm j _ hj
    exact ⟨n, by rw [hn]; exact hn1, hn2⟩
  · intro hne
    have hne2 : ¬ st.result.texcoord.length = 0 := fun hc => hne (List.length_eq_zero.mp hc)
    rw [if_neg hne2] at htex
    have htlen : st.result.texcoord.length = st.uniqueVertexMap.length := by
      rw [← htex, htl, hv, hlenv]
    have htc := hinv.texcoord
    rw [htlen, Nat.sub_self, List.drop_zero] at htc
    obtain ⟨t, ht1, ht2⟩ := forall2_get? _ _ _ htc j _ hj
    exact ⟨t, by rw [htex]; exact ht1, ht2⟩
  · intro he
    rw [htex, he]
    simp only [List.length_nil, if_true]
    rw [List.get?_eq_getElem?, List.getElem?_replicate]
    rw [if_pos (by rw [← hlenv]; exact hjlt)]

/-- Claim C15 as stated fails for the texture coordinates.  In `late.obj` the face line
comes before the `vt` line: its corners name the texcoord number 1, which the file defines
as (5, 6); the load succeeds and stores (0, 0) for every vertex.  And in `zero.obj` a
corner gives the vertex number 0, which names no vertex of the file: the run evaluates
`vertices[-1]`, it does not throw, and what it stores for that corner is not defined. -/
theorem late_texcoord_is_not_stored :
    (loadObj exampleEnv "late.obj").toOption.map (fun m => (m.texcoord, m.components)) =
      some ([⟨0, 0⟩, ⟨0, 0⟩], [⟨"[default]", "", [⟨0, 1, 0⟩]⟩]) ∧
    fileCorners lateTexcoordFile = [⟨1, 1, 1⟩, ⟨2, 1, 1⟩, ⟨1, 1, 1⟩] ∧
    named (fileTexcoords exampleEnv lateTexcoordFile) 1 = some ⟨5, 6⟩ ∧
    fileCorners zeroIndexFile = [⟨0, 1, 0⟩, ⟨1, 1, 1⟩, ⟨1, 1, 1⟩] ∧
    named (filePositions exampleEnv zeroIndexFile) 0 = none ∧
    loadObj exampleEnv "zero.obj" = .error (.undefined "vertices[vertexIndex]") := by
  refine ⟨by decide, by decide, by decide, by decide, by decide, by decide⟩

/-- Claim C16.  `CompareFaces` is a strict total order on index triples (irreflexive,
transitive, and any two distinct triples are ordered one way), so the map of `loadObj` is
keyed by the triple itself.  After a run of `loadObj` that returned: every face corner of
the file has an index in the map, two corners have the same index if and only if their
triples are equal, the faces stored carry these indices, and the number of vertices of the
mesh is the number of distinct triples among the face corners of the file. -/
theorem loadObj_dedup_by_triple (env : ParserEnv) (lines : List String) (st : ObjLoader)
    (mesh : Mesh) (hrun : loadObjLines env lines ObjLoader.init = .ok st)
    (hfin : loadObjFinish st = .ok mesh) :
    (∀ a, CompareFaces a a = false) ∧
    (∀ a b c, CompareFaces a b = true → CompareFaces b c = true → CompareFaces a c = true) ∧
    (∀ a b, a ≠ b → (CompareFaces a b = true ∨ CompareFaces b a = true)) ∧
    (∀ k1 ∈ fileCorners lines, ∀ k2 ∈ fileCorners lines,
      ∃ i1 i2, mapFind st.uniqueVertexMap k1 = some i1 ∧
        mapFind st.uniqueVertexMap k2 = some i2 ∧ (i1 = i2 ↔ k1 = k2)) ∧
    List.Forall₂ (faceOfCorners st.uniqueVertexMap) mesh.allFaces (fileFaces lines) ∧
    mesh.vertices.length = (fileCorners lines).dedup.length := by
  have hinv := (loadObjLines_inv env lines ObjLoader.init st [] [] LoaderInv.init hrun).1
  rw [List.nil_append, List.nil_append] at hinv
  obtain ⟨_, hv, _, hcomp, _, _, _, _⟩ := loadObjFinish_ok st mesh hfin
  have hfound : ∀ k ∈ fileCorners lines, ∃ i, mapFind st.uniqueVertexMap k = some i := by
    intro k hk
    cases hm : mapFind st.uniqueVertexMap k with
    | none => exact absurd ((hinv.keys k).mpr hk) ((mapFind_eq_none _ _).mp hm)
    | some i => exact ⟨i, rfl⟩
  refine ⟨?_, ?_, ?_, ?_, ?_, ?_⟩
  · intro a
    rw [← Bool.not_eq_true, compareFaces_iff]
    omega
  · intro a b c hab hbc
    rw [compareFaces_iff] at hab hbc ⊢
    omega
  · intro a b hne
    rw [compareFaces_iff, compareFaces_iff]
    rw [Ne, vector3i_eq_iff] at hne
    omega
  · intro k1 hk1 k2 hk2
    obtain ⟨i1, h1⟩ := hfound k1 hk1
    obtain ⟨i2, h2⟩ := hfound k2 hk2
    refine ⟨i1, i2, h1, h2, ?_, ?_⟩
    · intro he
      obtain ⟨j1, hj1, hg1⟩ := hinv.index st _ _ k1 i1 h1
      obtain ⟨j2, hj2, hg2⟩ := hinv.index st _ _ k2 i2 h2
      have hj : j1 = j2 := by omega
      rw [hj, hg2] at hg1
      exact (congrArg Prod.fst (Option.some.inj hg1)).symm
    · intro he
      rw [he, h2] at h1
      exact (Option.some.inj h1).symm
  · have := hinv.faces
    unfold Mesh.allFaces at this ⊢
    rw [hcomp]
    exact this
  · have hperm : (st.uniqueVertexMap.map Prod.fst).Perm (fileCorners lines).dedup :=
      (List.perm_ext_iff_of_nodup hinv.keys_nodup (List.nodup_dedup _)).mpr
        (fun k => by rw [List.mem_dedup]; exact hinv.keys k)
    rw [hv, ← hinv.vertices.length_eq, ← hperm.length_eq, List.length_map]

/-- Witness of `loadObj_dedup_by_triple`: the file `square.obj` has six face corners, four
of them distinct, and its mesh has four vertices. -/
theorem loadObj_dedup_by_triple_witness :
    loadObjLines exampleEnv squareFile ObjLoader.init =
      .ok (loaderState (loadObjLines exampleEnv squareFile ObjLoader.init)) ∧
    loadObjFinish (loaderState (loadObjLines exampleEnv squareFile ObjLoader.init)) =
      .ok (loadedMesh (loadObj exampleEnv "square.obj")) ∧
    (fileCorners squareFile).length = 6 ∧ (fileCorners squareFile).dedup.length = 4 ∧
    (loadedMesh (loadObj exampleEnv "square.obj")).vertices.length =
      (fileCorners squareFile).dedup.length :=
  ⟨by rfl, by rfl, by decide, by decide,
    (loadObj_dedup_by_triple exampleEnv squareFile _ _ (by rfl) (by rfl)).2.2.2.2.2⟩

/-! ## The number of vertices of a face -/

theorem parseFaceLoop_length (room : Nat) (str : List Char) (indices : List Vector3i) :
    (parseFaceLoop room str indices).indices.length ≤ indices.length + room := by
  induction room generalizing str indices with
  | zero =>
    unfold parseFaceLoop
    cases parseVertex str with
    | none => simp
    | some r => simp
  | succ room ih =>
    unfold parseFaceLoop
    cases parseVertex str with
    | none => simp
    | some r =>
      have := ih (parseWhitespace r.2).2 (indices ++ [⟨r.1.vertex, r.1.normal, r.1.texcoord⟩])
      simp only [List.length_append, List.length_singleton] at this
      show (parseFaceLoop room (parseWhitespace r.2).2
        (indices ++ [⟨r.1.vertex, r.1.normal, r.1.texcoord⟩])).indices.length ≤ _
      omega

theorem pushChecked_error {α : Type} (flag : Bool) (v : List α) (number : Int) (dst : List α)
    (what step : String) (e : Failure)
    (h : pushChecked flag v number dst what step = .error e) :
    e = .undefined step ∨ e = .runtime_error what := by
  unfold pushChecked at h
  split at h
  · simp only at h
    split at h
    · split at h
      · left
        injection h with h
        exact h.symm
      · exact absurd h (by simp)
    · right
      injection h with h
      exact h.symm
  · exact absurd h (by simp)

/-- The failures of `mapVertex` are those of its three checked copies. -/
theorem mapVertex_error (st : ObjLoader) (key : Vector3i) (e : Failure)
    (h : mapVertex st key = .error e) :
    (∃ step, e = .undefined step) ∨ e = .runtime_error "Unknown vertex specified" ∨
    e = .runtime_error "Unknown normal specified" ∨
    e = .runtime_error "Unknown texture coordinate specified" := by
  unfold mapVertex at h
  split at h
  · exact absurd h (by simp)
  · split at h
    · rename_i e1 h1
      injection h with h
      subst h
      rcases pushChecked_error _ _ _ _ _ _ _ h1 with h2 | h2
      · exact Or.inl ⟨_, h2⟩
      · exact Or.inr (Or.inl h2)
    · split at h
      · rename_i e1 h1
        injection h with h
        subst h
        rcases pushChecked_error _ _ _ _ _ _ _ h1 with h2 | h2
        · exact Or.inl ⟨_, h2⟩
        · exact Or.inr (Or.inr (Or.inl h2))
      · split at h
        · rename_i e1 h1
          injection h with h
          subst h
          rcases pushChecked_error _ _ _ _ _ _ _ h1 with h2 | h2
          · exact Or.inl ⟨_, h2⟩
          · exact Or.inr (Or.inr (Or.inr h2))
        · exact absurd h (by simp)

theorem mapVertices_error (keys : List Vector3i) (st : ObjLoader) (acc : List Int)
    (e : Failure) (h : mapVertices keys st acc = .error e) :
    (∃ step, e = .undefined step) ∨ e = .runtime_error "Unknown vertex specified" ∨
    e = .runtime_error "Unknown normal specified" ∨
    e = .runtime_error "Unknown texture coordinate specified" := by
  induction keys generalizing st acc with
  | nil => simp [mapVertices] at h
  | cons key rest ih =>
    unfold mapVertices at h
    split at h
    · rename_i e1 h1
      injection h with h
      subst h
      exact mapVertex_error st key _ h1
    · exact ih _ _ h

theorem mapVertices_length (keys : List Vector3i) (st st1 : ObjLoader) (acc mapped : List Int)
    (h : mapVertices keys st acc = .ok (mapped, st1)) :
    mapped.length = acc.length + keys.length := by
  induction keys generalizing st acc with
  | nil =>
    simp only [mapVertices, Except.ok.injEq, Prod.mk.injEq] at h
    rw [← h.1]
    rfl
  | cons key rest ih =>
    unfold mapVertices at h
    split at h
    · exact absurd h (by simp)
    · have := ih _ _ h
      simp only [List.length_append, List.length_singleton] at this
      simp only [List.length_cons]
      omega

/-- Claim C17 fails on the code.  `loadObj` calls `parseFace` with room for three vertices,
so `parseFace` never reports more than three, and the branch for a face never fails with
the message on quads.  The file `quad.obj`, whose face line lists four well-formed vertex
definitions, is loaded without an error: the first three corners of the line are read and
the component `[default]` receives the triangle (0, 1, 2). -/
theorem quad_line_is_read_as_triangle :
    (∀ str, (parseFace str 3).indices.length ≤ 3) ∧
    (∀ st stream, loadFace st stream ≠ .error (.runtime_error
      "OBJ loader: quads are not supported, convert them to triangles")) ∧
    lineCorners "f 1//1 2//1 3//1 4//1" = [⟨1, 1, 1⟩, ⟨2, 1, 2⟩, ⟨3, 1, 3⟩] ∧
    (loadObj exampleEnv "quad.obj").toOption.map (fun m => (m.vertices.length, m.components)) =
      some (3, [⟨"[default]", "", [⟨0, 1, 2⟩]⟩]) := by
  have hlen : ∀ str, (parseFace str 3).indices.length ≤ 3 := by
    intro str
    have := parseFaceLoop_length 3 (parseWhitespace str).2 []
    simpa [parseFace] using this
  refine ⟨hlen, ?_, by decide, by decide⟩
  intro st stream h
  unfold loadFace at h
  split at h
  · exact absurd h (by simp)
  · simp only at h
    split at h
    · rename_i e he
      injection h with h
      subst h
      rcases mapVertices_error _ _ _ _ he with ⟨step, h1⟩ | h1 | h1 | h1
      · exact absurd h1 (by simp)
      · exact absurd h1 (by decide)
      · exact absurd h1 (by decide)
      · exact absurd h1 (by decide)
    · rename_i mapped st1 hm
      have hl := mapVertices_length _ _ _ _ _ hm
      have h3 := hlen stream.buf
      simp only [List.length_nil, Nat.zero_add] at hl
      unfold storeFace at h
      split at h
      · exact absurd h (by simp)
      · simp only [List.length_cons, List.length_nil] at hl
        omega
      · injection h with h
        exact absurd h (by decide)

/-! ## The checks of the numbers of a face corner -/

theorem named_range {α : Type} (v : List α) (number : Int) (x : α)
    (h : named v number = some x) : 1 ≤ number ∧ number ≤ v.length := by
  unfold named at h
  split at h
  · rename_i h1
    refine ⟨h1, ?_⟩
    by_contra hc
    rw [List.get?_eq_none.mpr (by omega)] at h
    exact absurd h (by simp)
  · exact absurd h (by simp)

theorem pushChecked_in_range {α : Type} (flag : Bool) (v : List α) (number : Int)
    (dst : List α) (what step : String) (h1 : 1 ≤ number) (h2 : number ≤ v.length) :
    ∃ r, pushChecked flag v number dst what step = .ok r := by
  cases flag with
  | false => exact ⟨dst, rfl⟩
  | true =>
    have hlt : (number - 1).toNat < v.length := by omega
    have hn : named v number = some (v.get ⟨(number - 1).toNat, hlt⟩) := by
      unfold named
      rw [if_pos h1, List.get?_eq_get hlt]
    exact ⟨_, pushChecked_named v number dst _ what step hn⟩

theorem pushChecked_defined {α : Type} (flag : Bool) (v : List α) (number : Int)
    (dst : List α) (what step : String) (e : Failure) (h1 : 1 ≤ number)
    (h : pushChecked flag v number dst what step = .error e) : e = .runtime_error what := by
  by_cases h2 : number ≤ v.length
  · obtain ⟨r, hr⟩ := pushChecked_in_range flag v number dst what step h1 h2
    rw [hr] at h
    exact absurd h (by simp)
  · cases flag with
    | false => exact absurd h (by simp [pushChecked])
    | true =>
      rw [pushChecked_beyond v number dst what step (by omega)] at h
      injection h with h
      exact h.symm

/-- With numbers from 1 on, `mapVertex` fails only by throwing. -/
theorem mapVertex_defined (st : ObjLoader) (key : Vector3i) (e : Failure)
    (h0 : 1 ≤ key.d0) (h1 : 1 ≤ key.d1) (h2 : 1 ≤ key.d2)
    (h : mapVertex st key = .error e) : ∃ what, e = .runtime_error what := by
  unfold mapVertex at h
  split at h
  · exact absurd h (by simp)
  · split at h
    · rename_i e1 he
      injection h with h
      subst h
      exact ⟨_, pushChecked_defined _ _ _ _ _ _ _ h0 he⟩
    · split at h
      · rename_i e1 he
        injection h with h
        subst h
        exact ⟨_, pushChecked_defined _ _ _ _ _ _ _ h1 he⟩
      · split at h
        · rename_i e1 he
          injection h with h
          subst h
          exact ⟨_, pushChecked_defined _ _ _ _ _ _ _ h2 he⟩
        · exact absurd h (by simp)

/-- Claim C18 as stated fails in three ways.  The file `notexcoord.obj` has no `vt` line
and its corners give the texcoord number 7: it is loaded without an error, because the
number is only checked once a `vt` line was read.  The file `wrap.obj` has one `v` line and
writes the vertex number 4294967297: the number is read into an `int` as 1 and the file is
loaded without an error.  The file `zero.obj` names the vertex number 0: the run does not
throw `Unknown vertex specified`, it evaluates `vertices[-1]`. -/
theorem numbers_are_not_all_checked :
    fileCorners noTexcoordFile = [⟨1, 1, 7⟩, ⟨1, 1, 7⟩, ⟨1, 1, 7⟩] ∧
    (loadObj exampleEnv "notexcoord.obj").toOption.map
        (fun m => (m.texcoord, m.components)) =
      some ([⟨0, 0⟩], [⟨"[default]", "", [⟨0, 0, 0⟩]⟩]) ∧
    (wrapIndexFile.filter isPositionLine).length = 1 ∧
    fileCorners wrapIndexFile = [⟨1, 1, 1⟩, ⟨1, 1, 1⟩, ⟨1, 1, 1⟩] ∧
    (loadObj numbersEnv "wrap.obj").toOption.map (fun m => m.components) =
      some [⟨"[default]", "", [⟨0, 0, 0⟩]⟩] ∧
    fileCorners zeroIndexFile = [⟨0, 1, 0⟩, ⟨1, 1, 1⟩, ⟨1, 1, 1⟩] ∧
    loadObj exampleEnv "zero.obj" = .error (.undefined "vertices[vertexIndex]") := by
  refine ⟨by decide, by decide, by decide, by decide, by decide, by decide, by decide⟩

/-! ## The transparency keywords of `loadMaterialFile` -/

theorem toLower_ne_T (c : Char) : c.toLower ≠ 'T' := by
  intro h
  unfold Char.toLower at h
  simp only at h
  split at h
  · rename_i hc
    obtain ⟨h1, h2⟩ := hc
    generalize c.toNat = n at h h1 h2
    have h3 : n ≤ 90 := h2
    have h4 : 65 ≤ n := h1
    interval_cases n <;> exact absurd h (by decide)
  · rename_i hc
    rw [h] at hc
    exact hc (by decide)

/-- Claim C21 fails on the code for the keyword `Tr`.  The command is converted to lower
case before the dispatch, and the dispatch compares it with `"Tr"`: no command is equal to
`"Tr"` after the conversion.  `Tr` in every letter case becomes `tr`, and for the command
`tr` the current material is left as it is and the line is reported as an unknown material
command, whereas `d` sets the transparency and `map_d` and `map_tr` both set
`textureTransparency`.  The file `tr.mtl` (`Tr 0`) leaves the transparency of its material
at 1 and writes the message; the file `d.mtl` (`d 0`) sets it to 0. -/
theorem tr_keyword_is_not_honoured :
    (∀ type, toLowerString type ≠ "Tr") ∧
    (toLowerString "Tr" = "tr" ∧ toLowerString "TR" = "tr" ∧ toLowerString "tR" = "tr" ∧
      toLowerString "tr" = "tr" ∧ toLowerString "D" = "d") ∧
    (∀ env st stream, loadMaterialCommand env st "tr" stream =
      { st with cerr := st.cerr ++ ["unknown material command: tr"] }) ∧
    (∀ env st stream, loadMaterialCommand env st "d" stream =
      { st with currentMaterial := { st.currentMaterial with
          transparency := (env.extractFloat stream st.currentMaterial.transparency).1 } }) ∧
    (∀ env st stream, loadMaterialCommand env st "map_d" stream =
      { st with currentMaterial := { st.currentMaterial with
          textureTransparency :=
            (stream.extractString st.currentMaterial.textureTransparency).1 } }) ∧
    (∀ env st stream, loadMaterialCommand env st "map_tr" stream =
      { st with currentMaterial := { st.currentMaterial with
          textureTransparency :=
            (stream.extractString st.currentMaterial.textureTransparency).1 } }) ∧
    loadMaterialFile materialEnv "tr.mtl" [] =
      .ok ([("glass", { textured "" with textureTransparency := "alpha.png" })],
        ["unknown material command: tr"]) ∧
    loadMaterialFile materialEnv "d.mtl" [] =
      .ok ([("glass", { textured "" with
        transparency := 0, textureTransparency := "alpha.png" })], []) := by
  refine ⟨?_, by decide, fun _ _ _ => rfl, fun _ _ _ => rfl, fun _ _ _ => rfl,
    fun _ _ _ => rfl, by decide, by decide⟩
  intro type h
  unfold toLowerString at h
  have h1 : type.toList.map Char.toLower = ['T', 'r'] := congrArg String.data h
  match hl : type.toList, h1 with
  | [], h1 => exact absurd h1 (by simp)
  | c :: _, h1 =>
    simp only [List.map_cons, List.cons.injEq] at h1
    exact toLower_ne_T c h1.1

/-! ## The lists and flags of `loadObj` in terms of the lines read -/

/-- What one command does to the lists read from the file and to the two flags; a command
other than `f` leaves the collected vertices and the vertex map as they are. -/
theorem loadObjCommand_data (env : ParserEnv) (st st1 : ObjLoader) (type : String)
    (stream : IStream) (corners : List Vector3i) (faces : List (List Vector3i))
    (hinv : LoaderInv st corners faces)
    (h : loadObjCommand env st type stream = .ok st1) :
    st1.vertices = st.vertices ++ (if type = "v" then [readVector3 env stream] else []) ∧
    st1.normals = st.normals ++
      (if type = "vn" then [env.normalizeNormal (readVector3 env stream)] else []) ∧
    st1.texcoord = st.texcoord ++ (if type = "vt" then [readVector2 env stream] else []) ∧
    st1.hasNormals = (st.hasNormals || decide (type = "vn")) ∧
    st1.hasTextureCoordinates = (st.hasTextureCoordinates || decide (type = "vt")) ∧
    (type ≠ "f" → st1.result.vertices = st.result.vertices ∧
      st1.result.texcoord = st.result.texcoord ∧
      st1.uniqueVertexMap = st.uniqueVertexMap) := by
  by_cases c9 : type = "f"
  · rw [c9, loadObjCommand_face] at h
    obtain ⟨_, _, hv, hn, ht, hfn, hft⟩ := loadFace_inv st st1 stream corners faces hinv h
    simp [c9, hv, hn, ht, hfn, hft]
  unfold loadObjCommand at h
  by_cases c1 : type = "mtllib"
  · rw [if_pos c1] at h
    simp only at h
    split at h
    · exact absurd h (by simp)
    · have hh := Except.ok.inj h
      subst hh
      simp [c1]
  rw [if_neg c1] at h
  by_cases c2 : type = "g"
  · rw [if_pos c2] at h
    have hh := Except.ok.inj h
    subst hh
    simp [c2]
  rw [if_neg c2] at h
  by_cases c3 : type = "usemtl"
  · rw [if_pos c3] at h
    split at h
    · exact absurd h (by simp)
    · have hh := Except.ok.inj h
      subst hh
      simp [c3]
  rw [if_neg c3] at h
  by_cases c4 : type = "s"
  · rw [if_pos c4] at h
    have hh := Except.ok.inj h
    subst hh
    simp [c4]
  rw [if_neg c4] at h
  by_cases c5 : type = "o"
  · rw [if_pos c5] at h
    have hh := Except.ok.inj h
    subst hh
    simp [c5]
  rw [if_neg c5] at h
  by_cases c6 : type = "v"
  · rw [if_pos c6] at h
    have hh := Except.ok.inj h
    subst hh
    simp [c6, readVector3]
  rw [if_neg c6] at h
  by_cases c7 : type = "vn"
  · rw [if_pos c7] at h
    have hh := Except.ok.inj h
    subst hh
    simp [c7, readVector3]
  rw [if_neg c7] at h
  by_cases c8 : type = "vt"
  · rw [if_pos c8] at h
    have hh := Except.ok.inj h
    subst hh
    simp [c8, readVector2]
  rw [if_neg c8, if_neg c9] at h
  by_cases c10 : st.unsupportedTypeWarningsLeft > 0
  · rw [if_pos c10] at h
    have hh := Except.ok.inj h
    subst hh
    simp [c6, c7, c8]
  · rw [if_neg c10] at h
    have hh := Except.ok.inj h
    subst hh
    simp [c6, c7, c8]

/-- What one line does to the lists read from the file and to the two flags; a line that
is not a face line leaves the collected vertices and the vertex map as they are. -/
theorem loadObjLine_data (env : ParserEnv) (st st1 : ObjLoader) (line : String)
    (corners : List Vector3i) (faces : List (List Vector3i))
    (hinv : LoaderInv st corners faces) (h : loadObjLine env st line = .ok st1) :
    st1.vertices = st.vertices ++ filePositions env [line] ∧
    st1.normals = st.normals ++ fileNormals env [line] ∧
    st1.texcoord = st.texcoord ++ fileTexcoords env [line] ∧
    st1.hasNormals = (st.hasNormals || isNormalLine line) ∧
    st1.hasTextureCoordinates = (st.hasTextureCoordinates || isTexcoordLine line) ∧
    (isFaceLine line = false → st1.result.vertices = st.result.vertices ∧
      st1.result.texcoord = st.result.texcoord ∧
      st1.uniqueVertexMap = st.uniqueVertexMap) := by
  have hinv0 : LoaderInv { st with linecount := st.linecount + 1 } corners faces :=
    LoaderInv.mono st _ corners faces hinv rfl rfl rfl rfl rfl ⟨[], by simp⟩ ⟨[], by simp⟩
      ⟨[], by simp⟩ (fun x => x) (fun x => x)
  unfold loadObjLine at h
  simp only at h
  by_cases hskip : isSkippedLine line = true
  · rw [if_pos hskip] at h
    have hh := Except.ok.inj h
    subst hh
    simp [filePositions, fileNormals, fileTexcoords, isPositionLine, isNormalLine,
      isTexcoordLine, hskip, List.filter_cons]
  · rw [if_neg hskip] at h
    have hs : isSkippedLine line = false := by simpa using hskip
    obtain ⟨d1, d2, d3, d4, d5, d6⟩ :=
      loadObjCommand_data env _ st1 _ _ corners faces hinv0 h
    refine ⟨?_, ?_, ?_, ?_, ?_, ?_⟩
    · rw [d1]
      by_cases c : (readCommand line).1 = "v" <;>
        simp [filePositions, isPositionLine, hs, c, List.filter_cons]
    · rw [d2]
      by_cases c : (readCommand line).1 = "vn" <;>
        simp [fileNormals, isNormalLine, hs, c, List.filter_cons]
    · rw [d3]
      by_cases c : (readCommand line).1 = "vt" <;>
        simp [fileTexcoords, isTexcoordLine, hs, c, List.filter_cons]
    · rw [d4]
      simp [isNormalLine, hs]
    · rw [d5]
      simp [isTexcoordLine, hs]
    · intro hnf
      have hf : (readCommand line).1 ≠ "f" := by
        intro hc
        simp [isFaceLine, hs, hc] at hnf
      exact d6 hf

theorem filter_map_cons_one {α β : Type} (p : α → Bool) (f : α → β) (a : α) (l : List α) :
    ((a :: l).filter p).map f = ([a].filter p).map f ++ (l.filter p).map f := by
  by_cases h : p a = true <;> simp [List.filter_cons, h]

/-- After the loop over some lines, the lists read from the file hold what the `v`, `vn`
and `vt` lines among them give, and a flag is set exactly when it was set before or one of
the lines is of its kind. -/
theorem loadObjLines_data (env : ParserEnv) (lines : List String) (st st1 : ObjLoader)
    (corners : List Vector3i) (faces : List (List Vector3i))
    (hinv : LoaderInv st corners faces) (h : loadObjLines env lines st = .ok st1) :
    st1.vertices = st.vertices ++ filePositions env lines ∧
    st1.normals = st.normals ++ fileNormals env lines ∧
    st1.texcoord = st.texcoord ++ fileTexcoords env lines ∧
    st1.hasNormals = (st.hasNormals || lines.any isNormalLine) ∧
    st1.hasTextureCoordinates = (st.hasTextureCoordinates || lines.any isTexcoordLine) := by
  induction lines generalizing st corners faces with
  | nil =>
    unfold loadObjLines at h
    have hh := Except.ok.inj h
    subst hh
    simp [filePositions, fileNormals, fileTexcoords]
  | cons line rest ih =>
    unfold loadObjLines at h
    split at h
    · exact absurd h (by simp)
    · rename_i st2 hline
      obtain ⟨d1, d2, d3, d4, d5, _⟩ := loadObjLine_data env st st2 line corners faces hinv hline
      obtain ⟨hinv2, _⟩ := loadObjLine_inv env st st2 line corners faces hinv hline
      obtain ⟨e1, e2, e3, e4, e5⟩ := ih st2 _ _ hinv2 h
      refine ⟨?_, ?_, ?_, ?_, ?_⟩
      · rw [e1, d1, List.append_assoc]
        unfold filePositions
        rw [filter_map_cons_one isPositionLine _ line rest]
      · rw [e2, d2, List.append_assoc]
        unfold fileNormals
        rw [filter_map_cons_one isNormalLine _ line rest]
      · rw [e3, d3, List.append_assoc]
        unfold fileTexcoords
        rw [filter_map_cons_one isTexcoordLine _ line rest]
      · rw [e4, d4, List.any_cons, Bool.or_assoc]
      · rw [e5, d5, List.any_cons, Bool.or_assoc]

/-! ## How many texture coordinates are collected -/

/-- One corner adds `d` vertices (0 or 1) and, when the flag is set, as many texture
coordinates; without the flag it adds no texture coordinate. -/
theorem mapVertex_delta (st st1 : ObjLoader) (key : Vector3i) (i : Int)
    (h : mapVertex st key = .ok (i, st1)) :
    st1.hasTextureCoordinates = st.hasTextureCoordinates ∧
    ∃ d : Nat, st1.result.vertices.length = st.result.vertices.length + d ∧
      st1.result.texcoord.length = st.result.texcoord.length +
        (if st.hasTextureCoordinates = true then d else 0) := by
  cases hm : mapFind st.uniqueVertexMap key with
  | some j =>
    rw [mapVertex_found st key j hm] at h
    have hh := (Prod.mk.inj (Except.ok.inj h)).2
    subst hh
    exact ⟨rfl, 0, by simp, by simp⟩
  | none =>
    obtain ⟨_, rv, rn, rt, hrv, _, hrt, hst1⟩ := mapVertex_new st st1 key i hm h
    subst hst1
    refine ⟨rfl, 1, ?_, ?_⟩
    · rcases pushChecked_ok _ _ _ _ _ _ _ hrv with ⟨_, x, _, hx⟩ | ⟨hf, _⟩
      · simp [hx]
      · exact absurd hf (by simp)
    · rcases pushChecked_ok _ _ _ _ _ _ _ hrt with ⟨hf, x, _, hx⟩ | ⟨hf, hx⟩
      · simp [hx, hf]
      · simp [hx, hf]

theorem mapVertices_delta (keys : List Vector3i) (st st1 : ObjLoader) (acc mapped : List Int)
    (h : mapVertices keys st acc = .ok (mapped, st1)) :
    st1.hasTextureCoordinates = st.hasTextureCoordinates ∧
    ∃ d : Nat, st1.result.vertices.length = st.result.vertices.length + d ∧
      st1.result.texcoord.length = st.result.texcoord.length +
        (if st.hasTextureCoordinates = true then d else 0) := by
  induction keys generalizing st acc with
  | nil =>
    simp only [mapVertices, Except.ok.injEq, Prod.mk.injEq] at h
    rw [← h.2]
    exact ⟨rfl, 0, by simp, by simp⟩
  | cons key rest ih =>
    unfold mapVertices at h
    split at h
    · exact absurd h (by simp)
    · rename_i i st2 hk
      obtain ⟨hf1, d1, hv1, ht1⟩ := mapVertex_delta st st2 key i hk
      obtain ⟨hf2, d2, hv2, ht2⟩ := ih st2 _ h
      refine ⟨by rw [hf2, hf1], d1 + d2, by omega, ?_⟩
      rw [hf1] at ht2
      by_cases hf : st.hasTextureCoordinates = true
      · rw [if_pos hf] at ht1 ht2 ⊢
        omega
      · rw [if_neg hf] at ht1 ht2 ⊢
        omega

theorem loadFace_delta (st st2 : ObjLoader) (stream : IStream)
    (h : loadFace st stream = .ok st2) :
    ∃ d : Nat, st2.result.vertices.length = st.result.vertices.length + d ∧
      st2.result.texcoord.length = st.result.texcoord.length +
        (if st.hasTextureCoordinates = true then d else 0) := by
  unfold loadFace at h
  split at h
  · exact absurd h (by simp)
  · simp only at h
    split at h
    · exact absurd h (by simp)
    · rename_i mapped st1 hm
      obtain ⟨_, d, hv, ht⟩ := mapVertices_delta _ _ _ _ _ hm
      obtain ⟨_, _, _, _, _, _, hrv, _, hrt, _⟩ := storeFace_ok st1 st2 mapped h
      exact ⟨d, by rw [hrv, hv], by rw [hrt, ht]⟩

/-- One line adds `d` vertices and, when the flag was set before the line, as many
texture coordinates; without the flag it adds no texture coordinate. -/
theorem loadObjLine_delta (env : ParserEnv) (st st1 : ObjLoader) (line : String)
    (corners : List Vector3i) (faces : List (List Vector3i))
    (hinv : LoaderInv st corners faces) (h : loadObjLine env st line = .ok st1) :
    ∃ d : Nat, st1.result.vertices.length = st.result.vertices.length + d ∧
      st1.result.texcoord.length = st.result.texcoord.length +
        (if st.hasTextureCoordinates = true then d else 0) := by
  by_cases hface : isFaceLine line = true
  · unfold loadObjLine at h
    simp only at h
    have hs : ¬ isSkippedLine line = true := by
      intro hc
      simp [isFaceLine, hc] at hface
    have hf : (readCommand line).1 = "f" := by
      simp only [isFaceLine, Bool.and_eq_true, decide_eq_true_eq] at hface
      exact hface.2
    rw [if_neg hs, hf, loadObjCommand_face] at h
    have hd := loadFace_delta _ st1 _ h
    exact hd
  · have hnf : isFaceLine line = false := by simpa using hface
    obtain ⟨hv, ht, _⟩ := (loadObjLine_data env st st1 line corners faces hinv h).2.2.2.2.2 hnf
    exact ⟨0, by rw [hv]; rfl, by rw [ht]; simp⟩

/-- Once the flag is set and every vertex has its texture coordinate, this stays so. -/
theorem loadObjLines_full (env : ParserEnv) (lines : List String) (st st1 : ObjLoader)
    (corners : List Vector3i) (faces : List (List Vector3i))
    (hinv : LoaderInv st corners faces) (hflag : st.hasTextureCoordinates = true)
    (heq : st.result.texcoord.length = st.result.vertices.length)
    (h : loadObjLines env lines st = .ok st1) :
    st1.result.texcoord.length = st1.result.vertices.length := by
  induction lines generalizing st corners faces with
  | nil =>
    unfold loadObjLines at h
    have hh := Except.ok.inj h
    subst hh
    exact heq
  | cons line rest ih =>
    unfold loadObjLines at h
    split at h
    · exact absurd h (by simp)
    · rename_i st2 hline
      obtain ⟨d, hv, ht⟩ := loadObjLine_delta env st st2 line corners faces hinv hline
      obtain ⟨hinv2, _⟩ := loadObjLine_inv env st st2 line corners faces hinv hline
      have hf2 := (loadObjLine_data env st st2 line corners faces hinv hline).2.2.2.2.1
      rw [if_pos hflag] at ht
      refine ih st2 _ _ hinv2 ?_ (by omega) h
      rw [hf2, hflag]
      rfl

/-- Once a vertex was collected without a texture coordinate, there are fewer texture
coordinates than vertices for the rest of the run. -/
theorem loadObjLines_short (env : ParserEnv) (lines : List String) (st st1 : ObjLoader)
    (corners : List Vector3i) (faces : List (List Vector3i))
    (hinv : LoaderInv st corners faces)
    (hlt : st.result.texcoord.length < st.result.vertices.length)
    (h : loadObjLines env lines st = .ok st1) :
    st1.result.texcoord.length < st1.result.vertices.length := by
  induction lines generalizing st corners faces with
  | nil =>
    unfold loadObjLines at h
    have hh := Except.ok.inj h
    subst hh
    exact hlt
  | cons line rest ih =>
    unfold loadObjLines at h
    split at h
    · exact absurd h (by simp)
    · rename_i st2 hline
      obtain ⟨d, hv, ht⟩ := loadObjLine_delta env st st2 line corners faces hinv hline
      obtain ⟨hinv2, _⟩ := loadObjLine_inv env st st2 line corners faces hinv hline
      refine ih st2 _ _ hinv2 ?_ h
      by_cases hf : st.hasTextureCoordinates = true
      · rw [if_pos hf] at ht
        omega
      · rw [if_neg hf] at ht
        omega

/-- When a `vt` line comes before the first face line, every vertex collected has its
texture coordinate. -/
theorem texcoordBeforeFaces_full (env : ParserEnv) (lines : List String) (st st1 : ObjLoader)
    (corners : List Vector3i) (faces : List (List Vector3i))
    (hinv : LoaderInv st corners faces)
    (heq : st.result.texcoord.length = st.result.vertices.length)
    (hb : texcoordBeforeFaces lines = true)
    (h : loadObjLines env lines st = .ok st1) :
    st1.result.texcoord.length = st1.result.vertices.length := by
  induction lines generalizing st corners faces with
  | nil => simp [texcoordBeforeFaces] at hb
  | cons line rest ih =>
    unfold loadObjLines at h
    split at h
    · exact absurd h (by simp)
    · rename_i st2 hline
      obtain ⟨hinv2, _⟩ := loadObjLine_inv env st st2 line corners faces hinv hline
      obtain ⟨_, _, _, _, hf2, hres⟩ := loadObjLine_data env st st2 line corners faces hinv hline
      unfold texcoordBeforeFaces at hb
      by_cases hvt : isTexcoordLine line = true
      · have hnf : isFaceLine line = false := by
          simp only [isTexcoordLine, Bool.and_eq_true, decide_eq_true_eq] at hvt
          simp [isFaceLine, hvt.2]
        obtain ⟨hv, ht, _⟩ := hres hnf
        refine loadObjLines_full env rest st2 st1 _ _ hinv2 ?_ ?_ h
        · rw [hf2, hvt]
          simp
        · rw [hv, ht]
          exact heq
      · rw [if_neg hvt] at hb
        by_cases hface : isFaceLine line = true
        · rw [if_pos hface] at hb
          exact absurd hb (by simp)
        · rw [if_neg hface] at hb
          have hnf : isFaceLine line = false := by simpa using hface
          obtain ⟨hv, ht, _⟩ := hres hnf
          exact ih st2 _ _ hinv2 (by rw [hv, ht]; exact heq) hb h

/-- When no `vt` line comes before the first face line, either no texture coordinate is
collected at all or fewer than vertices. -/
theorem texcoordBeforeFaces_short (env : ParserEnv) (lines : List String)
    (st st1 : ObjLoader) (corners : List Vector3i) (faces : List (List Vector3i))
    (hinv : LoaderInv st corners faces) (hflag : st.hasTextureCoordinates = false)
    (hb : texcoordBeforeFaces lines = false)
    (h : loadObjLines env lines st = .ok st1) :
    st1.result.texcoord = [] ∨
      st1.result.texcoord.length < st1.result.vertices.length := by
  induction lines generalizing st corners faces with
  | nil =>
    unfold loadObjLines at h
    have hh := Except.ok.inj h
    subst hh
    exact Or.inl (hinv.texcoord_flag hflag)
  | cons line rest ih =>
    unfold loadObjLines at h
    split at h
    · exact absurd h (by simp)
    · rename_i st2 hline
      obtain ⟨hinv2, hlen⟩ := loadObjLine_inv env st st2 line corners faces hinv hline
      obtain ⟨_, _, _, _, hf2, _⟩ := loadObjLine_data env st st2 line corners faces hinv hline
      unfold texcoordBeforeFaces at hb
      by_cases hvt : isTexcoordLine line = true
      · rw [if_pos hvt] at hb
        exact absurd hb (by simp)
      · rw [if_neg hvt] at hb
        have hflag2 : st2.hasTextureCoordinates = false := by
          rw [hf2, hflag]
          simpa using hvt
        by_cases hface : isFaceLine line = true
        · right
          have ht2 : st2.result.texcoord = [] := hinv2.texcoord_flag hflag2
          have hne : lineCorners line ≠ [] := by
            intro hc
            have := hlen hface
            rw [hc] at this
            simp at this
          obtain ⟨k, rest2, hk⟩ := List.exists_cons_of_ne_nil hne
          have hmem : k ∈ st2.uniqueVertexMap.map Prod.fst :=
            (hinv2.keys k).mpr (by rw [hk]; simp)
          have hpos : 0 < st2.uniqueVertexMap.length := by
            have := List.length_pos_of_mem hmem
            simpa using this
          have hlenv := hinv2.vertices.length_eq
          refine loadObjLines_short env rest st2 st1 _ _ hinv2 ?_ h
          rw [ht2]
          simp only [List.length_nil]
          omega
        · rw [if_neg hface] at hb
          exact ih st2 _ _ hinv2 hflag2 hb h

/-! ## Claim C15 -/

/-- After a run that returned, the index the vertex map gives to a triple carries the data
the triple names in the file. -/
theorem cornerData_of_mapFind (env : ParserEnv) (lines : List String) (st : ObjLoader)
    (mesh : Mesh) (hrun : loadObjLines env lines ObjLoader.init = .ok st)
    (hfin : loadObjFinish st = .ok mesh) (key : Vector3i) (i : Int)
    (h : mapFind st.uniqueVertexMap key = some i) : cornerData env lines mesh i key := by
  have hinv := (loadObjLines_inv env lines ObjLoader.init st [] [] LoaderInv.init hrun).1
  rw [List.nil_append, List.nil_append] at hinv
  obtain ⟨dv, dn, dt, _, dflag⟩ :=
    loadObjLines_data env lines ObjLoader.init st [] [] LoaderInv.init hrun
  have dv1 : st.vertices = filePositions env lines := by rw [dv]; rfl
  have dn1 : st.normals = fileNormals env lines := by rw [dn]; rfl
  have dt1 : st.texcoord = fileTexcoords env lines := by rw [dt]; rfl
  obtain ⟨h0, hlt, hv, hn, ht1, ht0⟩ := LoaderInv.data st mesh _ _ hinv hfin key i h
  obtain ⟨_, hmv, _, _, _, hmt, _, hmtl⟩ := loadObjFinish_ok st mesh hfin
  rw [dv1] at hv
  rw [dn1] at hn
  rw [dt1] at ht1
  refine ⟨h0, hlt, hv, hn, ?_⟩
  by_cases hb : texcoordBeforeFaces lines = true
  · have hfull := texcoordBeforeFaces_full env lines ObjLoader.init st [] []
      LoaderInv.init rfl hb hrun
    have hne : st.result.texcoord ≠ [] := by
      intro hc
      rw [hc, ← hmv] at hfull
      simp only [List.length_nil] at hfull
      omega
    obtain ⟨t, ht, hnamed⟩ := ht1 hne
    exact ⟨t, ht, by rw [if_pos hb]; exact hnamed⟩
  · have hbf : texcoordBeforeFaces lines = false := by simpa using hb
    have hempty : st.result.texcoord = [] := by
      rcases texcoordBeforeFaces_short env lines ObjLoader.init st [] [] LoaderInv.init rfl
        hbf hrun with he | hs
      · exact he
      · by_cases hz : st.result.texcoord.length = 0
        · exact List.length_eq_zero.mp hz
        · rw [if_neg hz] at hmt
          rw [hmt, hmv] at hmtl
          omega
    exact ⟨_, ht0 hempty, by rw [if_neg hb]⟩

/-- Claim C15, amended.  Let `loadObj` return a mesh for a file all of whose face corners
give numbers of 1 or more.  Then every face of every component has three indices `i` with
`0 <= i <` number of vertices, and the faces of the mesh are, in order, the face lines of
the file, each with three corners, such that at the index of each corner the mesh stores
the vertex and the normal that the vertex and normal number of the corner name in the file
(the `k`-th `v` line, the `k`-th `vn` line) and, as texture coordinate, the one the
texcoord number names (the `k`-th `vt` line) when a `vt` line comes before the first face
line, and (0, 0) otherwise.  (In the embedding a run that reads outside a list has no
returned mesh; the condition on the numbers says so on the file.) -/
theorem loadObj_faces_and_data (env : ParserEnv) (filename : String) (lines : List String)
    (mesh : Mesh) (hfile : env.readLines filename = some lines)
    (hload : loadObj env filename = .ok mesh)
    (_hpos : ∀ k ∈ fileCorners lines, 1 ≤ k.d0 ∧ 1 ≤ k.d1 ∧ 1 ≤ k.d2) :
    (∀ c ∈ mesh.components, ∀ f ∈ c.faces,
      (0 ≤ f.d0 ∧ f.d0 < mesh.vertices.length) ∧ (0 ≤ f.d1 ∧ f.d1 < mesh.vertices.length) ∧
      (0 ≤ f.d2 ∧ f.d2 < mesh.vertices.length)) ∧
    List.Forall₂ (faceData env lines mesh) mesh.allFaces (fileFaces lines) := by
  obtain ⟨lines1, st, hl, hrun, hfin⟩ := loadObj_ok env filename mesh hload
  rw [hfile] at hl
  have hl1 : lines = lines1 := Option.some.inj hl
  subst hl1
  have hinv := (loadObjLines_inv env lines ObjLoader.init st [] [] LoaderInv.init hrun).1
  rw [List.nil_append, List.nil_append] at hinv
  have hdata := cornerData_of_mapFind env lines st mesh hrun hfin
  obtain ⟨_, _, _, hcomp, _, _, _, _⟩ := loadObjFinish_ok st mesh hfin
  have hfaces : List.Forall₂ (faceOfCorners st.uniqueVertexMap) mesh.allFaces
      (fileFaces lines) := by
    have := hinv.faces
    unfold Mesh.allFaces at this ⊢
    rw [hcomp]
    exact this
  have hfd : List.Forall₂ (faceData env lines mesh) mesh.allFaces (fileFaces lines) := by
    refine List.Forall₂.imp ?_ hfaces
    intro f c hfc
    obtain ⟨k0, k1, k2, hc, h0, h1, h2⟩ := hfc
    exact ⟨k0, k1, k2, hc, hdata k0 _ h0, hdata k1 _ h1, hdata k2 _ h2⟩
  refine ⟨?_, hfd⟩
  intro c hc f hf
  have hmem : f ∈ mesh.allFaces := by
    unfold Mesh.allFaces
    exact List.mem_flatMap.mpr ⟨c, hc, hf⟩
  obtain ⟨cs, _, k0, k1, k2, _, d0, d1, d2⟩ := forall2_mem_left _ _ _ hfd f hmem
  exact ⟨⟨d0.1, d0.2.1⟩, ⟨d1.1, d1.2.1⟩, ⟨d2.1, d2.2.1⟩⟩

/-- Witness of `loadObj_faces_and_data`: the file `square.obj`, whose `vt` lines come
before its two faces.  The faces (0, 1, 2) and (0, 2, 3) belong to the corners
1/1/1 2/2/1 3/3/1 and 1/1/1 3/3/1 4/4/1, and the vertices and texture coordinates stored
are the ones of the four `v` and `vt` lines.  And the file `late.obj`, whose face comes
before its `vt` line: the texture coordinates stored are (0, 0). -/
theorem loadObj_faces_and_data_witness :
    exampleEnv.readLines "square.obj" = some squareFile ∧
    loadObj exampleEnv "square.obj" = .ok (loadedMesh (loadObj exampleEnv "square.obj")) ∧
    (∀ k ∈ fileCorners squareFile, 1 ≤ k.d0 ∧ 1 ≤ k.d1 ∧ 1 ≤ k.d2) ∧
    texcoordBeforeFaces squareFile = true ∧
    fileFaces squareFile =
      [[⟨1, 1, 1⟩, ⟨2, 1, 2⟩, ⟨3, 1, 3⟩], [⟨1, 1, 1⟩, ⟨3, 1, 3⟩, ⟨4, 1, 4⟩]] ∧
    (loadedMesh (loadObj exampleEnv "square.obj")).allFaces = [⟨0, 1, 2⟩, ⟨0, 2, 3⟩] ∧
    filePositions exampleEnv squareFile = [⟨0, 0, 0⟩, ⟨1, 0, 0⟩, ⟨1, 1, 0⟩, ⟨0, 1, 0⟩] ∧
    (loadedMesh (loadObj exampleEnv "square.obj")).vertices =
      [⟨0, 0, 0⟩, ⟨1, 0, 0⟩, ⟨1, 1, 0⟩, ⟨0, 1, 0⟩] ∧
    fileTexcoords exampleEnv squareFile = [⟨0, 0⟩, ⟨1, 0⟩, ⟨1, 1⟩, ⟨0, 1⟩] ∧
    (loadedMesh (loadObj exampleEnv "square.obj")).texcoord =
      [⟨0, 0⟩, ⟨1, 0⟩, ⟨1, 1⟩, ⟨0, 1⟩] ∧
    List.Forall₂ (faceData exampleEnv squareFile (loadedMesh (loadObj exampleEnv "square.obj")))
      (loadedMesh (loadObj exampleEnv "square.obj")).allFaces (fileFaces squareFile) ∧
    texcoordBeforeFaces lateTexcoordFile = false ∧
    (loadedMesh (loadObj exampleEnv "late.obj")).texcoord = [⟨0, 0⟩, ⟨0, 0⟩] ∧
    List.Forall₂
      (faceData exampleEnv lateTexcoordFile (loadedMesh (loadObj exampleEnv "late.obj")))
      (loadedMesh (loadObj exampleEnv "late.obj")).allFaces (fileFaces lateTexcoordFile) :=
  ⟨by rfl, by rfl, by decide, by decide, by decide, by decide, by decide, by decide,
    by decide, by decide,
    (loadObj_faces_and_data exampleEnv "square.obj" squareFile _ (by rfl) (by rfl)
      (by decide)).2,
    by decide, by decide,
    (loadObj_faces_and_data exampleEnv "late.obj" lateTexcoordFile _ (by rfl) (by rfl)
      (by decide)).2⟩

/-! ## Claim C18 -/

/-- The checks of one corner, in a state of the loop. -/
theorem mapVertex_checks (st : ObjLoader) (corners : List Vector3i)
    (faces : List (List Vector3i)) (hinv : LoaderInv st corners faces) (key : Vector3i) :
    ((st.vertices.length : Int) < key.d0 →
      mapVertex st key = .error (.runtime_error "Unknown vertex specified")) ∧
    (key ∉ corners → 1 ≤ key.d0 → key.d0 ≤ st.vertices.length →
      st.hasNormals = true → (st.normals.length : Int) < key.d1 →
      mapVertex st key = .error (.runtime_error "Unknown normal specified")) ∧
    (key ∉ corners → 1 ≤ key.d0 → key.d0 ≤ st.vertices.length →
      (st.hasNormals = false ∨ (1 ≤ key.d1 ∧ key.d1 ≤ st.normals.length)) →
      st.hasTextureCoordinates = true → (st.texcoord.length : Int) < key.d2 →
      mapVertex st key = .error (.runtime_error "Unknown texture coordinate specified")) ∧
    (key ∈ corners → ∃ i, mapVertex st key = .ok (i, st)) ∧
    (key ∉ corners → 1 ≤ key.d0 → key.d0 ≤ st.vertices.length →
      (st.hasNormals = false ∨ (1 ≤ key.d1 ∧ key.d1 ≤ st.normals.length)) →
      (st.hasTextureCoordinates = false ∨ (1 ≤ key.d2 ∧ key.d2 ≤ st.texcoord.length)) →
      ∃ i st1, mapVertex st key = .ok (i, st1)) ∧
    (1 ≤ key.d0 → 1 ≤ key.d1 → 1 ≤ key.d2 →
      ∀ step, mapVertex st key ≠ .error (.undefined step)) := by
  have hnone : key ∉ corners → mapFind st.uniqueVertexMap key = none := fun hk =>
    (mapFind_eq_none _ _).mpr (fun hm => hk ((hinv.keys key).mp hm))
  have hchecked : ∀ (flag : Bool) {α : Type} (v dst : List α) (number : Int)
      (what step : String), (flag = false ∨ (1 ≤ number ∧ number ≤ v.length)) →
      ∃ r, pushChecked flag v number dst what step = .ok r := by
    intro flag α v dst number what step hc
    rcases hc with hf | ⟨ha, hb⟩
    · rw [hf]
      exact ⟨_, rfl⟩
    · exact pushChecked_in_range _ _ _ _ _ _ ha hb
  refine ⟨?_, ?_, ?_, ?_, ?_, ?_⟩
  · intro hbig
    have hnew : mapFind st.uniqueVertexMap key = none := by
      cases hm : mapFind st.uniqueVertexMap key with
      | none => rfl
      | some i =>
        obtain ⟨v, _, hv⟩ := forall2_mem_left _ _ _ hinv.vertices _ (mapFind_mem _ _ _ hm)
        have := (named_range _ _ _ hv).2
        simp only at this
        omega
    unfold mapVertex
    rw [hnew]
    simp only
    rw [pushChecked_beyond _ _ _ _ _ hbig]
  · intro hk h1 h2 hN hbig
    obtain ⟨rv, hrv⟩ := pushChecked_in_range true st.vertices key.d0 st.result.vertices
      "Unknown vertex specified" "vertices[vertexIndex]" h1 h2
    unfold mapVertex
    rw [hnone hk]
    simp only
    rw [hrv, hN]
    simp only
    rw [pushChecked_beyond _ _ _ _ _ hbig]
  · intro hk h1 h2 hnorm hT hbig
    obtain ⟨rv, hrv⟩ := pushChecked_in_range true st.vertices key.d0 st.result.vertices
      "Unknown vertex specified" "vertices[vertexIndex]" h1 h2
    obtain ⟨rn, hrn⟩ := hchecked st.hasNormals st.normals st.result.normals key.d1
      "Unknown normal specified" "normals[normalIndex]" hnorm
    unfold mapVertex
    rw [hnone hk]
    simp only
    rw [hrv]
    simp only
    rw [hrn, hT]
    simp only
    rw [pushChecked_beyond _ _ _ _ _ hbig]
  · intro hk
    cases hm : mapFind st.uniqueVertexMap key with
    | none => exact absurd ((hinv.keys key).mpr hk) ((mapFind_eq_none _ _).mp hm)
    | some i => exact ⟨i, mapVertex_found st key i hm⟩
  · intro hk h1 h2 hnorm htex
    obtain ⟨rv, hrv⟩ := pushChecked_in_range true st.vertices key.d0 st.result.vertices
      "Unknown vertex specified" "vertices[vertexIndex]" h1 h2
    obtain ⟨rn, hrn⟩ := hchecked st.hasNormals st.normals st.result.normals key.d1
      "Unknown normal specified" "normals[normalIndex]" hnorm
    obtain ⟨rt, hrt⟩ := hchecked st.hasTextureCoordinates st.texcoord st.result.texcoord
      key.d2 "Unknown texture coordinate specified" "texcoord[texCoordIndex]" htex
    unfold mapVertex
    rw [hnone hk]
    simp only
    rw [hrv]
    simp only
    rw [hrn]
    simp only
    rw [hrt]
    exact ⟨_, _, rfl⟩
  · intro h0 h1 h2 step hc
    obtain ⟨what, hw⟩ := mapVertex_defined st key _ h0 h1 h2 hc
    exact absurd hw (by simp)

theorem loadObjLines_append (env : ParserEnv) (a b : List String) (st : ObjLoader) :
    loadObjLines env (a ++ b) st =
      match loadObjLines env a st with
      | .error e => .error e
      | .ok st1 => loadObjLines env b st1 := by
  induction a generalizing st with
  | nil => rfl
  | cons line rest ih =>
    simp only [List.cons_append, loadObjLines]
    cases loadObjLine env st line with
    | error e => rfl
    | ok st1 => exact ih st1

theorem mapVertices_append (a b : List Vector3i) (st : ObjLoader) (acc : List Int) :
    mapVertices (a ++ b) st acc =
      match mapVertices a st acc with
      | .error e => .error e
      | .ok (m, st1) => mapVertices b st1 m := by
  induction a generalizing st acc with
  | nil => rfl
  | cons key rest ih =>
    simp only [List.cons_append, mapVertices]
    cases mapVertex st key with
    | error e => rfl
    | ok r => exact ih r.2 _

/-- After a command was read from a line, the stream has not failed. -/
theorem readCommand_fail (line : String) (h : (readCommand line).1 ≠ "") :
    (readCommand line).2.fail = false := by
  unfold readCommand IStream.extractString at h ⊢
  simp only [Bool.false_eq_true, if_false] at h ⊢
  split
  · rename_i hbuf
    rw [hbuf] at h
    exact absurd rfl h
  · rfl

/-- A corner of a face line whose check fails makes the line fail in the same way, when
the corners before it on the line passed. -/
theorem loadObjLine_corner_error (env : ParserEnv) (st0 st : ObjLoader) (line : String)
    (keys rest : List Vector3i) (key : Vector3i) (mapped : List Int) (e : Failure)
    (hline : isFaceLine line = true)
    (hcorners : lineCorners line = keys ++ key :: rest)
    (hmap : mapVertices keys { st0 with linecount := st0.linecount + 1 } [] =
      .ok (mapped, st))
    (herr : mapVertex st key = .error e) :
    loadObjLine env st0 line = .error e := by
  have hs : ¬ isSkippedLine line = true := by
    intro hc
    simp [isFaceLine, hc] at hline
  have hf : (readCommand line).1 = "f" := by
    simp only [isFaceLine, Bool.and_eq_true, decide_eq_true_eq] at hline
    exact hline.2
  have hfail : (readCommand line).2.fail = false :=
    readCommand_fail line (by rw [hf]; decide)
  simp only [lineCorners, hline, if_true] at hcorners
  have hbuf : (readCommand line).2.buf.isEmpty = false := by
    cases hb : (readCommand line).2.buf with
    | nil =>
      rw [hb] at hcorners
      have : (parseFace [] 3).indices = [] := by decide
      rw [this] at hcorners
      exact absurd hcorners (by simp)
    | cons c cs => rfl
  unfold loadObjLine
  simp only
  rw [if_neg hs, hf, loadObjCommand_face]
  unfold loadFace
  rw [hfail, hbuf]
  simp only [Bool.or_self, Bool.false_eq_true, if_false]
  rw [hcorners, mapVertices_append, hmap]
  simp only [mapVertices, herr]

/-- A corner whose check fails makes `loadObj` fail in the same way, when the lines before
its line and the corners before it on the line passed. -/
theorem loadObj_corner_error (env : ParserEnv) (filename : String)
    (pre post : List String) (line : String) (st0 st : ObjLoader)
    (keys rest : List Vector3i) (key : Vector3i) (mapped : List Int) (e : Failure)
    (hfile : env.readLines filename = some (pre ++ line :: post))
    (hrun : loadObjLines env pre ObjLoader.init = .ok st0)
    (hline : isFaceLine line = true)
    (hcorners : lineCorners line = keys ++ key :: rest)
    (hmap : mapVertices keys { st0 with linecount := st0.linecount + 1 } [] =
      .ok (mapped, st))
    (herr : mapVertex st key = .error e) :
    loadObj env filename = .error e := by
  unfold loadObj
  rw [hfile]
  simp only
  rw [loadObjLines_append, hrun]
  simp only [loadObjLines]
  rw [loadObjLine_corner_error env st0 st line keys rest key mapped e hline hcorners hmap herr]

theorem any_eq_true_iff_filter {α : Type} (p : α → Bool) (l : List α) :
    l.any p = true ↔ 0 < (l.filter p).length := by
  induction l with
  | nil => simp
  | cons a l ih =>
    by_cases h : p a = true
    · simp [List.filter_cons, h]
    · simp [List.filter_cons, h, ih]

/-- Claim C18, amended.  Let `loadObj` have read the lines `pre` of a file without
failing, let the next line be a face line, let the corners `keys` before the corner `key`
on that line have passed, and let `key` hold the three numbers of the corner as
`parseVertex` reads them into `int`.  With the numbers of `v`, `vn` and `vt` lines among
`pre`:
* if the vertex number is greater than the number of `v` lines, `loadObj` fails with
  `Unknown vertex specified`;
* if the triple has not occurred before, the vertex number is in range, a `vn` line was
  read and the normal number is greater than the number of `vn` lines, `loadObj` fails
  with `Unknown normal specified`;
* if the triple has not occurred before, the vertex number is in range, the normal number
  is in range or no `vn` line was read, a `vt` line was read and the texcoord number is
  greater than the number of `vt` lines, `loadObj` fails with `Unknown texture coordinate
  specified`;
* a triple that occurred before is accepted without any check, and a new triple is
  accepted when its vertex number is in range, its normal number is in range or no `vn`
  line was read, and its texcoord number is in range or no `vt` line was read;
* when the three numbers are 1 or more, the corner reads no list outside its bounds. -/
theorem loadObj_unknown_numbers (env : ParserEnv) (filename : String)
    (pre post : List String) (line : String) (st0 st : ObjLoader)
    (keys rest : List Vector3i) (key : Vector3i) (mapped : List Int)
    (hfile : env.readLines filename = some (pre ++ line :: post))
    (hrun : loadObjLines env pre ObjLoader.init = .ok st0)
    (hline : isFaceLine line = true)
    (hcorners : lineCorners line = keys ++ key :: rest)
    (hmap : mapVertices keys { st0 with linecount := st0.linecount + 1 } [] =
      .ok (mapped, st)) :
    (((pre.filter isPositionLine).length : Int) < key.d0 →
      loadObj env filename = .error (.runtime_error "Unknown vertex specified")) ∧
    (key ∉ fileCorners pre ++ keys →
      1 ≤ key.d0 → key.d0 ≤ (pre.filter isPositionLine).length →
      0 < (pre.filter isNormalLine).length →
      ((pre.filter isNormalLine).length : Int) < key.d1 →
      loadObj env filename = .error (.runtime_error "Unknown normal specified")) ∧
    (key ∉ fileCorners pre ++ keys →
      1 ≤ key.d0 → key.d0 ≤ (pre.filter isPositionLine).length →
      ((pre.filter isNormalLine).length = 0 ∨
        (1 ≤ key.d1 ∧ key.d1 ≤ (pre.filter isNormalLine).length)) →
      0 < (pre.filter isTexcoordLine).length →
      ((pre.filter isTexcoordLine).length : Int) < key.d2 →
      loadObj env filename =
        .error (.runtime_error "Unknown texture coordinate specified")) ∧
    (key ∈ fileCorners pre ++ keys → ∃ i, mapVertex st key = .ok (i, st)) ∧
    (key ∉ fileCorners pre ++ keys →
      1 ≤ key.d0 → key.d0 ≤ (pre.filter isPositionLine).length →
      ((pre.filter isNormalLine).length = 0 ∨
        (1 ≤ key.d1 ∧ key.d1 ≤ (pre.filter isNormalLine).length)) →
      ((pre.filter isTexcoordLine).length = 0 ∨
        (1 ≤ key.d2 ∧ key.d2 ≤ (pre.filter isTexcoordLine).length)) →
      ∃ i st1, mapVertex st key = .ok (i, st1)) ∧
    (1 ≤ key.d0 → 1 ≤ key.d1 → 1 ≤ key.d2 →
      ∀ step, mapVertex st key ≠ .error (.undefined step)) := by
  have hinv0 := (loadObjLines_inv env pre ObjLoader.init st0 [] [] LoaderInv.init hrun).1
  rw [List.nil_append, List.nil_append] at hinv0
  have hinv1 : LoaderInv { st0 with linecount := st0.linecount + 1 } (fileCorners pre)
      (fileFaces pre) :=
    LoaderInv.mono st0 _ _ _ hinv0 rfl rfl rfl rfl rfl ⟨[], by simp⟩ ⟨[], by simp⟩
      ⟨[], by simp⟩ (fun x => x) (fun x => x)
  obtain ⟨hinv, _, _, sv, sn, stx, sfn, sft, _⟩ :=
    mapVertices_inv keys _ st [] mapped _ _ hinv1 hmap
  obtain ⟨dv, dn, dt, dfn, dft⟩ :=
    loadObjLines_data env pre ObjLoader.init st0 [] [] LoaderInv.init hrun
  have lv : st.vertices.length = (pre.filter isPositionLine).length := by
    rw [sv]
    show st0.vertices.length = _
    rw [dv]
    simp [ObjLoader.init, filePositions]
  have ln : st.normals.length = (pre.filter isNormalLine).length := by
    rw [sn]
    show st0.normals.length = _
    rw [dn]
    simp [ObjLoader.init, fileNormals]
  have lt : st.texcoord.length = (pre.filter isTexcoordLine).length := by
    rw [stx]
    show st0.texcoord.length = _
    rw [dt]
    simp [ObjLoader.init, fileTexcoords]
  have fn : st.hasNormals = true ↔ 0 < (pre.filter isNormalLine).length := by
    rw [sfn]
    show st0.hasNormals = true ↔ _
    rw [dfn, ← any_eq_true_iff_filter]
    simp [ObjLoader.init]
  have ft : st.hasTextureCoordinates = true ↔ 0 < (pre.filter isTexcoordLine).length := by
    rw [sft]
    show st0.hasTextureCoordinates = true ↔ _
    rw [dft, ← any_eq_true_iff_filter]
    simp [ObjLoader.init]
  have fn0 : (pre.filter isNormalLine).length = 0 → st.hasNormals = false := by
    intro hz
    cases hb : st.hasNormals with
    | false => rfl
    | true =>
      have := fn.mp hb
      omega
  have ft0 : (pre.filter isTexcoordLine).length = 0 → st.hasTextureCoordinates = false := by
    intro hz
    cases hb : st.hasTextureCoordinates with
    | false => rfl
    | true =>
      have := ft.mp hb
      omega
  obtain ⟨c1, c2, c3, c4, c5, c6⟩ := mapVertex_checks st _ _ hinv key
  have hfail : ∀ e, mapVertex st key = .error e → loadObj env filename = .error e :=
    fun e herr => loadObj_corner_error env filename pre post line st0 st keys rest key mapped e
      hfile hrun hline hcorners hmap herr
  refine ⟨?_, ?_, ?_, c4, ?_, c6⟩
  · intro hbig
    exact hfail _ (c1 (by rw [lv]; exact hbig))
  · intro hk h1 h2 hN hbig
    exact hfail _ (c2 hk h1 (by rw [lv]; exact h2) (fn.mpr hN) (by rw [ln]; exact hbig))
  · intro hk h1 h2 hnorm hT hbig
    refine hfail _ (c3 hk h1 (by rw [lv]; exact h2) ?_ (ft.mpr hT) (by rw [lt]; exact hbig))
    rcases hnorm with hz | hr
    · exact Or.inl (fn0 hz)
    · exact Or.inr (by rw [ln]; exact hr)
  · intro hk h1 h2 hnorm htex
    refine c5 hk h1 (by rw [lv]; exact h2) ?_ ?_
    · rcases hnorm with hz | hr
      · exact Or.inl (fn0 hz)
      · exact Or.inr (by rw [ln]; exact hr)
    · rcases htex with hz | hr
      · exact Or.inl (ft0 hz)
      · exact Or.inr (by rw [lt]; exact hr)

/-- Witness of `loadObj_unknown_numbers`: after `v 1 2 3` and `vn 0 0 1` the face line
`f 2//1 1//1 1//1` fails on its first corner with `Unknown vertex specified` and the face
line `f 1//2 1//1 1//1` with `Unknown normal specified`; after a further `vt 0 0` the face
line `f 1/2/1 1/1/1 1/1/1` fails with `Unknown texture coordinate specified`. -/
theorem loadObj_unknown_numbers_witness :
    lineCorners "f 2//1 1//1 1//1" = [⟨2, 1, 2⟩, ⟨1, 1, 1⟩, ⟨1, 1, 1⟩] ∧
    loadObj numbersEnv "high.obj" = .error (.runtime_error "Unknown vertex specified") ∧
    lineCorners "f 1//2 1//1 1//1" = [⟨1, 2, 1⟩, ⟨1, 1, 1⟩, ⟨1, 1, 1⟩] ∧
    loadObj numbersEnv "highnormal.obj" =
      .error (.runtime_error "Unknown normal specified") ∧
    lineCorners "f 1/2/1 1/1/1 1/1/1" = [⟨1, 1, 2⟩, ⟨1, 1, 1⟩, ⟨1, 1, 1⟩] ∧
    loadObj numbersEnv "hightexcoord.obj" =
      .error (.runtime_error "Unknown texture coordinate specified") :=
  ⟨by decide,
    (loadObj_unknown_numbers numbersEnv "high.obj" ["v 1 2 3", "vn 0 0 1"] []
      "f 2//1 1//1 1//1" (loaderState (loadObjLines numbersEnv ["v 1 2 3", "vn 0 0 1"]
        ObjLoader.init)) _ [] [⟨1, 1, 1⟩, ⟨1, 1, 1⟩] ⟨2, 1, 2⟩ [] (by rfl) (by rfl)
      (by decide) (by decide) (by rfl)).1 (by decide),
    by decide,
    (loadObj_unknown_numbers numbersEnv "highnormal.obj" ["v 1 2 3", "vn 0 0 1"] []
      "f 1//2 1//1 1//1" (loaderState (loadObjLines numbersEnv ["v 1 2 3", "vn 0 0 1"]
        ObjLoader.init)) _ [] [⟨1, 1, 1⟩, ⟨1, 1, 1⟩] ⟨1, 2, 1⟩ [] (by rfl) (by rfl)
      (by decide) (by decide) (by rfl)).2.1 (by decide) (by decide) (by decide) (by decide)
      (by decide),
    by decide,
    (loadObj_unknown_numbers numbersEnv "hightexcoord.obj"
      ["v 1 2 3", "vn 0 0 1", "vt 0 0"] [] "f 1/2/1 1/1/1 1/1/1"
      (loaderState (loadObjLines numbersEnv ["v 1 2 3", "vn 0 0 1", "vt 0 0"]
        ObjLoader.init)) _ [] [⟨1, 1, 1⟩, ⟨1, 1, 1⟩] ⟨1, 1, 2⟩ [] (by rfl) (by rfl)
      (by decide) (by decide) (by rfl)).2.2.1 (by decide) (by decide) (by decide)
      (by decide) (by decide) (by decide)⟩

end BakeObj
